import Mathlib

/-!
# Verification of the Cards drag-and-drop core

Shallow embedding of the canvas cards program (`cards` repository, main
script). Coordinates, sizes and timestamps are modelled as rationals.
The JS code stores an entity's rotation (`direction`) as one of the float
constants `0`, `Math.PI*0.5`, `Math.PI`, `Math.PI*1.5` and branches on it
by strict equality; we relabel those four constants as the rationals
`0`, `90`, `180`, `270` (an injective renaming — the code never does
arithmetic on `direction`, it only compares it and passes it to the
out-of-scope renderer).  A value outside that set models any other float:
every `switch` falls through, which JS reports as `undefined`; we model
fallthrough with `Option`.

JS object identity (`===`, aliasing between `allObjects`, `dragging.object`
and group membership) is modelled with a heap: cards and groups carry a
numeric id, the scene registry and the drag session store references
(`Ref`), and reads/writes go through the heap.
-/

namespace Cards

/-- Truthiness of a JS value that is either a boolean or `undefined`
(`undefined` is falsy). -/
def truthy (o : Option Bool) : Bool := o.getD false

/-- JS `a <= b` where `b` may be `undefined`/`NaN` (any comparison with
`undefined` is false). -/
def jsLe (a : ℚ) (b : Option ℚ) : Bool :=
  match b with
  | some v => decide (a ≤ v)
  | none => false

/-- JS `a >= b` where `b` may be `undefined`/`NaN`. -/
def jsGe (a : ℚ) (b : Option ℚ) : Bool :=
  match b with
  | some v => decide (v ≤ a)
  | none => false

/-- `Array.prototype.splice` start-index normalisation: a negative start
counts from the end (clamped at 0), a start past the end is clamped to the
length. -/
def jsStart (len : Nat) (start : Int) : Nat :=
  if start < 0 then ((len : Int) + start).toNat else min start.toNat len

/-- `l.splice(start, count)` restricted to removal: returns the removed
elements and the remaining list. -/
def jsSpliceRemove (l : List α) (start : Int) (count : Nat) : List α × List α :=
  let s := jsStart l.length start
  ((l.drop s).take count, l.take s ++ l.drop (s + count))

/-- `l.splice(start, count, ...items)`: the resulting list (removed
elements dropped, `items` inserted at the normalised start). -/
def jsSpliceInsert (l : List α) (start : Int) (count : Nat) (items : List α) : List α :=
  let s := jsStart l.length start
  l.take s ++ items ++ l.drop (s + count)

/-- `Array.prototype.indexOf`: first index of `a`, or `-1`. -/
def jsIndexOf [DecidableEq α] (l : List α) (a : α) : Int :=
  match l.findIdx? (· = a) with
  | some n => (n : Int)
  | none => -1

/-- `Array.prototype.findIndex`: first index satisfying `p`, or `-1`. -/
def jsFindIdx (l : List α) (p : α → Bool) : Int :=
  match l.findIdx? p with
  | some n => (n : Int)
  | none => -1

/-- A `Card` object (constructor `Card` in the source): rank/suit, top-corner
position, scale, image natural dimensions (the card's `image` is abstracted
to its two dimensions, the only data the core reads from it), face-down flag,
rotation, and the transient outline preview (`false`, `"stack"` or
`"pile"` in the source, here `none` / `some`). `id` models JS object
identity. -/
structure Card where
  id : Nat
  num : String
  suit : String
  x : ℚ
  y : ℚ
  size : ℚ
  natW : ℚ
  natH : ℚ
  flipped : Bool
  direction : ℚ
  outline : Option String
deriving DecidableEq, Repr

/-- `width` getter: `image.naturalWidth * size`. -/
def Card.width (c : Card) : ℚ := c.natW * c.size

/-- `height` getter: `image.naturalHeight * size`. -/
def Card.height (c : Card) : ℚ := c.natH * c.size

/-- `cornerX` getter: the x of the corner opposite the anchor, by the
switch on `direction`; `none` models the JS `undefined` of a fallen-through
switch. -/
def Card.cornerX (c : Card) : Option ℚ :=
  if c.direction = 0 then some (c.x + c.width)
  else if c.direction = 90 then some (c.x - c.height)
  else if c.direction = 180 then some (c.x - c.width)
  else if c.direction = 270 then some (c.x + c.height)
  else none

/-- `cornerY` getter. -/
def Card.cornerY (c : Card) : Option ℚ :=
  if c.direction = 0 then some (c.y + c.height)
  else if c.direction = 90 then some (c.y + c.width)
  else if c.direction = 180 then some (c.y - c.height)
  else if c.direction = 270 then some (c.y - c.width)
  else none

/-- `Card.isIn(x, y)`: the rotation-dependent point-in-rectangle test.
Each matched case returns a boolean; a fallen-through switch returns
`undefined` (`none`). -/
def Card.isIn (c : Card) (px py : ℚ) : Option Bool :=
  if c.direction = 0 then
    some (decide (c.x ≤ px) && jsLe px c.cornerX && decide (c.y ≤ py) && jsLe py c.cornerY)
  else if c.direction = 90 then
    some (decide (px ≤ c.x) && jsGe px c.cornerX && decide (c.y ≤ py) && jsLe py c.cornerY)
  else if c.direction = 180 then
    some (decide (px ≤ c.x) && jsGe px c.cornerX && decide (py ≤ c.y) && jsGe py c.cornerY)
  else if c.direction = 270 then
    some (decide (c.x ≤ px) && jsLe px c.cornerX && decide (py ≤ c.y) && jsGe py c.cornerY)
  else none

/-- Setting a card's rotation.  The source has no setter logic at all:
`direction` is a plain mutable property assigned directly
(`this.direction = 0`, `allObjects[0].direction = ...`), so this is a bare
field update. -/
def Card.setDirection (c : Card) (d : ℚ) : Card := { c with direction := d }

/-- The two group classes of the source (`Stack extends Array` and
`Pile extends Array`).  A JS object's class is fixed at construction, so
the kind lives in the reference (see `Ref`); this record holds the mutable
state shared by both classes: the member card references (`this[0]`,
`this[1]`, … of the underlying array), the anchor `X`/`Y` backing the
`x`/`y` accessors, `flipped`, `direction`, and the transient preview
fields (`outlineIndex`/`lastOutline` of Stack, `isOutline` of Pile). -/
structure GroupObj where
  id : Nat
  members : List Nat
  X : ℚ
  Y : ℚ
  flipped : Bool
  direction : ℚ
  outlineIndex : Option Int
  lastOutline : Bool
  isOutline : Bool
deriving DecidableEq, Repr

/-- Which group class a group reference instantiates. -/
inductive GKind where
  | stack
  | pile
deriving DecidableEq, Repr

/-- A reference to a heap object, as stored in `allObjects`, in
`dragging.object` and in `dragging.over`.  `constructor.name` is part of
the reference because a JS object's class never changes. -/
inductive Ref where
  | card (i : Nat)
  | group (k : GKind) (i : Nat)
deriving DecidableEq, Repr

/-- `object.constructor.name.toLowerCase()`, the type tag the handlers
dispatch on. -/
def refTypeStr : Ref → String
  | .card _ => "card"
  | .group .stack _ => "stack"
  | .group .pile _ => "pile"

/-- The drag session record built by the `mousedown` handler (and rebuilt by
the first `mousemove` after an extraction).  Fields the source leaves
`undefined` until assigned (`specCard`, `specCardIndex` for non-Stack
targets, `over`/`overIndex` before the first hover recomputation) are
`Option`s.  The captured `MouseEvent` field `e` is dropped: the core never
reads it back. -/
structure DragInfo where
  type : String
  object : Ref
  x : ℚ
  y : ℚ
  timeStamp : ℚ
  doubleClick : Bool
  specCard : Option Nat
  specCardIndex : Option Int
  draggedYet : Bool
  index : Int
  over : Option Ref
  overIndex : Option Int
deriving DecidableEq, Repr

/-- The whole mutable state of the script: the card and group heaps
(association by `id`; `nextId` supplies fresh ids for the groups the
`mouseup` merge constructs, modelling JS allocation), the scene registry
`allObjects`, and the `dragging` / `lastDragged` globals (`false` ↦
`none`). -/
structure GameState where
  cards : List Card
  groups : List GroupObj
  nextId : Nat
  allObjects : List Ref
  dragging : Option DragInfo
  lastDragged : Option DragInfo
deriving DecidableEq, Repr

/-- Dereference a card id. -/
def GameState.getCard (s : GameState) (i : Nat) : Option Card :=
  s.cards.find? (fun c => c.id = i)

/-- Dereference a group id. -/
def GameState.getGroup (s : GameState) (i : Nat) : Option GroupObj :=
  s.groups.find? (fun g => g.id = i)

/-- Write through a card reference. -/
def GameState.updCard (s : GameState) (i : Nat) (f : Card → Card) : GameState :=
  { s with cards := s.cards.map (fun c => if c.id = i then f c else c) }

/-- Write through a group reference. -/
def GameState.updGroup (s : GameState) (i : Nat) (f : GroupObj → GroupObj) : GameState :=
  { s with groups := s.groups.map (fun g => if g.id = i then f g else g) }

/-- `this[0]` of a group: its first member card. -/
def GameState.groupFirst (s : GameState) (g : GroupObj) : Option Card :=
  g.members.head?.bind s.getCard

/-- Stack `width` getter:
`(length - 1) * 45 * this[0].size + this[0].image.naturalWidth * this[0].size`;
Pile `width` getter: `this[0].image.naturalWidth * this[0].size`.
`undefined` (`none`) when the group is empty. -/
def GameState.groupWidth (s : GameState) (k : GKind) (g : GroupObj) : Option ℚ :=
  (s.groupFirst g).map (fun c0 =>
    match k with
    | .stack => ((g.members.length : ℚ) - 1) * 45 * c0.size + c0.natW * c0.size
    | .pile => c0.natW * c0.size)

/-- Group `height` getter: `this[0].image.naturalHeight * this[0].size`. -/
def GameState.groupHeight (s : GameState) (g : GroupObj) : Option ℚ :=
  (s.groupFirst g).map (fun c0 => c0.natH * c0.size)

/-- Group `cornerX` getter (same switch as `Card.cornerX`, with the group's
own width/height; the group's `x` getter returns the backing `X`). -/
def GameState.groupCornerX (s : GameState) (k : GKind) (g : GroupObj) : Option ℚ :=
  if g.direction = 0 then (s.groupWidth k g).map (fun w => g.X + w)
  else if g.direction = 90 then (s.groupHeight g).map (fun h => g.X - h)
  else if g.direction = 180 then (s.groupWidth k g).map (fun w => g.X - w)
  else if g.direction = 270 then (s.groupHeight g).map (fun h => g.X + h)
  else none

/-- Group `cornerY` getter. -/
def GameState.groupCornerY (s : GameState) (k : GKind) (g : GroupObj) : Option ℚ :=
  if g.direction = 0 then (s.groupHeight g).map (fun h => g.Y + h)
  else if g.direction = 90 then (s.groupWidth k g).map (fun w => g.Y + w)
  else if g.direction = 180 then (s.groupHeight g).map (fun h => g.Y - h)
  else if g.direction = 270 then (s.groupWidth k g).map (fun w => g.Y - w)
  else none

/-- `Stack.isIn` / `Pile.isIn`: identical switch to `Card.isIn` over the
group's corners.  An empty group's corner is `undefined` and every
comparison with it is false. -/
def GameState.groupIsIn (s : GameState) (k : GKind) (g : GroupObj) (px py : ℚ) : Option Bool :=
  if g.direction = 0 then
    some (decide (g.X ≤ px) && jsLe px (s.groupCornerX k g) &&
      decide (g.Y ≤ py) && jsLe py (s.groupCornerY k g))
  else if g.direction = 90 then
    some (decide (px ≤ g.X) && jsGe px (s.groupCornerX k g) &&
      decide (g.Y ≤ py) && jsLe py (s.groupCornerY k g))
  else if g.direction = 180 then
    some (decide (px ≤ g.X) && jsGe px (s.groupCornerX k g) &&
      decide (py ≤ g.Y) && jsGe py (s.groupCornerY k g))
  else if g.direction = 270 then
    some (decide (g.X ≤ px) && jsLe px (s.groupCornerX k g) &&
      decide (py ≤ g.Y) && jsGe py (s.groupCornerY k g))
  else none

/-- The fan-index switch of `Stack.getSpecCard`: the point's offset along
the rotation's fan axis divided by the fixed 22.5 spacing, floored.
`none` models the `index` variable staying `undefined` when the switch
falls through. -/
def fanIndexRaw (g : GroupObj) (px py : ℚ) : Option Int :=
  if g.direction = 0 then some ⌊(px - g.X) / (22.5 : ℚ)⌋
  else if g.direction = 90 then some ⌊(py - g.Y) / (22.5 : ℚ)⌋
  else if g.direction = 180 then some ⌊(g.X - px) / (22.5 : ℚ)⌋
  else if g.direction = 270 then some ⌊(g.Y - py) / (22.5 : ℚ)⌋
  else none

/-- `Stack.getSpecCard(x, y, true, scrub)` — the index-returning form:
`scrub ? (index < this.length ? index : this.length - 1) : index`.
With `index` undefined, `undefined < length` is false, so the scrubbed
form yields `length - 1` while the raw form stays `undefined`.
(Call sites use the default `checkIsIn = false`, so that parameter is not
modelled.) -/
def getSpecCardIndex (g : GroupObj) (px py : ℚ) (scrub : Bool) : Option Int :=
  match fanIndexRaw g px py with
  | some i =>
      some (if scrub then
              (if i < (g.members.length : Int) then i else (g.members.length : Int) - 1)
            else i)
  | none =>
      if scrub then some ((g.members.length : Int) - 1) else none

/-- `Stack.getSpecCard(x, y)` — the card-returning form:
`this[index < this.length ? index : this.length - 1]`; a negative
(or fallen-through, hence `length - 1` on an empty stack) subscript is
`undefined`. -/
def getSpecCardId (g : GroupObj) (px py : ℚ) : Option Nat :=
  let j : Int :=
    match fanIndexRaw g px py with
    | some i => if i < (g.members.length : Int) then i else (g.members.length : Int) - 1
    | none => (g.members.length : Int) - 1
  if j < 0 then none else g.members.get? j.toNat

/-- Reference-polymorphic property reads/writes: the handlers access
`.x`, `.y`, `.flipped`, `.direction` on whatever `allObjects[i]` or
`dragging.object` holds.  A group's `x`/`y` read the backing `X`/`Y`.
Reads of a dangling reference (never produced by the handlers) default. -/
def GameState.refX (s : GameState) : Ref → ℚ
  | .card i => ((s.getCard i).map Card.x).getD 0
  | .group _ i => ((s.getGroup i).map GroupObj.X).getD 0

/-- Reference-polymorphic `y` read. -/
def GameState.refY (s : GameState) : Ref → ℚ
  | .card i => ((s.getCard i).map Card.y).getD 0
  | .group _ i => ((s.getGroup i).map GroupObj.Y).getD 0

/-- Reference-polymorphic `flipped` read. -/
def GameState.refFlipped (s : GameState) : Ref → Bool
  | .card i => ((s.getCard i).map Card.flipped).getD false
  | .group _ i => ((s.getGroup i).map GroupObj.flipped).getD false

/-- Reference-polymorphic `direction` read. -/
def GameState.refDirection (s : GameState) : Ref → ℚ
  | .card i => ((s.getCard i).map Card.direction).getD 0
  | .group _ i => ((s.getGroup i).map GroupObj.direction).getD 0

/-- Reference-polymorphic `x` write.  The group `x` setter also writes
`this[0].x` when the group is nonempty (source: `if (this[0]) this[0].x = a;
this.X = a`). -/
def GameState.setRefX (s : GameState) (r : Ref) (v : ℚ) : GameState :=
  match r with
  | .card i => s.updCard i (fun c => { c with x := v })
  | .group _ i =>
      let s1 :=
        match (s.getGroup i).bind (fun g => g.members.head?) with
        | some c0 => s.updCard c0 (fun c => { c with x := v })
        | none => s
      s1.updGroup i (fun g => { g with X := v })

/-- Reference-polymorphic `y` write (group setter also writes
`this[0].y`). -/
def GameState.setRefY (s : GameState) (r : Ref) (v : ℚ) : GameState :=
  match r with
  | .card i => s.updCard i (fun c => { c with y := v })
  | .group _ i =>
      let s1 :=
        match (s.getGroup i).bind (fun g => g.members.head?) with
        | some c0 => s.updCard c0 (fun c => { c with y := v })
        | none => s
      s1.updGroup i (fun g => { g with Y := v })

/-- Reference-polymorphic `flipped` write (plain property on both kinds). -/
def GameState.setRefFlipped (s : GameState) (r : Ref) (v : Bool) : GameState :=
  match r with
  | .card i => s.updCard i (fun c => { c with flipped := v })
  | .group _ i => s.updGroup i (fun g => { g with flipped := v })

/-- Reference-polymorphic `direction` write (plain property on both
kinds). -/
def GameState.setRefDirection (s : GameState) (r : Ref) (v : ℚ) : GameState :=
  match r with
  | .card i => s.updCard i (fun c => { c with direction := v })
  | .group _ i => s.updGroup i (fun g => { g with direction := v })

/-- Reference-polymorphic `isIn(x, y)`. -/
def GameState.refIsIn (s : GameState) (r : Ref) (px py : ℚ) : Option Bool :=
  match r with
  | .card i => (s.getCard i).bind (fun c => c.isIn px py)
  | .group k i => (s.getGroup i).bind (fun g => s.groupIsIn k g px py)

/-- `allObjects[n]`. -/
def GameState.objAt (s : GameState) (n : Nat) : Option Ref :=
  s.allObjects.get? n

/-- Replace the registry sequence (a JS mutation of `allObjects`). -/
def GameState.setList (s : GameState) (l : List Ref) : GameState :=
  { s with allObjects := l }

/-- Assign the `dragging` global. -/
def GameState.setDragging (s : GameState) (d : Option DragInfo) : GameState :=
  { s with dragging := d }

/-- Assign the `lastDragged` global. -/
def GameState.setLastDragged (s : GameState) (d : Option DragInfo) : GameState :=
  { s with lastDragged := d }

/-- Allocate a fresh group object on the heap (a JS `new Stack`/`new Pile`
allocation; `nextId` models the fresh reference). -/
def GameState.pushGroup (s : GameState) (g : GroupObj) : GameState :=
  { s with groups := s.groups ++ [g], nextId := s.nextId + 1 }

/-- `object.reverse()` guarded by the type check in the `mousedown`
handler: reverses a group's member order in place. -/
def reverseIfGroup (s : GameState) (r : Ref) : GameState :=
  match r with
  | .card _ => s
  | .group _ i => s.updGroup i (fun g => { g with members := g.members.reverse })

/-- The flip block of the `mousedown` handler: the left button turns a
face-down object face-up (reversing a group's member order first), the
right button does the symmetric face-down transition. -/
def flipStep (s : GameState) (object : Ref) (ty : String) (button : Nat) : GameState :=
  if button = 0 then
    (if s.refFlipped object then
       let s' := if ty = "stack" ∨ ty = "pile" then reverseIfGroup s object else s
       s'.setRefFlipped object false
     else s)
  else if button = 2 then
    (if ! s.refFlipped object then
       let s' := if ty = "stack" ∨ ty = "pile" then reverseIfGroup s object else s
       s'.setRefFlipped object true
     else s)
  else s

/-- The `mousedown` handler.  Ignores the event while something is already
being dragged; otherwise hit-tests the registry front to back, flips the
hit object according to the button, opens the drag session (with the
double-click classification and, for a Stack, the press-point spec card
and its index) and raises the hit object to the top of `allObjects`. -/
def mousedown (s : GameState) (px py : ℚ) (button : Nat) (ts : ℚ) : GameState :=
  if s.dragging.isSome then s
  else
    let idx : Int := jsFindIdx s.allObjects (fun r => truthy (s.refIsIn r px py))
    match (if idx < 0 then none else s.allObjects.get? idx.toNat) with
    | none => s
    | some object =>
      let ty := refTypeStr object
      let s1 := flipStep s object ty button
      let dc : Bool :=
        match s1.lastDragged with
        | some ld => decide (ts - ld.timeStamp < 500) && decide (object = ld.object)
        | none => false
      let spec : Option Nat :=
        match object with
        | .group .stack gi => (s1.getGroup gi).bind (fun g => getSpecCardId g px py)
        | _ => none
      let specIdx : Option Int :=
        match object with
        | .group .stack gi =>
            some (match s1.getGroup gi with
                  | some g =>
                      (match getSpecCardId g px py with
                       | some cid => jsIndexOf g.members cid
                       | none => -1)
                  | none => -1)
        | _ => none
      let drag : DragInfo :=
        { type := ty, object := object, x := px, y := py, timeStamp := ts,
          doubleClick := dc, specCard := spec, specCardIndex := specIdx,
          draggedYet := false, index := idx, over := none, overIndex := none }
      let s2 := s1.setDragging (some drag)
      if s2.allObjects.head? = some object then s2
      else
        let p := jsSpliceRemove s2.allObjects (jsIndexOf s2.allObjects object) 1
        s2.setList
          (match p.1.head? with
           | some r => r :: p.2
           | none => p.2)

/-- The degeneration step shared by the Stack and Pile extraction branches
(`if (allObjects[1].length === 1) { … }`): when the entity at registry
index 1 is a group with exactly one remaining member, that member inherits
the group's `flipped` / `direction`, takes position `(X - off, Y - off)`
(the Stack branch uses `off = 0`, the Pile branch `off = 2`), and replaces
the group in the registry (`allObjects.splice(1, 1, allObjects[1][0])`). -/
def degenStep (s : GameState) (off : ℚ) : GameState :=
  match s.objAt 1 with
  | some (.group _ gid) =>
    (match s.getGroup gid with
     | some g =>
       if g.members.length = 1 then
         (match g.members.head? with
          | some c0 =>
            let s := s.updCard c0 (fun c => { c with flipped := g.flipped })
            let s := s.updCard c0 (fun c => { c with direction := g.direction })
            let s := s.updCard c0 (fun c => { c with x := g.X - off })
            let s := s.updCard c0 (fun c => { c with y := g.Y - off })
            s.setList (jsSpliceInsert s.allObjects 1 1 [Ref.card c0])
          | none => s)
       else s
     | none => s)
  | _ => s

/-- First-`mousemove` extraction from a Stack (single click):
`allObjects.unshift(dragging.object.splice(dragging.specCardIndex, 1)[0])`,
copy `flipped`/`direction` from `allObjects[1]` to the extracted card,
degenerate a 1-member remainder, rebuild the session around the card, then
reposition the card along the fan axis by `specCardIndex * 22.5` from
`allObjects[1]` and re-copy `direction`. -/
def firstMoveStack (s : GameState) (d : DragInfo) (cx cy ts : ℚ) : GameState × DragInfo :=
  match d.object with
  | .card _ => (s, d)
  | .group _ gid =>
    match s.getGroup gid with
    | none => (s, d)
    | some g =>
      let sci : Int := d.specCardIndex.getD 0
      let p := jsSpliceRemove g.members sci 1
      let s := s.updGroup gid (fun g2 => { g2 with members := p.2 })
      match p.1.head? with
      | none => (s, d)
      | some cid =>
        let s := s.setList (Ref.card cid :: s.allObjects)
        let s := match s.objAt 1 with
          | some r1 => s.setRefFlipped (.card cid) (s.refFlipped r1)
          | none => s
        let s := match s.objAt 1 with
          | some r1 => s.setRefDirection (.card cid) (s.refDirection r1)
          | none => s
        let s := degenStep s 0
        let d' : DragInfo :=
          { type := "card", object := .card cid, x := cx, y := cy, timeStamp := ts,
            doubleClick := false, specCard := none, specCardIndex := none,
            draggedYet := true, index := 0, over := none, overIndex := none }
        let s := match s.objAt 1 with
          | none => s
          | some r1 =>
            let dir := s.refDirection (.card cid)
            if dir = 0 then
              let s := s.setRefX (.card cid) (s.refX r1 + (sci : ℚ) * 22.5)
              s.setRefY (.card cid) (s.refY r1)
            else if dir = 90 then
              let s := s.setRefX (.card cid) (s.refX r1)
              s.setRefY (.card cid) (s.refY r1 + (sci : ℚ) * 22.5)
            else if dir = 180 then
              let s := s.setRefX (.card cid) (s.refX r1 - (sci : ℚ) * 22.5)
              s.setRefY (.card cid) (s.refY r1)
            else if dir = 270 then
              let s := s.setRefX (.card cid) (s.refX r1)
              s.setRefY (.card cid) (s.refY r1 - (sci : ℚ) * 22.5)
            else s
        let s := match s.objAt 1 with
          | some r1 => s.setRefDirection (.card cid) (s.refDirection r1)
          | none => s
        (s, d')

/-- First-`mousemove` extraction from a Pile (single click):
`allObjects.unshift(dragging.object.shift())`, copy `flipped`/`direction`
from `allObjects[1]`, degenerate with the pile's `(−2, −2)` stagger, and
rebuild the session around the promoted card. -/
def firstMovePile (s : GameState) (d : DragInfo) (cx cy ts : ℚ) : GameState × DragInfo :=
  match d.object with
  | .card _ => (s, d)
  | .group _ gid =>
    match s.getGroup gid with
    | none => (s, d)
    | some g =>
      match g.members with
      | [] => (s, d)
      | c0 :: restm =>
        let s := s.updGroup gid (fun g2 => { g2 with members := restm })
        let s := s.setList (Ref.card c0 :: s.allObjects)
        let s := match s.objAt 1 with
          | some r1 => s.setRefFlipped (.card c0) (s.refFlipped r1)
          | none => s
        let s := match s.objAt 1 with
          | some r1 => s.setRefDirection (.card c0) (s.refDirection r1)
          | none => s
        let s := degenStep s 2
        let d' : DragInfo :=
          { type := "card", object := .card c0, x := cx, y := cy, timeStamp := ts,
            doubleClick := false, specCard := none, specCardIndex := none,
            draggedYet := true, index := 0, over := none, overIndex := none }
        (s, d')

/-- `allObjects[0].x += e.movementX; allObjects[0].y += e.movementY`. -/
def moveHead (s : GameState) (mx my : ℚ) : GameState :=
  match s.objAt 0 with
  | some r0 =>
    let s := s.setRefX r0 (s.refX r0 + mx)
    s.setRefY r0 (s.refY r0 + my)
  | none => s

/-- The movement step of `mousemove`: a Card target always moves; a
Stack/Pile target moves only on a double click. -/
def movePhase (s : GameState) (d : DragInfo) (mx my : ℚ) : GameState :=
  if d.type = "card" then moveHead s mx my
  else if d.type = "stack" then (if d.doubleClick then moveHead s mx my else s)
  else if d.type = "pile" then (if d.doubleClick then moveHead s mx my else s)
  else s

/-- The preview-marking part of the hover recomputation: set the
appropriate transient preview marker on the hovered entity (pile: top
outline; stack: outline index / trailing outline from the unclamped spec
index; card: the fixed `[22.5, 45)` / `[-22.5, 22.5)` horizontal bands
under the `dy < height/2` test). -/
def hoverMark (s : GameState) (d : DragInfo) (ov : Option Ref) (cx cy : ℚ) :
    GameState :=
  match ov with
  | some (.group .pile gi) =>
      s.updGroup gi (fun g => { g with isOutline := true })
  | some (.group .stack gi) =>
      (match s.getGroup gi with
       | some g =>
         let osci := getSpecCardIndex g cx cy false
         let len : Int := g.members.length
         (match osci with
          | some i =>
            if i > len then
              s.updGroup gi (fun g2 => { g2 with lastOutline := true, outlineIndex := some len })
            else
              s.updGroup gi (fun g2 => { g2 with outlineIndex := some i })
          | none =>
              s.updGroup gi (fun g2 => { g2 with outlineIndex := none }))
       | none => s)
  | some (.card ci) =>
      (match s.getCard ci with
       | some hc =>
         let xDiff := s.refX d.object - hc.x
         let yDiff := s.refY d.object - hc.y
         if yDiff < 0.5 * hc.height then
           (if (22.5 : ℚ) ≤ xDiff ∧ xDiff < 45 then
              s.updCard ci (fun c => { c with outline := some "stack" })
            else if (-22.5 : ℚ) ≤ xDiff ∧ xDiff < 22.5 then
              s.updCard ci (fun c => { c with outline := some "pile" })
            else s)
         else s
       | none => s)
  | none => s

/-- The hover recomputation of `mousemove` (only for a Card target):
find the topmost other entity under the pointer, record it in the session
(`overIndex` is the raw `findIndex` result, `over` the entity or
`undefined`), and mark it via `hoverMark`.  Every branch stores the same
session record, so the pair is assembled here. -/
def hoverPhase (s : GameState) (d : DragInfo) (cx cy : ℚ) : GameState × DragInfo :=
  if d.type = "card" then
    let oi : Int := jsFindIdx s.allObjects
      (fun r => decide (r ≠ d.object) && truthy (s.refIsIn r cx cy))
    let ov : Option Ref := if oi < 0 then none else s.allObjects.get? oi.toNat
    (hoverMark s d ov cx cy, { d with overIndex := some oi, over := ov })
  else (s, d)

/-- The `mousemove` handler: no-op while idle; otherwise update the
session's pointer position, run the first-move structural phase (and set
`draggedYet`), apply the movement delta, and recompute the hover. -/
def mousemove (s0 : GameState) (cx cy mx my ts : ℚ) : GameState :=
  match s0.dragging with
  | none => s0
  | some dIn =>
    let d := { dIn with x := cx, y := cy }
    let step1 : GameState × DragInfo :=
      if d.draggedYet then (s0, d)
      else
        let p :=
          if d.type = "card" then (s0, d)
          else if d.type = "stack" then
            (if d.doubleClick then (s0, d) else firstMoveStack s0 d cx cy ts)
          else if d.type = "pile" then
            (if d.doubleClick then (s0, d) else firstMovePile s0 d cx cy ts)
          else (s0, d)
        (p.1, { p.2 with draggedYet := true })
    let s1 := movePhase step1.1 step1.2 mx my
    let p2 := hoverPhase s1 step1.2 cx cy
    p2.1.setDragging (some p2.2)

/-- The `mouseup` merge of the dragged card into a brand-new group when it
is dropped on another card:
`allObjects.splice(0, 1, new Stack(over.x, over.y, allObjects.splice(overIndex, 1)[0], dragging.object))`
followed by copying the hovered card's `flipped`/`direction` onto the new
group.  JS evaluation order: the hovered card's position is read first,
then the hovered card is spliced out of the registry, then the new group
replaces the registry head (the dragged card's standalone entry). -/
def mergeInto (s : GameState) (d : DragInfo) (hc : Card) (k : GKind) : GameState :=
  let oIdx : Int := d.overIndex.getD 0
  let p := jsSpliceRemove s.allObjects oIdx 1
  let memRefs : List Ref := p.1 ++ [d.object]
  let mems : List Nat := memRefs.filterMap (fun r =>
    match r with
    | .card i => some i
    | .group _ _ => none)
  let gid := s.nextId
  let newG : GroupObj :=
    { id := gid, members := mems, X := hc.x, Y := hc.y, flipped := false,
      direction := 0, outlineIndex := none, lastOutline := false, isOutline := false }
  let s := s.pushGroup newG
  let s := s.setList (jsSpliceInsert p.2 0 1 [Ref.group k gid])
  let s := s.updGroup gid (fun g => { g with flipped := hc.flipped })
  s.updGroup gid (fun g => { g with direction := hc.direction })

/-- The `mouseup` handler: no-op while idle; otherwise record the session
as `lastDragged`, perform the drop decided by the recorded hover target
(pile: unshift onto the pile; stack: insert at the spec-card index of the
recorded pointer position; card: the `dx`/`dy` band test choosing Stack /
Pile / nothing), and close the session. -/
def mouseup (s0 : GameState) : GameState :=
  match s0.dragging with
  | none => s0
  | some d =>
    let s := s0.setLastDragged (some d)
    let s :=
      match d.over with
      | none => s
      | some (.group .pile gi) =>
        (match s.objAt 0 with
         | some (.card a0) =>
           let s := s.updGroup gi (fun g => { g with members := a0 :: g.members })
           s.setList (jsSpliceRemove s.allObjects 0 1).2
         | _ => s)
      | some (.group .stack gi) =>
        (match s.getGroup gi, s.objAt 0 with
         | some g, some (.card a0) =>
           let osci := getSpecCardIndex g d.x d.y false
           let len : Int := g.members.length
           let pos : Int :=
             match osci with
             | some i => if i > len then len else i
             | none => 0
           let s := s.updGroup gi (fun g2 =>
             { g2 with members := jsSpliceInsert g2.members pos 0 [a0] })
           let s :=
             if ((s.getGroup gi).map GroupObj.lastOutline).getD false then
               s.updGroup gi (fun g2 => { g2 with outlineIndex := none, lastOutline := false })
             else s
           s.setList (jsSpliceRemove s.allObjects 0 1).2
         | _, _ => s)
      | some (.card hi) =>
        (match s.getCard hi with
         | some hc =>
           let xDiff := s.refX d.object - hc.x
           let yDiff := s.refY d.object - hc.y
           if yDiff < 0.5 * hc.height then
             (if (22.5 : ℚ) ≤ xDiff ∧ xDiff < 45 then mergeInto s d hc .stack
              else if (-22.5 : ℚ) ≤ xDiff ∧ xDiff < 22.5 then mergeInto s d hc .pile
              else s)
           else s
         | none => s)
    s.setDragging none

/-! ### Spec-side definitions

These two definitions are written from the specification's words (not the
source) for the refinement-style claims C4 and C7, to be compared with the
source-derived `isIn` / `getSpecCard`. -/

/-- Spec side (§4.1): the explicit corner containment formulas — corner
`(x+w, y+h)` with both ranges ascending at 0°, `(x-h, y+w)` with the
x-range descending and y ascending at 90°, `(x-w, y-h)` with both
descending at 180°, `(x+h, y-w)` with x ascending and y descending at
270°. -/
def specInside (ax ay w h px py dir : ℚ) : Bool :=
  if dir = 0 then decide (ax ≤ px ∧ px ≤ ax + w ∧ ay ≤ py ∧ py ≤ ay + h)
  else if dir = 90 then decide (px ≤ ax ∧ ax - h ≤ px ∧ ay ≤ py ∧ py ≤ ay + w)
  else if dir = 180 then decide (px ≤ ax ∧ ax - w ≤ px ∧ py ≤ ay ∧ ay - h ≤ py)
  else if dir = 270 then decide (ax ≤ px ∧ px ≤ ax + h ∧ py ≤ ay ∧ ay - w ≤ py)
  else false

/-- Spec side (C7): the rotation-dependent axis distance from the anchor —
`x - this.x` at 0°, `y - this.y` at 90°, `this.x - x` at 180°,
`this.y - y` at 270°. -/
def fanAxisDist (g : GroupObj) (px py : ℚ) : ℚ :=
  if g.direction = 0 then px - g.X
  else if g.direction = 90 then py - g.Y
  else if g.direction = 180 then g.X - px
  else g.Y - py

/-! ### Concrete objects for witnesses and counterexamples -/

/-- A sample face-up card at the default 0.5 scale with the SVG deck's
natural image dimensions. -/
def sampleCard (i : Nat) (x y : ℚ) : Card :=
  { id := i, num := "a", suit := "s", x := x, y := y, size := 0.5,
    natW := 240, natH := 336, flipped := false, direction := 0, outline := none }

/-- A group used by several witnesses: two cards fanned at `(100, 100)`. -/
def wGroup (dir : ℚ) : GroupObj :=
  { id := 0, members := [1, 2], X := 100, Y := 100, flipped := false,
    direction := dir, outlineIndex := none, lastOutline := false,
    isOutline := false }

/-- A state holding `wGroup 90` as a Stack, for the C4 witness. -/
def wState4 : GameState :=
  { cards := [sampleCard 1 100 100, sampleCard 2 0 0], groups := [wGroup 90],
    nextId := 1, allObjects := [Ref.group .stack 0], dragging := none,
    lastDragged := none }

/-- A closed drag record: card 1 was released at timestamp 1000. -/
def wC5Drag : DragInfo :=
  { type := "card", object := Ref.card 1, x := 110, y := 110, timeStamp := 1000,
    doubleClick := false, specCard := none, specCardIndex := none,
    draggedYet := true, index := 0, over := none, overIndex := none }

/-- An idle state with one card on the table and `wC5Drag` as the
last-drag record, for the C5 witness. -/
def wC5State : GameState :=
  { cards := [sampleCard 1 100 100], groups := [], nextId := 0,
    allObjects := [Ref.card 1], dragging := none, lastDragged := some wC5Drag }

/-- An Active state (a drag session in progress), for the C9 witness. -/
def wC9Active : GameState :=
  { wC5State with dragging := some wC5Drag }

/-- The claim's fan-axis offset table: `+x` at 0°, `+y` at 90°, `-x` at
180°, `-y` at 270°. -/
def fanOffset (dir off : ℚ) : ℚ × ℚ :=
  if dir = 0 then (off, 0)
  else if dir = 90 then (0, off)
  else if dir = 180 then (-off, 0)
  else if dir = 270 then (0, -off)
  else (0, 0)

/-- The identity-relevant part of a card's state (everything except the
transient outline preview), used to state what a phase leaves intact. -/
def Card.core (c : Card) : Nat × ℚ × ℚ × ℚ × ℚ × ℚ × Bool × ℚ :=
  (c.id, c.x, c.y, c.size, c.natW, c.natH, c.flipped, c.direction)


/-- A three-card stack group at `(100, 100)`, rotation 0. -/
def wG3 : GroupObj :=
  { id := 0, members := [1, 2, 3], X := 100, Y := 100, flipped := false,
    direction := 0, outlineIndex := none, lastOutline := false,
    isOutline := false }

/-- A single-click stack session targeting `wG3` with spec-card index 1. -/
def wC1Drag : DragInfo :=
  { type := "stack", object := Ref.group .stack 0, x := 130, y := 150,
    timeStamp := 1000, doubleClick := false, specCard := some 2,
    specCardIndex := some 1, draggedYet := false, index := 0, over := none,
    overIndex := none }

/-- The Active state for the C1 witness: `wG3` raised to the top, session
`wC1Drag` open. -/
def wC1State : GameState :=
  { cards := [sampleCard 1 100 100, sampleCard 2 0 0, sampleCard 3 0 0],
    groups := [wG3], nextId := 10,
    allObjects := [Ref.group .stack 0, Ref.card 4],
    dragging := some wC1Drag, lastDragged := none }


/-- A two-card group at `(100, 100)` (used as both a 2-Stack and a
2-Pile in degeneration witnesses). -/
def wG2 : GroupObj :=
  { id := 0, members := [1, 2], X := 100, Y := 100, flipped := false,
    direction := 0, outlineIndex := none, lastOutline := false,
    isOutline := false }

/-- A single-click stack session targeting `wG2` with spec-card index 0. -/
def wC3StackDrag : DragInfo :=
  { type := "stack", object := Ref.group .stack 0, x := 110, y := 110,
    timeStamp := 1000, doubleClick := false, specCard := some 1,
    specCardIndex := some 0, draggedYet := false, index := 0, over := none,
    overIndex := none }

/-- Active state for the stack half of the C3 witness. -/
def wC3StackState : GameState :=
  { cards := [sampleCard 1 100 100, sampleCard 2 0 0], groups := [wG2],
    nextId := 10, allObjects := [Ref.group .stack 0, Ref.card 9],
    dragging := some wC3StackDrag, lastDragged := none }

/-- A single-click pile session targeting `wG2` as a Pile. -/
def wC3PileDrag : DragInfo :=
  { type := "pile", object := Ref.group .pile 0, x := 110, y := 110,
    timeStamp := 1000, doubleClick := false, specCard := none,
    specCardIndex := none, draggedYet := false, index := 0, over := none,
    overIndex := none }

/-- Active state for the pile half of the C3 witness and the C3
counterexample. -/
def wC3PileState : GameState :=
  { cards := [sampleCard 1 100 100, sampleCard 2 0 0], groups := [wG2],
    nextId := 10, allObjects := [Ref.group .pile 0, Ref.card 9],
    dragging := some wC3PileDrag, lastDragged := none }


/-- A card session dragging card 1 with card 2 recorded as hover, for the
C2 witness and counterexample. -/
def wC2Drag : DragInfo :=
  { type := "card", object := Ref.card 1, x := 115, y := 100,
    timeStamp := 1000, doubleClick := false, specCard := none,
    specCardIndex := none, draggedYet := true, index := 0,
    over := some (Ref.card 2), overIndex := some 1 }

/-- Card 1 (scale 0.5) dropped at `dx = 15, dy = 0` over card 2. -/
def wC2State : GameState :=
  { cards := [sampleCard 1 115 100, sampleCard 2 100 100], groups := [],
    nextId := 10, allObjects := [Ref.card 1, Ref.card 2],
    dragging := some wC2Drag, lastDragged := none }


/-- The C10 invariant: whenever a drag session is Active, its target is
the entity at registry index 0. -/
def targetAtTop (s : GameState) : Prop :=
  ∀ d, s.dragging = some d → s.allObjects.head? = some d.object

/-! ### Theorems -/

/-! ### C6: ownership definitions -/

/-- The group id a registry reference points at, if any. -/
def refGid : Ref → Option Nat
  | .card _ => none
  | .group _ gi => some gi

/-- The card ids owned by one registry entry: a standalone Card owns only
itself, a Stack/Pile entry owns its member list (resolved on the heap; an
unresolvable reference owns nothing). -/
def GameState.refCards (s : GameState) (r : Ref) : List Nat :=
  match r with
  | .card i => [i]
  | .group _ gi => ((s.getGroup gi).map GroupObj.members).getD []

/-- The card ids owned by a sequence of registry entries, in order. -/
def GameState.ownedList (s : GameState) (l : List Ref) : List Nat :=
  (l.map s.refCards).flatten

/-- The flattened ownership sequence of the scene: every card id owned by
some entry of `allObjects`, front to back.  The once-ownership invariant
is `Nodup` of this list. -/
def ownedCards (s : GameState) : List Nat :=
  s.ownedList s.allObjects

/-- Session coherence: while a session is open its target is the registry
head, the session's `type` tag is the target's class tag, and a recorded
hover entity is a live registry entry at the recorded `overIndex`,
distinct from the target (which is then a standalone Card). -/
def sessionCoh (s : GameState) : Prop :=
  ∀ d, s.dragging = some d →
    s.allObjects.head? = some d.object ∧
    refTypeStr d.object = d.type ∧
    ∀ r, d.over = some r →
      (∃ ci, d.object = Ref.card ci) ∧ r ≠ d.object ∧
      ∃ k : Int, d.overIndex = some k ∧ 0 ≤ k ∧
        s.allObjects.get? k.toNat = some r

/-- Every Stack/Pile reference in the registry dereferences to a heap
group with at least two members (the script's group-arity discipline:
degeneration removes 1-member groups as soon as they arise). -/
def liveGroupsOk (s : GameState) : Prop :=
  ∀ r ∈ s.allObjects, ∀ k gi, r = Ref.group k gi →
    ∃ g, s.getGroup gi = some g ∧ 2 ≤ g.members.length

/-- Allocation freshness: ids at or above the allocation counter are not
on the group heap. -/
def freshIds (s : GameState) : Prop :=
  ∀ j, s.nextId ≤ j → s.getGroup j = none

/-- The ownership well-formedness invariant of the scene: the flattened
ownership sequence has no duplicates (every live card appears exactly
once, either standalone or through exactly one group entry), group
references are live with the arity the script maintains, allocation is
fresh, and the open session (if any) is coherent with the registry. -/
def WFOwn (s : GameState) : Prop :=
  (ownedCards s).Nodup ∧ freshIds s ∧ liveGroupsOk s ∧ sessionCoh s

/-- Witness scene for the ownership claim: a three-card stack and a
standalone card, idle session. -/
def wC6State : GameState :=
  { cards := [sampleCard 1 100 100, sampleCard 2 0 0, sampleCard 3 0 0,
              sampleCard 4 300 300],
    groups := [wG3], nextId := 10,
    allObjects := [Ref.group .stack 0, Ref.card 4],
    dragging := none, lastDragged := none }

theorem find?_map_comm {α : Type} (l : List α) (h : α → α) (p : α → Bool)
    (hp : ∀ a, p (h a) = p a) :
    (l.map h).find? p = (l.find? p).map h := by
  induction l with
  | nil => rfl
  | cons a t ih =>
    by_cases hpa : p a = true
    · rw [List.map_cons, List.find?_cons_of_pos _ (by rw [hp]; exact hpa),
        List.find?_cons_of_pos _ hpa]
      rfl
    · rw [List.map_cons, List.find?_cons_of_neg _ (by rw [hp]; exact hpa),
        List.find?_cons_of_neg _ hpa, ih]

theorem getCard_id {s : GameState} {j : Nat} {c : Card}
    (h : s.getCard j = some c) : c.id = j := by
  have := List.find?_some h
  simpa using this

theorem getGroup_id {s : GameState} {j : Nat} {g : GroupObj}
    (h : s.getGroup j = some g) : g.id = j := by
  have := List.find?_some h
  simpa using this

theorem getCard_updCard (s : GameState) (i j : Nat) (f : Card → Card)
    (hf : ∀ c, (f c).id = c.id) :
    (s.updCard i f).getCard j =
      (s.getCard j).map (fun c => if c.id = i then f c else c) := by
  unfold GameState.updCard GameState.getCard
  exact find?_map_comm _ _ _ (fun c => by
    by_cases h : c.id = i <;> simp [h, hf])

theorem getGroup_updGroup (s : GameState) (i j : Nat) (f : GroupObj → GroupObj)
    (hf : ∀ g, (f g).id = g.id) :
    (s.updGroup i f).getGroup j =
      (s.getGroup j).map (fun g => if g.id = i then f g else g) := by
  unfold GameState.updGroup GameState.getGroup
  exact find?_map_comm _ _ _ (fun g => by
    by_cases h : g.id = i <;> simp [h, hf])

theorem getCard_updCard_other (s : GameState) (i j : Nat) (f : Card → Card)
    (hf : ∀ c, (f c).id = c.id) (hij : j ≠ i) :
    (s.updCard i f).getCard j = s.getCard j := by
  rw [getCard_updCard s i j f hf]
  cases hc : s.getCard j with
  | none => rfl
  | some c => simp [getCard_id hc, hij]

theorem getCard_updCard_self (s : GameState) (i : Nat) (f : Card → Card)
    (hf : ∀ c, (f c).id = c.id) :
    (s.updCard i f).getCard i = (s.getCard i).map f := by
  rw [getCard_updCard s i i f hf]
  cases hc : s.getCard i with
  | none => rfl
  | some c => simp [getCard_id hc]

theorem getGroup_updGroup_other (s : GameState) (i j : Nat)
    (f : GroupObj → GroupObj) (hf : ∀ g, (f g).id = g.id) (hij : j ≠ i) :
    (s.updGroup i f).getGroup j = s.getGroup j := by
  rw [getGroup_updGroup s i j f hf]
  cases hc : s.getGroup j with
  | none => rfl
  | some g => simp [getGroup_id hc, hij]

theorem getGroup_updGroup_self (s : GameState) (i : Nat)
    (f : GroupObj → GroupObj) (hf : ∀ g, (f g).id = g.id) :
    (s.updGroup i f).getGroup i = (s.getGroup i).map f := by
  rw [getGroup_updGroup s i i f hf]
  cases hc : s.getGroup i with
  | none => rfl
  | some g => simp [getGroup_id hc]

theorem jsSpliceRemove_valid {α : Type} (l : List α) (i : Nat) (a : α)
    (hget : l.get? i = some a) :
    jsSpliceRemove l (i : Int) 1 = ([a], l.eraseIdx i) := by
  have hi : i < l.length := by
    rw [List.get?_eq_getElem?] at hget
    exact (List.getElem?_eq_some.mp hget).1
  have ha : l[i] = a := by
    rw [List.get?_eq_getElem?] at hget
    simpa [List.getElem?_eq_getElem hi] using hget
  have h0 : ¬ ((i : Int) < 0) := Int.not_lt.mpr (Int.natCast_nonneg i)
  unfold jsSpliceRemove jsStart
  rw [if_neg h0]
  simp only [Int.toNat_natCast, Nat.min_eq_left (Nat.le_of_lt hi)]
  rw [List.drop_eq_getElem_cons hi, List.eraseIdx_eq_take_drop_succ]
  simp [ha]

theorem updGroup_members_pres (s : GameState) (i : Nat) (f : GroupObj → GroupObj)
    (hf : ∀ g, (f g).id = g.id) (hm : ∀ g, (f g).members = g.members) (j : Nat) :
    ((s.updGroup i f).getGroup j).map GroupObj.members =
      (s.getGroup j).map GroupObj.members := by
  rw [getGroup_updGroup s i j f hf]
  cases s.getGroup j with
  | none => rfl
  | some g =>
    simp only [Option.map_some']
    by_cases h : g.id = i <;> simp [h, hm]

theorem updCard_core_pres (s : GameState) (i : Nat) (f : Card → Card)
    (hcore : ∀ c, (f c).core = c.core) (j : Nat) :
    ((s.updCard i f).getCard j).map Card.core = (s.getCard j).map Card.core := by
  have hid : ∀ c, (f c).id = c.id := fun c => congrArg (fun p => p.1) (hcore c)
  rw [getCard_updCard s i j f hid]
  cases s.getCard j with
  | none => rfl
  | some c =>
    simp only [Option.map_some']
    by_cases h : c.id = i <;> simp [h, hcore]

/-- `hoverMark` only touches transient preview fields: the registry, the
session fields, every group's membership and every card's core state are
unchanged. -/
theorem hoverMark_frame (s : GameState) (d : DragInfo) (ov : Option Ref)
    (cx cy : ℚ) :
    (hoverMark s d ov cx cy).allObjects = s.allObjects ∧
    (hoverMark s d ov cx cy).dragging = s.dragging ∧
    (hoverMark s d ov cx cy).lastDragged = s.lastDragged ∧
    (hoverMark s d ov cx cy).nextId = s.nextId ∧
    (∀ j, ((hoverMark s d ov cx cy).getGroup j).map GroupObj.members =
      (s.getGroup j).map GroupObj.members) ∧
    (∀ j, ((hoverMark s d ov cx cy).getCard j).map Card.core =
      (s.getCard j).map Card.core) := by
  unfold hoverMark
  dsimp only
  repeat' split
  all_goals
    refine ⟨rfl, rfl, rfl, rfl, fun j => ?_, fun j => ?_⟩
  all_goals
    first
      | rfl
      | (apply updGroup_members_pres <;> (intro g2; rfl))
      | (apply updCard_core_pres <;> (intro c2; rfl))

/-- The state half of `hoverPhase` is a `hoverMark`, so the same frame
facts hold. -/
theorem hoverPhase_frame (s : GameState) (d : DragInfo) (cx cy : ℚ) :
    (hoverPhase s d cx cy).1.allObjects = s.allObjects ∧
    (hoverPhase s d cx cy).1.dragging = s.dragging ∧
    (hoverPhase s d cx cy).1.lastDragged = s.lastDragged ∧
    (hoverPhase s d cx cy).1.nextId = s.nextId ∧
    (∀ j, ((hoverPhase s d cx cy).1.getGroup j).map GroupObj.members =
      (s.getGroup j).map GroupObj.members) ∧
    (∀ j, ((hoverPhase s d cx cy).1.getCard j).map Card.core =
      (s.getCard j).map Card.core) := by
  unfold hoverPhase
  by_cases h : d.type = "card"
  · rw [if_pos h]
    exact hoverMark_frame s d _ cx cy
  · rw [if_neg h]
    exact ⟨rfl, rfl, rfl, rfl, fun j => rfl, fun j => rfl⟩

/-! #### Unconditional lookup-through-update lemmas for the updater shapes
the handlers use. -/

@[simp] theorem getGroup_upd_members (s : GameState) (gid : Nat) (m : List Nat) :
    (s.updGroup gid (fun g2 => { g2 with members := m })).getGroup gid =
      (s.getGroup gid).map (fun g2 => { g2 with members := m }) :=
  getGroup_updGroup_self _ _ _ (fun _ => rfl)

@[simp] theorem getGroup_upd_flipped (s : GameState) (gid : Nat) (v : Bool) :
    (s.updGroup gid (fun g2 => { g2 with flipped := v })).getGroup gid =
      (s.getGroup gid).map (fun g2 => { g2 with flipped := v }) :=
  getGroup_updGroup_self _ _ _ (fun _ => rfl)

@[simp] theorem getGroup_upd_direction (s : GameState) (gid : Nat) (v : ℚ) :
    (s.updGroup gid (fun g2 => { g2 with direction := v })).getGroup gid =
      (s.getGroup gid).map (fun g2 => { g2 with direction := v }) :=
  getGroup_updGroup_self _ _ _ (fun _ => rfl)

@[simp] theorem getGroup_upd_X (s : GameState) (gid : Nat) (v : ℚ) :
    (s.updGroup gid (fun g2 => { g2 with X := v })).getGroup gid =
      (s.getGroup gid).map (fun g2 => { g2 with X := v }) :=
  getGroup_updGroup_self _ _ _ (fun _ => rfl)

@[simp] theorem getGroup_upd_Y (s : GameState) (gid : Nat) (v : ℚ) :
    (s.updGroup gid (fun g2 => { g2 with Y := v })).getGroup gid =
      (s.getGroup gid).map (fun g2 => { g2 with Y := v }) :=
  getGroup_updGroup_self _ _ _ (fun _ => rfl)

@[simp] theorem getCard_upd_flipped (s : GameState) (i : Nat) (v : Bool) :
    (s.updCard i (fun c => { c with flipped := v })).getCard i =
      (s.getCard i).map (fun c => { c with flipped := v }) :=
  getCard_updCard_self _ _ _ (fun _ => rfl)

@[simp] theorem getCard_upd_direction (s : GameState) (i : Nat) (v : ℚ) :
    (s.updCard i (fun c => { c with direction := v })).getCard i =
      (s.getCard i).map (fun c => { c with direction := v }) :=
  getCard_updCard_self _ _ _ (fun _ => rfl)

@[simp] theorem getCard_upd_x (s : GameState) (i : Nat) (v : ℚ) :
    (s.updCard i (fun c => { c with x := v })).getCard i =
      (s.getCard i).map (fun c => { c with x := v }) :=
  getCard_updCard_self _ _ _ (fun _ => rfl)

@[simp] theorem getCard_upd_y (s : GameState) (i : Nat) (v : ℚ) :
    (s.updCard i (fun c => { c with y := v })).getCard i =
      (s.getCard i).map (fun c => { c with y := v }) :=
  getCard_updCard_self _ _ _ (fun _ => rfl)

/-! #### Simp lemmas for the named state modifiers. -/

@[simp] theorem setList_allObjects (s : GameState) (l : List Ref) :
    (s.setList l).allObjects = l := rfl

@[simp] theorem setList_dragging (s : GameState) (l : List Ref) :
    (s.setList l).dragging = s.dragging := rfl

@[simp] theorem setList_lastDragged (s : GameState) (l : List Ref) :
    (s.setList l).lastDragged = s.lastDragged := rfl

@[simp] theorem setList_nextId (s : GameState) (l : List Ref) :
    (s.setList l).nextId = s.nextId := rfl

@[simp] theorem setList_cards (s : GameState) (l : List Ref) :
    (s.setList l).cards = s.cards := rfl

@[simp] theorem setList_groups (s : GameState) (l : List Ref) :
    (s.setList l).groups = s.groups := rfl

@[simp] theorem setList_getCard (s : GameState) (l : List Ref) (j : Nat) :
    (s.setList l).getCard j = s.getCard j := rfl

@[simp] theorem setList_getGroup (s : GameState) (l : List Ref) (j : Nat) :
    (s.setList l).getGroup j = s.getGroup j := rfl

@[simp] theorem setDragging_dragging (s : GameState) (d : Option DragInfo) :
    (s.setDragging d).dragging = d := rfl

@[simp] theorem setDragging_allObjects (s : GameState) (d : Option DragInfo) :
    (s.setDragging d).allObjects = s.allObjects := rfl

@[simp] theorem setDragging_lastDragged (s : GameState) (d : Option DragInfo) :
    (s.setDragging d).lastDragged = s.lastDragged := rfl

@[simp] theorem setDragging_nextId (s : GameState) (d : Option DragInfo) :
    (s.setDragging d).nextId = s.nextId := rfl

@[simp] theorem setDragging_cards (s : GameState) (d : Option DragInfo) :
    (s.setDragging d).cards = s.cards := rfl

@[simp] theorem setDragging_groups (s : GameState) (d : Option DragInfo) :
    (s.setDragging d).groups = s.groups := rfl

@[simp] theorem setDragging_getCard (s : GameState) (d : Option DragInfo) (j : Nat) :
    (s.setDragging d).getCard j = s.getCard j := rfl

@[simp] theorem setDragging_getGroup (s : GameState) (d : Option DragInfo) (j : Nat) :
    (s.setDragging d).getGroup j = s.getGroup j := rfl

@[simp] theorem setLastDragged_lastDragged (s : GameState) (d : Option DragInfo) :
    (s.setLastDragged d).lastDragged = d := rfl

@[simp] theorem setLastDragged_dragging (s : GameState) (d : Option DragInfo) :
    (s.setLastDragged d).dragging = s.dragging := rfl

@[simp] theorem setLastDragged_allObjects (s : GameState) (d : Option DragInfo) :
    (s.setLastDragged d).allObjects = s.allObjects := rfl

@[simp] theorem setLastDragged_nextId (s : GameState) (d : Option DragInfo) :
    (s.setLastDragged d).nextId = s.nextId := rfl

@[simp] theorem setLastDragged_cards (s : GameState) (d : Option DragInfo) :
    (s.setLastDragged d).cards = s.cards := rfl

@[simp] theorem setLastDragged_groups (s : GameState) (d : Option DragInfo) :
    (s.setLastDragged d).groups = s.groups := rfl

@[simp] theorem setLastDragged_getCard (s : GameState) (d : Option DragInfo) (j : Nat) :
    (s.setLastDragged d).getCard j = s.getCard j := rfl

@[simp] theorem setLastDragged_getGroup (s : GameState) (d : Option DragInfo) (j : Nat) :
    (s.setLastDragged d).getGroup j = s.getGroup j := rfl

@[simp] theorem pushGroup_allObjects (s : GameState) (g : GroupObj) :
    (s.pushGroup g).allObjects = s.allObjects := rfl

@[simp] theorem pushGroup_dragging (s : GameState) (g : GroupObj) :
    (s.pushGroup g).dragging = s.dragging := rfl

@[simp] theorem pushGroup_lastDragged (s : GameState) (g : GroupObj) :
    (s.pushGroup g).lastDragged = s.lastDragged := rfl

@[simp] theorem pushGroup_nextId (s : GameState) (g : GroupObj) :
    (s.pushGroup g).nextId = s.nextId + 1 := rfl

@[simp] theorem pushGroup_cards (s : GameState) (g : GroupObj) :
    (s.pushGroup g).cards = s.cards := rfl

@[simp] theorem pushGroup_groups (s : GameState) (g : GroupObj) :
    (s.pushGroup g).groups = s.groups ++ [g] := rfl

@[simp] theorem pushGroup_getCard (s : GameState) (g : GroupObj) (j : Nat) :
    (s.pushGroup g).getCard j = s.getCard j := rfl

theorem pushGroup_getGroup (s : GameState) (g : GroupObj) (j : Nat) :
    (s.pushGroup g).getGroup j =
      ((s.getGroup j).elim (if g.id = j then some g else none) some) := by
  unfold GameState.pushGroup GameState.getGroup
  simp only [List.find?_append]
  cases s.groups.find? (fun g2 => g2.id = j) with
  | none =>
    by_cases h : g.id = j <;> simp [List.find?, h, Option.elim]
  | some g2 => rfl

/-- The session half of `hoverPhase` changes only `over`/`overIndex`. -/
theorem hoverPhase_snd (s : GameState) (d : DragInfo) (cx cy : ℚ) :
    (hoverPhase s d cx cy).2.type = d.type ∧
    (hoverPhase s d cx cy).2.object = d.object ∧
    (hoverPhase s d cx cy).2.doubleClick = d.doubleClick ∧
    (hoverPhase s d cx cy).2.draggedYet = d.draggedYet ∧
    (hoverPhase s d cx cy).2.timeStamp = d.timeStamp := by
  unfold hoverPhase
  by_cases h : d.type = "card"
  · rw [if_pos h]
    exact ⟨rfl, rfl, rfl, rfl, rfl⟩
  · rw [if_neg h]
    exact ⟨rfl, rfl, rfl, rfl, rfl⟩

theorem hoverPhase_fst_allObjects (s : GameState) (d : DragInfo) (cx cy : ℚ) :
    (hoverPhase s d cx cy).1.allObjects = s.allObjects :=
  (hoverPhase_frame s d cx cy).1

theorem hoverPhase_fst_members (s : GameState) (d : DragInfo) (cx cy : ℚ) (j : Nat) :
    ((hoverPhase s d cx cy).1.getGroup j).map GroupObj.members =
      (s.getGroup j).map GroupObj.members :=
  (hoverPhase_frame s d cx cy).2.2.2.2.1 j

theorem hoverPhase_fst_core (s : GameState) (d : DragInfo) (cx cy : ℚ) (j : Nat) :
    ((hoverPhase s d cx cy).1.getCard j).map Card.core =
      (s.getCard j).map Card.core :=
  (hoverPhase_frame s d cx cy).2.2.2.2.2 j

theorem hoverPhase_snd_type (s : GameState) (d : DragInfo) (cx cy : ℚ) :
    (hoverPhase s d cx cy).2.type = d.type :=
  (hoverPhase_snd s d cx cy).1

theorem hoverPhase_snd_object (s : GameState) (d : DragInfo) (cx cy : ℚ) :
    (hoverPhase s d cx cy).2.object = d.object :=
  (hoverPhase_snd s d cx cy).2.1

theorem setRefX_members (s : GameState) (r : Ref) (v : ℚ) (j : Nat) :
    ((s.setRefX r v).getGroup j).map GroupObj.members =
      (s.getGroup j).map GroupObj.members := by
  cases r with
  | card i => rfl
  | group k i =>
    unfold GameState.setRefX
    dsimp only
    cases (s.getGroup i).bind (fun g => g.members.head?) with
    | none =>
      apply updGroup_members_pres <;> intro g2 <;> rfl
    | some c0 =>
      dsimp only
      refine Eq.trans ?_ (rfl :
        ((s.updCard c0 (fun c => { c with x := v })).getGroup j).map GroupObj.members =
          (s.getGroup j).map GroupObj.members)
      apply updGroup_members_pres <;> intro g2 <;> rfl

theorem setRefY_members (s : GameState) (r : Ref) (v : ℚ) (j : Nat) :
    ((s.setRefY r v).getGroup j).map GroupObj.members =
      (s.getGroup j).map GroupObj.members := by
  cases r with
  | card i => rfl
  | group k i =>
    unfold GameState.setRefY
    dsimp only
    cases (s.getGroup i).bind (fun g => g.members.head?) with
    | none =>
      apply updGroup_members_pres <;> intro g2 <;> rfl
    | some c0 =>
      dsimp only
      refine Eq.trans ?_ (rfl :
        ((s.updCard c0 (fun c => { c with y := v })).getGroup j).map GroupObj.members =
          (s.getGroup j).map GroupObj.members)
      apply updGroup_members_pres <;> intro g2 <;> rfl

theorem moveHead_members (s : GameState) (mx my : ℚ) (j : Nat) :
    ((moveHead s mx my).getGroup j).map GroupObj.members =
      (s.getGroup j).map GroupObj.members := by
  unfold moveHead
  cases s.objAt 0 with
  | none => rfl
  | some r0 =>
    dsimp only
    rw [setRefY_members, setRefX_members]

theorem movePhase_members (s : GameState) (d : DragInfo) (mx my : ℚ) (j : Nat) :
    ((movePhase s d mx my).getGroup j).map GroupObj.members =
      (s.getGroup j).map GroupObj.members := by
  unfold movePhase
  split_ifs <;> first | rfl | exact moveHead_members s mx my j

theorem getCard_upd_flipped_ne (s : GameState) (i j : Nat) (v : Bool)
    (h : j ≠ i) :
    (s.updCard i (fun c => { c with flipped := v })).getCard j = s.getCard j :=
  getCard_updCard_other _ _ _ _ (fun _ => rfl) h

theorem getCard_upd_direction_ne (s : GameState) (i j : Nat) (v : ℚ)
    (h : j ≠ i) :
    (s.updCard i (fun c => { c with direction := v })).getCard j = s.getCard j :=
  getCard_updCard_other _ _ _ _ (fun _ => rfl) h

theorem getCard_upd_x_ne (s : GameState) (i j : Nat) (v : ℚ) (h : j ≠ i) :
    (s.updCard i (fun c => { c with x := v })).getCard j = s.getCard j :=
  getCard_updCard_other _ _ _ _ (fun _ => rfl) h

theorem getCard_upd_y_ne (s : GameState) (i j : Nat) (v : ℚ) (h : j ≠ i) :
    (s.updCard i (fun c => { c with y := v })).getCard j = s.getCard j :=
  getCard_updCard_other _ _ _ _ (fun _ => rfl) h

theorem jsSpliceInsert_cons2 {α : Type} (a b x : α) (t : List α) :
    jsSpliceInsert (a :: b :: t) 1 1 [x] = a :: x :: t := by
  unfold jsSpliceInsert jsStart
  rw [if_neg (by norm_num : ¬ ((1 : Int) < 0))]
  rw [show (1 : Int).toNat = 1 from rfl,
    Nat.min_eq_left (by simp [Nat.succ_le_succ])]
  rfl

/-- Claim C4: for all four quarter-turn rotations and all points, the
`isIn` hit test of Card, Stack and Pile returns true exactly when the
point lies between the anchor and the rotation-dependent opposite corner
given by the explicit corner formulas (`specInside`), each kind using its
own width/height. -/
theorem c4_isIn_matches_corner_formulas (s : GameState) (c c0 : Card)
    (g : GroupObj) (px py : ℚ)
    (hc : c.direction = 0 ∨ c.direction = 90 ∨ c.direction = 180 ∨ c.direction = 270)
    (hg : g.direction = 0 ∨ g.direction = 90 ∨ g.direction = 180 ∨ g.direction = 270)
    (h0 : s.groupFirst g = some c0) :
    c.isIn px py = some (specInside c.x c.y c.width c.height px py c.direction) ∧
    s.groupIsIn .stack g px py =
      some (specInside g.X g.Y
        (((g.members.length : ℚ) - 1) * 45 * c0.size + c0.natW * c0.size)
        (c0.natH * c0.size) px py g.direction) ∧
    s.groupIsIn .pile g px py =
      some (specInside g.X g.Y (c0.natW * c0.size) (c0.natH * c0.size) px py
        g.direction) := by
  refine ⟨?_, ?_, ?_⟩
  · rcases hc with h | h | h | h <;>
      simp [Card.isIn, Card.cornerX, Card.cornerY, specInside, jsLe, jsGe, h,
        Bool.and_assoc, and_assoc]
  · rcases hg with h | h | h | h <;>
      simp [GameState.groupIsIn, GameState.groupCornerX, GameState.groupCornerY,
        GameState.groupWidth, GameState.groupHeight, specInside, jsLe, jsGe, h, h0,
        Bool.and_assoc, and_assoc]
  · rcases hg with h | h | h | h <;>
      simp [GameState.groupIsIn, GameState.groupCornerX, GameState.groupCornerY,
        GameState.groupWidth, GameState.groupHeight, specInside, jsLe, jsGe, h, h0,
        Bool.and_assoc, and_assoc]

/-- Witness for C4: a concrete card (rotation 0) and a concrete 2-card
stack/pile (rotation 90) on which the hit tests evaluate to the corner
formulas. -/
theorem c4_witness :
    (sampleCard 1 100 100).isIn 120 130 = some true ∧
    wState4.groupIsIn .stack (wGroup 90) 40 230 = some true ∧
    wState4.groupIsIn .pile (wGroup 90) 40 230 = some false := by
  have h := c4_isIn_matches_corner_formulas wState4 (sampleCard 1 100 100)
    (sampleCard 1 100 100) (wGroup 90) 40 230
    (Or.inl rfl) (Or.inr (Or.inl rfl)) rfl
  have h' := c4_isIn_matches_corner_formulas wState4 (sampleCard 1 100 100)
    (sampleCard 1 100 100) (wGroup 90) 120 130
    (Or.inl rfl) (Or.inr (Or.inl rfl)) rfl
  refine ⟨?_, ?_, ?_⟩
  · rw [h'.1]; norm_num [specInside, sampleCard, Card.width, Card.height]
  · rw [h.2.1]; norm_num [specInside, sampleCard, wGroup]
  · rw [h.2.2]; norm_num [specInside, sampleCard, wGroup]

/-- Claim C7: `Stack.getSpecCard` computes the fan index as the floor of
the rotation-dependent axis distance from the anchor divided by the fixed
22.5 spacing unit; the clamped form turns every index `≥ length` into
`length - 1`, and the raw form returns the computed index unchanged. -/
theorem c7_getSpecCard_fan_index (g : GroupObj) (px py : ℚ)
    (hd : g.direction = 0 ∨ g.direction = 90 ∨ g.direction = 180 ∨ g.direction = 270) :
    getSpecCardIndex g px py false = some ⌊fanAxisDist g px py / (22.5 : ℚ)⌋ ∧
    getSpecCardIndex g px py true =
      some (if (g.members.length : Int) ≤ ⌊fanAxisDist g px py / (22.5 : ℚ)⌋
            then (g.members.length : Int) - 1
            else ⌊fanAxisDist g px py / (22.5 : ℚ)⌋) := by
  rcases hd with h | h | h | h <;>
    · constructor
      · simp [getSpecCardIndex, fanIndexRaw, fanAxisDist, h]
      · simp only [getSpecCardIndex, fanIndexRaw, fanAxisDist, h, if_pos, if_neg,
          if_true, if_false]
        norm_num
        split_ifs <;> first | rfl | omega

/-- Witness for C7: a concrete rotation-0 stack of two cards with the
press point far past the fan, where the raw index is 4 and the clamped
index is `length - 1 = 1`. -/
theorem c7_witness :
    getSpecCardIndex (wGroup 0) 200 100 false = some 4 ∧
    getSpecCardIndex (wGroup 0) 200 100 true = some 1 := by
  have h := c7_getSpecCard_fan_index (wGroup 0) 200 100 (Or.inl rfl)
  have hf : ⌊fanAxisDist (wGroup 0) 200 100 / (22.5 : ℚ)⌋ = 4 := by
    norm_num [fanAxisDist, wGroup]
  refine ⟨?_, ?_⟩
  · rw [h.1, hf]
  · rw [h.2, hf]; norm_num [wGroup]

/-- Claim C8 counterexample: the code has no validation at the point a
rotation is assigned.  Assigning the out-of-set rotation 45 to a concrete
card succeeds (the value is stored verbatim) and the unsupported value
then reaches the geometry math, whose switches all fall through and
return `undefined` instead of rejecting — contradicting the claim that
such a value "is rejected at the point the rotation is set" and "never
reaches the geometry math". -/
theorem c8_counterexample :
    ((sampleCard 1 100 100).setDirection 45).direction = 45 ∧
    ((sampleCard 1 100 100).setDirection 45).isIn 100 100 = none ∧
    ((sampleCard 1 100 100).setDirection 45).cornerX = none ∧
    ((sampleCard 1 100 100).setDirection 45).cornerY = none := by
  decide

/-- Claim C8 amended: rotation assignment is a plain unvalidated field
write, so any value outside {0°, 90°, 180°, 270°} is stored as-is and does
reach the geometry math; there, every rotation switch falls through, so
`isIn`, `cornerX`, `cornerY` and the `getSpecCard` fan index all evaluate
to `undefined` (the point is treated as not inside) rather than being
rejected. -/
theorem c8_rotation_not_validated (c : Card) (g : GroupObj) (v px py : ℚ)
    (hv : v ≠ 0 ∧ v ≠ 90 ∧ v ≠ 180 ∧ v ≠ 270) (hgd : g.direction = v) :
    (c.setDirection v).direction = v ∧
    (c.setDirection v).isIn px py = none ∧
    (c.setDirection v).cornerX = none ∧
    (c.setDirection v).cornerY = none ∧
    fanIndexRaw g px py = none := by
  obtain ⟨h1, h2, h3, h4⟩ := hv
  exact ⟨rfl, by simp [Card.isIn, Card.setDirection, h1, h2, h3, h4],
    by simp [Card.cornerX, Card.setDirection, h1, h2, h3, h4],
    by simp [Card.cornerY, Card.setDirection, h1, h2, h3, h4],
    by simp [fanIndexRaw, hgd, h1, h2, h3, h4]⟩

/-- Witness for the amended C8 at the concrete rotation 45. -/
theorem c8_witness :
    ((sampleCard 1 100 100).setDirection 45).isIn 100 100 = none ∧
    fanIndexRaw (wGroup 45) 100 100 = none := by
  have h := c8_rotation_not_validated (sampleCard 1 100 100) (wGroup 45) 45 100 100
    (by refine ⟨?_, ?_, ?_, ?_⟩ <;> norm_num) rfl
  exact ⟨h.2.1, h.2.2.2.2⟩

/-! #### Frame lemmas: which parts of the state each heap operation leaves
untouched. -/

@[simp] theorem updCard_frame (s : GameState) (i : Nat) (f : Card → Card) :
    (s.updCard i f).groups = s.groups ∧ (s.updCard i f).nextId = s.nextId ∧
    (s.updCard i f).allObjects = s.allObjects ∧
    (s.updCard i f).dragging = s.dragging ∧
    (s.updCard i f).lastDragged = s.lastDragged :=
  ⟨rfl, rfl, rfl, rfl, rfl⟩

@[simp] theorem updCard_groups (s : GameState) (i : Nat) (f : Card → Card) :
    (s.updCard i f).groups = s.groups := rfl

@[simp] theorem updCard_nextId (s : GameState) (i : Nat) (f : Card → Card) :
    (s.updCard i f).nextId = s.nextId := rfl

@[simp] theorem updCard_allObjects (s : GameState) (i : Nat) (f : Card → Card) :
    (s.updCard i f).allObjects = s.allObjects := rfl

@[simp] theorem updCard_dragging (s : GameState) (i : Nat) (f : Card → Card) :
    (s.updCard i f).dragging = s.dragging := rfl

@[simp] theorem updCard_lastDragged (s : GameState) (i : Nat) (f : Card → Card) :
    (s.updCard i f).lastDragged = s.lastDragged := rfl

@[simp] theorem updGroup_cards (s : GameState) (i : Nat) (f : GroupObj → GroupObj) :
    (s.updGroup i f).cards = s.cards := rfl

@[simp] theorem updGroup_nextId (s : GameState) (i : Nat) (f : GroupObj → GroupObj) :
    (s.updGroup i f).nextId = s.nextId := rfl

@[simp] theorem updGroup_allObjects (s : GameState) (i : Nat) (f : GroupObj → GroupObj) :
    (s.updGroup i f).allObjects = s.allObjects := rfl

@[simp] theorem updGroup_dragging (s : GameState) (i : Nat) (f : GroupObj → GroupObj) :
    (s.updGroup i f).dragging = s.dragging := rfl

@[simp] theorem updGroup_lastDragged (s : GameState) (i : Nat) (f : GroupObj → GroupObj) :
    (s.updGroup i f).lastDragged = s.lastDragged := rfl

@[simp] theorem updGroup_getCard (s : GameState) (i : Nat) (f : GroupObj → GroupObj)
    (j : Nat) : (s.updGroup i f).getCard j = s.getCard j := rfl

@[simp] theorem updCard_getGroup (s : GameState) (i : Nat) (f : Card → Card)
    (j : Nat) : (s.updCard i f).getGroup j = s.getGroup j := rfl

@[simp] theorem setRefX_allObjects (s : GameState) (r : Ref) (v : ℚ) :
    (s.setRefX r v).allObjects = s.allObjects := by
  cases r with
  | card i => rfl
  | group k i =>
    simp only [GameState.setRefX]
    cases (s.getGroup i).bind (fun g => g.members.head?) <;> rfl

@[simp] theorem setRefX_dragging (s : GameState) (r : Ref) (v : ℚ) :
    (s.setRefX r v).dragging = s.dragging := by
  cases r with
  | card i => rfl
  | group k i =>
    simp only [GameState.setRefX]
    cases (s.getGroup i).bind (fun g => g.members.head?) <;> rfl

@[simp] theorem setRefX_lastDragged (s : GameState) (r : Ref) (v : ℚ) :
    (s.setRefX r v).lastDragged = s.lastDragged := by
  cases r with
  | card i => rfl
  | group k i =>
    simp only [GameState.setRefX]
    cases (s.getGroup i).bind (fun g => g.members.head?) <;> rfl

@[simp] theorem setRefX_nextId (s : GameState) (r : Ref) (v : ℚ) :
    (s.setRefX r v).nextId = s.nextId := by
  cases r with
  | card i => rfl
  | group k i =>
    simp only [GameState.setRefX]
    cases (s.getGroup i).bind (fun g => g.members.head?) <;> rfl

@[simp] theorem setRefY_allObjects (s : GameState) (r : Ref) (v : ℚ) :
    (s.setRefY r v).allObjects = s.allObjects := by
  cases r with
  | card i => rfl
  | group k i =>
    simp only [GameState.setRefY]
    cases (s.getGroup i).bind (fun g => g.members.head?) <;> rfl

@[simp] theorem setRefY_dragging (s : GameState) (r : Ref) (v : ℚ) :
    (s.setRefY r v).dragging = s.dragging := by
  cases r with
  | card i => rfl
  | group k i =>
    simp only [GameState.setRefY]
    cases (s.getGroup i).bind (fun g => g.members.head?) <;> rfl

@[simp] theorem setRefY_lastDragged (s : GameState) (r : Ref) (v : ℚ) :
    (s.setRefY r v).lastDragged = s.lastDragged := by
  cases r with
  | card i => rfl
  | group k i =>
    simp only [GameState.setRefY]
    cases (s.getGroup i).bind (fun g => g.members.head?) <;> rfl

@[simp] theorem setRefY_nextId (s : GameState) (r : Ref) (v : ℚ) :
    (s.setRefY r v).nextId = s.nextId := by
  cases r with
  | card i => rfl
  | group k i =>
    simp only [GameState.setRefY]
    cases (s.getGroup i).bind (fun g => g.members.head?) <;> rfl

@[simp] theorem setRefFlipped_allObjects (s : GameState) (r : Ref) (v : Bool) :
    (s.setRefFlipped r v).allObjects = s.allObjects := by
  cases r <;> rfl

@[simp] theorem setRefFlipped_dragging (s : GameState) (r : Ref) (v : Bool) :
    (s.setRefFlipped r v).dragging = s.dragging := by
  cases r <;> rfl

@[simp] theorem setRefFlipped_lastDragged (s : GameState) (r : Ref) (v : Bool) :
    (s.setRefFlipped r v).lastDragged = s.lastDragged := by
  cases r <;> rfl

@[simp] theorem setRefFlipped_nextId (s : GameState) (r : Ref) (v : Bool) :
    (s.setRefFlipped r v).nextId = s.nextId := by
  cases r <;> rfl

@[simp] theorem setRefDirection_allObjects (s : GameState) (r : Ref) (v : ℚ) :
    (s.setRefDirection r v).allObjects = s.allObjects := by
  cases r <;> rfl

@[simp] theorem setRefDirection_dragging (s : GameState) (r : Ref) (v : ℚ) :
    (s.setRefDirection r v).dragging = s.dragging := by
  cases r <;> rfl

@[simp] theorem setRefDirection_lastDragged (s : GameState) (r : Ref) (v : ℚ) :
    (s.setRefDirection r v).lastDragged = s.lastDragged := by
  cases r <;> rfl

@[simp] theorem setRefDirection_nextId (s : GameState) (r : Ref) (v : ℚ) :
    (s.setRefDirection r v).nextId = s.nextId := by
  cases r <;> rfl

@[simp] theorem reverseIfGroup_allObjects (s : GameState) (r : Ref) :
    (reverseIfGroup s r).allObjects = s.allObjects := by
  cases r <;> rfl

@[simp] theorem reverseIfGroup_dragging (s : GameState) (r : Ref) :
    (reverseIfGroup s r).dragging = s.dragging := by
  cases r <;> rfl

@[simp] theorem reverseIfGroup_lastDragged (s : GameState) (r : Ref) :
    (reverseIfGroup s r).lastDragged = s.lastDragged := by
  cases r <;> rfl

@[simp] theorem reverseIfGroup_nextId (s : GameState) (r : Ref) :
    (reverseIfGroup s r).nextId = s.nextId := by
  cases r <;> rfl

@[simp] theorem flipStep_allObjects (s : GameState) (r : Ref) (ty : String)
    (b : Nat) : (flipStep s r ty b).allObjects = s.allObjects := by
  unfold flipStep
  split_ifs <;> simp

@[simp] theorem flipStep_dragging (s : GameState) (r : Ref) (ty : String)
    (b : Nat) : (flipStep s r ty b).dragging = s.dragging := by
  unfold flipStep
  split_ifs <;> simp

@[simp] theorem flipStep_lastDragged (s : GameState) (r : Ref) (ty : String)
    (b : Nat) : (flipStep s r ty b).lastDragged = s.lastDragged := by
  unfold flipStep
  split_ifs <;> simp

@[simp] theorem flipStep_nextId (s : GameState) (r : Ref) (ty : String)
    (b : Nat) : (flipStep s r ty b).nextId = s.nextId := by
  unfold flipStep
  split_ifs <;> simp

@[simp] theorem moveHead_allObjects (s : GameState) (mx my : ℚ) :
    (moveHead s mx my).allObjects = s.allObjects := by
  unfold moveHead
  cases s.objAt 0 <;> simp

@[simp] theorem moveHead_dragging (s : GameState) (mx my : ℚ) :
    (moveHead s mx my).dragging = s.dragging := by
  unfold moveHead
  cases s.objAt 0 <;> simp

@[simp] theorem moveHead_lastDragged (s : GameState) (mx my : ℚ) :
    (moveHead s mx my).lastDragged = s.lastDragged := by
  unfold moveHead
  cases s.objAt 0 <;> simp

@[simp] theorem moveHead_nextId (s : GameState) (mx my : ℚ) :
    (moveHead s mx my).nextId = s.nextId := by
  unfold moveHead
  cases s.objAt 0 <;> simp

@[simp] theorem movePhase_allObjects (s : GameState) (d : DragInfo) (mx my : ℚ) :
    (movePhase s d mx my).allObjects = s.allObjects := by
  unfold movePhase
  split_ifs <;> simp

@[simp] theorem movePhase_dragging (s : GameState) (d : DragInfo) (mx my : ℚ) :
    (movePhase s d mx my).dragging = s.dragging := by
  unfold movePhase
  split_ifs <;> simp

@[simp] theorem movePhase_lastDragged (s : GameState) (d : DragInfo) (mx my : ℚ) :
    (movePhase s d mx my).lastDragged = s.lastDragged := by
  unfold movePhase
  split_ifs <;> simp

@[simp] theorem movePhase_nextId (s : GameState) (d : DragInfo) (mx my : ℚ) :
    (movePhase s d mx my).nextId = s.nextId := by
  unfold movePhase
  split_ifs <;> simp

/-- Claim C5: a press is classified as a double click iff the hit entity
is the same object as the last-drag record's target and the elapsed time
since that record's timestamp is strictly below 500 ms (so 499 ms on the
same entity is a double click and 500 ms or more is not). -/
theorem c5_double_click_classification (s : GameState) (px py ts : ℚ)
    (b idx : Nat) (ld : DragInfo) (o : Ref)
    (hIdle : s.dragging = none)
    (hld : s.lastDragged = some ld)
    (hFind : jsFindIdx s.allObjects (fun r => truthy (s.refIsIn r px py)) = (idx : Int))
    (hGet : s.allObjects.get? idx = some o) :
    ∃ d, (mousedown s px py b ts).dragging = some d ∧
      (d.doubleClick = true ↔ (ts - ld.timeStamp < 500 ∧ o = ld.object)) := by
  unfold mousedown
  rw [hIdle]
  simp only [Option.isSome_none, Bool.false_eq_true, if_false, hFind]
  have hn : ¬ ((idx : Int) < 0) := Int.not_lt.mpr (Int.natCast_nonneg idx)
  rw [if_neg hn]
  simp only [Int.toNat_natCast, hGet]
  simp only [apply_ite GameState.dragging, setList_dragging, setDragging_dragging,
    ite_self]
  refine ⟨_, rfl, ?_⟩
  simp only [flipStep_lastDragged, hld]
  simp

/-- Witness for C5: pressing the sample card 499 ms after a recorded drag
of the same card is classified as a double click. -/
theorem c5_witness :
    ∃ d, (mousedown wC5State 110 110 0 1499).dragging = some d ∧
      (d.doubleClick = true ↔ ((1499 : ℚ) - wC5Drag.timeStamp < 500 ∧ Ref.card 1 = wC5Drag.object)) := by
  have hIn : truthy (wC5State.refIsIn (Ref.card 1) 110 110) = true := by
    norm_num [truthy, GameState.refIsIn, wC5State, GameState.getCard, List.find?,
      sampleCard, Card.isIn, jsLe, Card.cornerX, Card.cornerY, Card.width, Card.height]
  refine c5_double_click_classification wC5State 110 110 1499 0 0 wC5Drag (Ref.card 1)
    rfl rfl ?_ rfl
  show jsFindIdx wC5State.allObjects _ = ((0 : Nat) : Int)
  rw [show wC5State.allObjects = [Ref.card 1] from rfl]
  simp [jsFindIdx, List.findIdx?, hIn]

/-- Claim C9: a pointer-down while a session is Active, and a
pointer-move or pointer-up while Idle, are silently ignored — the whole
state (registry, heaps, session, last-drag record) is returned
unchanged. -/
theorem c9_spurious_events_ignored (s : GameState) (px py ts cx cy mx my ts2 : ℚ)
    (b : Nat) :
    (s.dragging.isSome = true → mousedown s px py b ts = s) ∧
    (s.dragging = none → mousemove s cx cy mx my ts2 = s ∧ mouseup s = s) := by
  constructor
  · intro h
    unfold mousedown
    rw [if_pos h]
  · intro h
    constructor
    · unfold mousemove
      rw [h]
    · unfold mouseup
      rw [h]

/-- Witness for C9 at concrete states: an Active state ignores a second
press, an Idle state ignores a move and a release. -/
theorem c9_witness :
    mousedown wC9Active 110 110 0 1234 = wC9Active ∧
    mousemove wState4 1 2 3 4 5 = wState4 ∧
    mouseup wState4 = wState4 :=
  ⟨(c9_spurious_events_ignored wC9Active 110 110 1234 0 0 0 0 0 0).1 rfl,
    ((c9_spurious_events_ignored wState4 0 0 0 1 2 3 4 5 0).2 rfl).1,
    ((c9_spurious_events_ignored wState4 0 0 0 1 2 3 4 5 0).2 rfl).2⟩


theorem firstMoveStack_spec (s : GameState) (d : DragInfo) (cx cy ts : ℚ)
    (gid i cid : Nat) (g : GroupObj) (c : Card) (rest : List Ref)
    (hobj : d.object = Ref.group .stack gid)
    (hhead : s.allObjects = Ref.group .stack gid :: rest)
    (hg : s.getGroup gid = some g)
    (hsci : d.specCardIndex = some (i : Int))
    (hcid : g.members.get? i = some cid)
    (hlen : 3 ≤ g.members.length)
    (hc : s.getCard cid = some c)
    (hdir : g.direction = 0 ∨ g.direction = 90 ∨ g.direction = 180 ∨ g.direction = 270) :
    (firstMoveStack s d cx cy ts).2 =
      { type := "card", object := Ref.card cid, x := cx, y := cy, timeStamp := ts,
        doubleClick := false, specCard := none, specCardIndex := none,
        draggedYet := true, index := 0, over := none, overIndex := none } ∧
    (firstMoveStack s d cx cy ts).1.allObjects = Ref.card cid :: s.allObjects ∧
    (firstMoveStack s d cx cy ts).1.getGroup gid =
      some { g with members := g.members.eraseIdx i } ∧
    (firstMoveStack s d cx cy ts).1.getCard cid =
      some { c with flipped := g.flipped, direction := g.direction,
                    x := g.X + (fanOffset g.direction ((i : ℚ) * 22.5)).1,
                    y := g.Y + (fanOffset g.direction ((i : ℚ) * 22.5)).2 } := by
  have hilt : i < g.members.length := by
    rw [List.get?_eq_getElem?] at hcid
    exact (List.getElem?_eq_some.mp hcid).1
  have herase : (g.members.eraseIdx i).length = g.members.length - 1 := by
    rw [List.length_eraseIdx]
    simp [hilt]
  have hne1 : ¬ ((g.members.eraseIdx i).length = 1) := by omega
  unfold firstMoveStack
  rw [hobj]
  dsimp only
  rw [hg, hsci]
  dsimp only [Option.getD_some]
  rw [jsSpliceRemove_valid g.members i cid hcid]
  dsimp only [List.head?_cons]
  have n90 : (90 : ℚ) ≠ 0 := by norm_num
  have n180 : (180 : ℚ) ≠ 0 := by norm_num
  have n270 : (270 : ℚ) ≠ 0 := by norm_num
  have m180 : (180 : ℚ) ≠ 90 := by norm_num
  have m270 : (270 : ℚ) ≠ 90 := by norm_num
  have k270 : (270 : ℚ) ≠ 180 := by norm_num
  rcases hdir with h | h | h | h <;>
    simp only [GameState.objAt, GameState.setRefFlipped, GameState.setRefDirection,
      GameState.setRefX, GameState.setRefY, GameState.refFlipped,
      GameState.refDirection, GameState.refX, GameState.refY, degenStep,
      setList_allObjects, setList_getGroup, setList_getCard, setList_dragging,
      updGroup_allObjects, updCard_allObjects, updGroup_getCard, updCard_getGroup,
      getGroup_upd_members, getGroup_upd_flipped, getGroup_upd_direction,
      getCard_upd_flipped, getCard_upd_direction, getCard_upd_x, getCard_upd_y,
      hhead, hg, hc, hne1, h,
      n90, n180, n270, m180, m270, k270,
      List.get?_cons_succ, List.get?_cons_zero, List.head?_cons,
      Option.map_some', Option.getD_some, Option.some.injEq,
      fanOffset, Int.cast_natCast, add_zero, sub_eq_add_neg,
      if_true, if_false, ite_true, ite_false, eq_self_iff_true, not_true, not_false_iff] <;>
    exact ⟨trivial, trivial, trivial, trivial⟩


/-- Claim C1: on the first pointer-move of an Active session whose target
is a Stack with `doubleClick = false`, the press-time spec card is removed
from the Stack at its recorded index and prepended to the registry as a
standalone Card; the card inherits the remaining Stack's face-down flag
and rotation, is positioned on the fan axis at `specCardIndex * 22.5`
from the remaining Stack's anchor (`+x` at 0°, `+y` at 90°, `-x` at 180°,
`-y` at 270°), and the session is retargeted to this Card.  Stated for a
zero movement delta so the extraction placement is directly observable. -/
theorem c1_stack_extraction (s : GameState) (d : DragInfo) (cx cy ts : ℚ)
    (gid i cid : Nat) (g : GroupObj) (c : Card) (rest : List Ref)
    (hd : s.dragging = some d)
    (htype : d.type = "stack")
    (hdc : d.doubleClick = false)
    (hdy : d.draggedYet = false)
    (hobj : d.object = Ref.group .stack gid)
    (hhead : s.allObjects = Ref.group .stack gid :: rest)
    (hg : s.getGroup gid = some g)
    (hsci : d.specCardIndex = some (i : Int))
    (hcid : g.members.get? i = some cid)
    (hlen : 3 ≤ g.members.length)
    (hc : s.getCard cid = some c)
    (hdir : g.direction = 0 ∨ g.direction = 90 ∨ g.direction = 180 ∨ g.direction = 270) :
    (mousemove s cx cy 0 0 ts).allObjects = Ref.card cid :: s.allObjects ∧
    ((mousemove s cx cy 0 0 ts).getGroup gid).map GroupObj.members =
      some (g.members.eraseIdx i) ∧
    ((mousemove s cx cy 0 0 ts).getCard cid).map Card.core =
      some (Card.core
        { c with flipped := g.flipped, direction := g.direction,
                 x := g.X + (fanOffset g.direction ((i : ℚ) * 22.5)).1,
                 y := g.Y + (fanOffset g.direction ((i : ℚ) * 22.5)).2 }) ∧
    (∃ d2, (mousemove s cx cy 0 0 ts).dragging = some d2 ∧
      d2.type = "card" ∧ d2.object = Ref.card cid) := by
  have hspec := firstMoveStack_spec s { d with x := cx, y := cy } cx cy ts gid i cid g c rest
    hobj hhead hg hsci hcid hlen hc hdir
  unfold mousemove
  rw [hd]
  dsimp only
  rw [htype, hdc, hdy]
  simp only [String.reduceEq, if_false, Bool.false_eq_true, ite_false, ite_true, if_true]
  rw [htype, hdc, hdy] at hspec
  obtain ⟨hd2, hAll, hGrp, hCrd⟩ := hspec
  rw [hd2]
  dsimp only
  refine ⟨?_, ?_, ?_, ?_⟩
  · simp only [setDragging_allObjects, hoverPhase_fst_allObjects, movePhase_allObjects, hAll]
  · simp only [setDragging_getGroup]
    rw [hoverPhase_fst_members, movePhase_members, hGrp]
    rfl
  · simp only [setDragging_getCard]
    rw [hoverPhase_fst_core]
    simp only [movePhase, moveHead, String.reduceEq, if_true, ite_true, GameState.objAt,
      hAll, List.get?_cons_zero, GameState.setRefX, GameState.setRefY, GameState.refX,
      GameState.refY, getCard_upd_x, getCard_upd_y, hCrd, Option.map_some',
      Option.getD_some, add_zero, Card.core]
  · refine ⟨_, rfl, ?_, ?_⟩
    · rw [hoverPhase_snd_type]
    · rw [hoverPhase_snd_object]


/-- Witness for C1: extracting spec-card index 1 (card 2) from the
three-card stack `wG3` on the first move. -/
theorem c1_witness :
    (mousemove wC1State 132 151 0 0 1100).allObjects =
      Ref.card 2 :: wC1State.allObjects ∧
    ((mousemove wC1State 132 151 0 0 1100).getGroup 0).map GroupObj.members =
      some (wG3.members.eraseIdx 1) ∧
    ((mousemove wC1State 132 151 0 0 1100).getCard 2).map Card.core =
      some (Card.core
        { sampleCard 2 0 0 with
            flipped := wG3.flipped, direction := wG3.direction,
            x := wG3.X + (fanOffset wG3.direction (((1 : Nat) : ℚ) * 22.5)).1,
            y := wG3.Y + (fanOffset wG3.direction (((1 : Nat) : ℚ) * 22.5)).2 }) ∧
    (∃ d2, (mousemove wC1State 132 151 0 0 1100).dragging = some d2 ∧
      d2.type = "card" ∧ d2.object = Ref.card 2) :=
  c1_stack_extraction wC1State wC1Drag 132 151 1100 0 1 2 wG3 (sampleCard 2 0 0)
    [Ref.card 4] rfl rfl rfl rfl rfl rfl rfl rfl rfl (by decide) rfl (Or.inl rfl)


/-- First-move extraction from a 2-card Stack: the remainder degenerates
into a lone Card that replaces the Stack at registry slot 1, carrying the
Stack's exact anchor position, rotation and face-down state. -/
theorem firstMoveStack_degen_spec (s : GameState) (d : DragInfo)
    (cx cy ts : ℚ) (gid i cid remId : Nat) (g : GroupObj) (c cRem : Card)
    (rest : List Ref)
    (hobj : d.object = Ref.group .stack gid)
    (hhead : s.allObjects = Ref.group .stack gid :: rest)
    (hg : s.getGroup gid = some g)
    (hsci : d.specCardIndex = some (i : Int))
    (hcid : g.members.get? i = some cid)
    (hrem : g.members.eraseIdx i = [remId])
    (hc : s.getCard cid = some c)
    (hcRem : s.getCard remId = some cRem)
    (hne : remId ≠ cid)
    (hdir : g.direction = 0 ∨ g.direction = 90 ∨ g.direction = 180 ∨ g.direction = 270) :
    (firstMoveStack s d cx cy ts).2 =
      { type := "card", object := Ref.card cid, x := cx, y := cy, timeStamp := ts,
        doubleClick := false, specCard := none, specCardIndex := none,
        draggedYet := true, index := 0, over := none, overIndex := none } ∧
    (firstMoveStack s d cx cy ts).1.allObjects =
      Ref.card cid :: Ref.card remId :: rest ∧
    (firstMoveStack s d cx cy ts).1.getCard remId =
      some { cRem with flipped := g.flipped, direction := g.direction,
                       x := g.X, y := g.Y } ∧
    (firstMoveStack s d cx cy ts).1.getCard cid =
      some { c with flipped := g.flipped, direction := g.direction,
                    x := g.X + (fanOffset g.direction ((i : ℚ) * 22.5)).1,
                    y := g.Y + (fanOffset g.direction ((i : ℚ) * 22.5)).2 } := by
  have hne' : cid ≠ remId := fun h => hne h.symm
  unfold firstMoveStack
  rw [hobj]
  dsimp only
  rw [hg, hsci]
  dsimp only [Option.getD_some]
  rw [jsSpliceRemove_valid g.members i cid hcid]
  dsimp only [List.head?_cons]
  have n90 : (90 : ℚ) ≠ 0 := by norm_num
  have n180 : (180 : ℚ) ≠ 0 := by norm_num
  have n270 : (270 : ℚ) ≠ 0 := by norm_num
  have m180 : (180 : ℚ) ≠ 90 := by norm_num
  have m270 : (270 : ℚ) ≠ 90 := by norm_num
  have k270 : (270 : ℚ) ≠ 180 := by norm_num
  rcases hdir with h | h | h | h <;>
    simp only [hrem, GameState.objAt, GameState.setRefFlipped, GameState.setRefDirection,
      GameState.setRefX, GameState.setRefY, GameState.refFlipped,
      GameState.refDirection, GameState.refX, GameState.refY, degenStep,
      setList_allObjects, setList_getGroup, setList_getCard, setList_dragging,
      updGroup_allObjects, updCard_allObjects, updGroup_getCard, updCard_getGroup,
      getGroup_upd_members, getGroup_upd_flipped, getGroup_upd_direction,
      getCard_upd_flipped, getCard_upd_direction, getCard_upd_x, getCard_upd_y,
      getCard_upd_flipped_ne _ _ _ _ hne, getCard_upd_direction_ne _ _ _ _ hne,
      getCard_upd_x_ne _ _ _ _ hne, getCard_upd_y_ne _ _ _ _ hne,
      getCard_upd_flipped_ne _ _ _ _ hne', getCard_upd_direction_ne _ _ _ _ hne',
      getCard_upd_x_ne _ _ _ _ hne', getCard_upd_y_ne _ _ _ _ hne',
      hhead, hg, hc, hcRem, h,
      n90, n180, n270, m180, m270, k270, jsSpliceInsert_cons2,
      List.get?_cons_succ, List.get?_cons_zero, List.head?_cons,
      List.length_cons, List.length_nil, List.length_singleton,
      Option.map_some', Option.getD_some, Option.some.injEq,
      fanOffset, Int.cast_natCast, add_zero, sub_zero, neg_zero, sub_eq_add_neg,
      if_true, if_false, ite_true, ite_false, eq_self_iff_true, not_true,
      not_false_iff] <;>
    exact ⟨trivial, trivial, trivial, trivial⟩

/-- First-move extraction from a 2-card Pile: the top member is promoted
to a standalone Card, and the remainder degenerates into a lone Card that
replaces the Pile at registry slot 1, carrying the Pile's rotation and
face-down state but positioned at the `(-2, -2)` stagger offset from the
Pile's anchor. -/
theorem firstMovePile_spec (s : GameState) (d : DragInfo)
    (cx cy ts : ℚ) (gid c0 c1 : Nat) (g : GroupObj) (cC0 cC1 : Card)
    (rest : List Ref)
    (hobj : d.object = Ref.group .pile gid)
    (hhead : s.allObjects = Ref.group .pile gid :: rest)
    (hg : s.getGroup gid = some g)
    (hmem : g.members = [c0, c1])
    (hc0 : s.getCard c0 = some cC0)
    (hc1 : s.getCard c1 = some cC1)
    (hne : c1 ≠ c0) :
    (firstMovePile s d cx cy ts).2 =
      { type := "card", object := Ref.card c0, x := cx, y := cy, timeStamp := ts,
        doubleClick := false, specCard := none, specCardIndex := none,
        draggedYet := true, index := 0, over := none, overIndex := none } ∧
    (firstMovePile s d cx cy ts).1.allObjects =
      Ref.card c0 :: Ref.card c1 :: rest ∧
    (firstMovePile s d cx cy ts).1.getCard c1 =
      some { cC1 with flipped := g.flipped, direction := g.direction,
                      x := g.X - 2, y := g.Y - 2 } ∧
    (firstMovePile s d cx cy ts).1.getCard c0 =
      some { cC0 with flipped := g.flipped, direction := g.direction } := by
  have hne' : c0 ≠ c1 := fun h => hne h.symm
  unfold firstMovePile
  rw [hobj]
  dsimp only
  rw [hg]
  dsimp only
  rw [hmem]
  dsimp only
  simp only [GameState.objAt, GameState.setRefFlipped, GameState.setRefDirection,
    GameState.refFlipped, GameState.refDirection, degenStep,
    setList_allObjects, setList_getGroup, setList_getCard,
    updGroup_allObjects, updCard_allObjects, updGroup_getCard, updCard_getGroup,
    getGroup_upd_members, getCard_upd_flipped, getCard_upd_direction,
    getCard_upd_x, getCard_upd_y,
    getCard_upd_flipped_ne _ _ _ _ hne, getCard_upd_direction_ne _ _ _ _ hne,
    getCard_upd_x_ne _ _ _ _ hne, getCard_upd_y_ne _ _ _ _ hne,
    getCard_upd_flipped_ne _ _ _ _ hne', getCard_upd_direction_ne _ _ _ _ hne',
    getCard_upd_x_ne _ _ _ _ hne', getCard_upd_y_ne _ _ _ _ hne',
    hhead, hg, hc0, hc1, jsSpliceInsert_cons2,
    List.get?_cons_succ, List.get?_cons_zero, List.head?_cons,
    List.length_cons, List.length_nil, List.length_singleton,
    Option.map_some', Option.getD_some, Option.some.injEq,
    if_true, if_false, ite_true, ite_false, eq_self_iff_true, not_true,
    not_false_iff]
  exact ⟨trivial, trivial, trivial, trivial⟩

/-- `mousemove` lift of `firstMoveStack_degen_spec` (zero movement delta). -/
theorem mousemove_stack_degen (s : GameState) (d : DragInfo)
    (cx cy ts : ℚ) (gid i cid remId : Nat) (g : GroupObj) (c cRem : Card)
    (rest : List Ref)
    (hd : s.dragging = some d)
    (htype : d.type = "stack")
    (hdc : d.doubleClick = false)
    (hdy : d.draggedYet = false)
    (hobj : d.object = Ref.group .stack gid)
    (hhead : s.allObjects = Ref.group .stack gid :: rest)
    (hg : s.getGroup gid = some g)
    (hsci : d.specCardIndex = some (i : Int))
    (hcid : g.members.get? i = some cid)
    (hrem : g.members.eraseIdx i = [remId])
    (hc : s.getCard cid = some c)
    (hcRem : s.getCard remId = some cRem)
    (hne : remId ≠ cid)
    (hdir : g.direction = 0 ∨ g.direction = 90 ∨ g.direction = 180 ∨ g.direction = 270) :
    (mousemove s cx cy 0 0 ts).allObjects =
      Ref.card cid :: Ref.card remId :: rest ∧
    ((mousemove s cx cy 0 0 ts).getCard remId).map Card.core =
      some (Card.core
        { cRem with flipped := g.flipped, direction := g.direction,
                    x := g.X, y := g.Y }) := by
  have hspec := firstMoveStack_degen_spec s { d with x := cx, y := cy } cx cy ts
    gid i cid remId g c cRem rest hobj hhead hg hsci hcid hrem hc hcRem hne hdir
  unfold mousemove
  rw [hd]
  dsimp only
  rw [htype, hdc, hdy]
  simp only [String.reduceEq, if_false, Bool.false_eq_true, ite_false, ite_true, if_true]
  rw [htype, hdc, hdy] at hspec
  obtain ⟨hd2, hAll, hRem, hCid⟩ := hspec
  rw [hd2]
  dsimp only
  constructor
  · simp only [setDragging_allObjects, hoverPhase_fst_allObjects,
      movePhase_allObjects, hAll]
  · simp only [setDragging_getCard]
    rw [hoverPhase_fst_core]
    simp only [movePhase, moveHead, String.reduceEq, if_true, ite_true,
      GameState.objAt, hAll, List.get?_cons_zero, GameState.setRefX,
      GameState.setRefY, GameState.refX, GameState.refY,
      getCard_upd_x_ne _ _ _ _ hne, getCard_upd_y_ne _ _ _ _ hne,
      hRem, Option.map_some', Option.getD_some, add_zero, Card.core]

/-- `mousemove` lift of `firstMovePile_spec` (zero movement delta). -/
theorem mousemove_pile_degen (s : GameState) (d : DragInfo)
    (cx cy ts : ℚ) (gid c0 c1 : Nat) (g : GroupObj) (cC0 cC1 : Card)
    (rest : List Ref)
    (hd : s.dragging = some d)
    (htype : d.type = "pile")
    (hdc : d.doubleClick = false)
    (hdy : d.draggedYet = false)
    (hobj : d.object = Ref.group .pile gid)
    (hhead : s.allObjects = Ref.group .pile gid :: rest)
    (hg : s.getGroup gid = some g)
    (hmem : g.members = [c0, c1])
    (hc0 : s.getCard c0 = some cC0)
    (hc1 : s.getCard c1 = some cC1)
    (hne : c1 ≠ c0) :
    (mousemove s cx cy 0 0 ts).allObjects =
      Ref.card c0 :: Ref.card c1 :: rest ∧
    ((mousemove s cx cy 0 0 ts).getCard c1).map Card.core =
      some (Card.core
        { cC1 with flipped := g.flipped, direction := g.direction,
                   x := g.X - 2, y := g.Y - 2 }) := by
  have hspec := firstMovePile_spec s { d with x := cx, y := cy } cx cy ts
    gid c0 c1 g cC0 cC1 rest hobj hhead hg hmem hc0 hc1 hne
  unfold mousemove
  rw [hd]
  dsimp only
  rw [htype, hdc, hdy]
  simp only [String.reduceEq, if_false, Bool.false_eq_true, ite_false, ite_true, if_true]
  rw [htype, hdc, hdy] at hspec
  obtain ⟨hd2, hAll, hRem, hCid⟩ := hspec
  rw [hd2]
  dsimp only
  constructor
  · simp only [setDragging_allObjects, hoverPhase_fst_allObjects,
      movePhase_allObjects, hAll]
  · simp only [setDragging_getCard]
    rw [hoverPhase_fst_core]
    simp only [movePhase, moveHead, String.reduceEq, if_true, ite_true,
      GameState.objAt, hAll, List.get?_cons_zero, GameState.setRefX,
      GameState.setRefY, GameState.refX, GameState.refY,
      getCard_upd_x_ne _ _ _ _ hne, getCard_upd_y_ne _ _ _ _ hne,
      hRem, Option.map_some', Option.getD_some, add_zero, Card.core]


/-- Claim C3 counterexample: extracting the top card of a 2-card Pile
anchored at `(100, 100)` leaves the remaining card at `(98, 98)` — the
pile's `(-2, -2)` stagger offset — not at the group's former position, so
the claim that the remaining Card always "carries the group's former
position (x,y)" fails for Piles. -/
theorem c3_counterexample :
    ((mousemove wC3PileState 132 151 0 0 1100).getCard 2).map Card.core =
      some (Card.core
        { sampleCard 2 0 0 with
            flipped := wG2.flipped, direction := wG2.direction,
            x := wG2.X - 2, y := wG2.Y - 2 }) ∧
    wG2.X - 2 ≠ wG2.X ∧ wG2.Y - 2 ≠ wG2.Y := by
  have h := mousemove_pile_degen wC3PileState wC3PileDrag 132 151 1100 0 1 2 wG2
    (sampleCard 1 100 100) (sampleCard 2 0 0) [Ref.card 9]
    rfl rfl rfl rfl rfl rfl rfl rfl rfl rfl (by decide)
  refine ⟨h.2, by norm_num [wG2], by norm_num [wG2]⟩

/-- Claim C3 amended: an extraction that leaves a Stack or a Pile with
exactly one member replaces the group in place in the registry (slot 1,
beneath the extracted card) by that remaining Card; the Card carries the
group's rotation and face-down state in both cases, and its former
position exactly for a Stack, while for a Pile the position is the
group's anchor offset by the `(-2, -2)` visual stagger. -/
theorem c3_degeneration_amended
    (sS : GameState) (dS : DragInfo) (cxS cyS tsS : ℚ)
    (gidS i cid remId : Nat) (gS : GroupObj) (cS cRem : Card) (restS : List Ref)
    (sP : GameState) (dP : DragInfo) (cxP cyP tsP : ℚ)
    (gidP c0 c1 : Nat) (gP : GroupObj) (cC0 cC1 : Card) (restP : List Ref)
    (hdS : sS.dragging = some dS)
    (htypeS : dS.type = "stack")
    (hdcS : dS.doubleClick = false)
    (hdyS : dS.draggedYet = false)
    (hobjS : dS.object = Ref.group .stack gidS)
    (hheadS : sS.allObjects = Ref.group .stack gidS :: restS)
    (hgS : sS.getGroup gidS = some gS)
    (hsci : dS.specCardIndex = some (i : Int))
    (hcid : gS.members.get? i = some cid)
    (hrem : gS.members.eraseIdx i = [remId])
    (hcS : sS.getCard cid = some cS)
    (hcRem : sS.getCard remId = some cRem)
    (hneS : remId ≠ cid)
    (hdirS : gS.direction = 0 ∨ gS.direction = 90 ∨ gS.direction = 180 ∨ gS.direction = 270)
    (hdP : sP.dragging = some dP)
    (htypeP : dP.type = "pile")
    (hdcP : dP.doubleClick = false)
    (hdyP : dP.draggedYet = false)
    (hobjP : dP.object = Ref.group .pile gidP)
    (hheadP : sP.allObjects = Ref.group .pile gidP :: restP)
    (hgP : sP.getGroup gidP = some gP)
    (hmem : gP.members = [c0, c1])
    (hc0 : sP.getCard c0 = some cC0)
    (hc1 : sP.getCard c1 = some cC1)
    (hneP : c1 ≠ c0) :
    ((mousemove sS cxS cyS 0 0 tsS).allObjects =
        Ref.card cid :: Ref.card remId :: restS ∧
      ((mousemove sS cxS cyS 0 0 tsS).getCard remId).map Card.core =
        some (Card.core
          { cRem with flipped := gS.flipped, direction := gS.direction,
                      x := gS.X, y := gS.Y })) ∧
    ((mousemove sP cxP cyP 0 0 tsP).allObjects =
        Ref.card c0 :: Ref.card c1 :: restP ∧
      ((mousemove sP cxP cyP 0 0 tsP).getCard c1).map Card.core =
        some (Card.core
          { cC1 with flipped := gP.flipped, direction := gP.direction,
                     x := gP.X - 2, y := gP.Y - 2 })) :=
  ⟨mousemove_stack_degen sS dS cxS cyS tsS gidS i cid remId gS cS cRem restS
      hdS htypeS hdcS hdyS hobjS hheadS hgS hsci hcid hrem hcS hcRem hneS hdirS,
    mousemove_pile_degen sP dP cxP cyP tsP gidP c0 c1 gP cC0 cC1 restP
      hdP htypeP hdcP hdyP hobjP hheadP hgP hmem hc0 hc1 hneP⟩

/-- Witness for the amended C3 at concrete 2-card groups. -/
theorem c3_witness :
    ((mousemove wC3StackState 132 151 0 0 1100).allObjects =
        Ref.card 1 :: Ref.card 2 :: [Ref.card 9] ∧
      ((mousemove wC3StackState 132 151 0 0 1100).getCard 2).map Card.core =
        some (Card.core
          { sampleCard 2 0 0 with
              flipped := wG2.flipped, direction := wG2.direction,
              x := wG2.X, y := wG2.Y })) ∧
    ((mousemove wC3PileState 132 151 0 0 1100).allObjects =
        Ref.card 1 :: Ref.card 2 :: [Ref.card 9] ∧
      ((mousemove wC3PileState 132 151 0 0 1100).getCard 2).map Card.core =
        some (Card.core
          { sampleCard 2 0 0 with
              flipped := wG2.flipped, direction := wG2.direction,
              x := wG2.X - 2, y := wG2.Y - 2 })) :=
  c3_degeneration_amended wC3StackState wC3StackDrag 132 151 1100 0 0 1 2 wG2
    (sampleCard 1 100 100) (sampleCard 2 0 0) [Ref.card 9]
    wC3PileState wC3PileDrag 132 151 1100 0 1 2 wG2
    (sampleCard 1 100 100) (sampleCard 2 0 0) [Ref.card 9]
    rfl rfl rfl rfl rfl rfl rfl rfl rfl rfl rfl rfl (by decide) (Or.inl rfl)
    rfl rfl rfl rfl rfl rfl rfl rfl rfl rfl (by decide)


theorem get?_len_append {α : Type} (l1 : List α) (a : α) (l2 : List α) :
    (l1 ++ a :: l2).get? l1.length = some a := by
  induction l1 with
  | nil => rfl
  | cons b t ih => simpa using ih

theorem eraseIdx_len_append {α : Type} (l1 : List α) (a : α) (l2 : List α) :
    (l1 ++ a :: l2).eraseIdx l1.length = l1 ++ l2 := by
  induction l1 with
  | nil => rfl
  | cons b t ih => simp [List.eraseIdx, ih]

theorem jsSpliceInsert_zero1 {α : Type} (l : List α) (x : α) :
    jsSpliceInsert l 0 1 [x] = x :: l.drop 1 := by
  unfold jsSpliceInsert jsStart
  simp

/-- What the `mouseup` merge constructor does: the hovered entry is
spliced out, a fresh 2-member group `[hover, dragged]` anchored at the
hovered card's position replaces the registry head, and the group then
inherits the hovered card's `flipped`/`direction`. -/
theorem mergeInto_spec (s : GameState) (d : DragInfo) (did hid : Nat)
    (ch : Card) (l1 l2 : List Ref) (kind : GKind)
    (hobj : d.object = Ref.card did)
    (hoidx : d.overIndex = some ((l1.length + 1 : Nat) : Int))
    (hhead : s.allObjects = Ref.card did :: l1 ++ Ref.card hid :: l2)
    (hfresh : s.getGroup s.nextId = none) :
    (mergeInto s d ch kind).allObjects =
      Ref.group kind s.nextId :: (l1 ++ l2) ∧
    (mergeInto s d ch kind).getGroup s.nextId =
      some { id := s.nextId, members := [hid, did], X := ch.x, Y := ch.y,
             flipped := ch.flipped, direction := ch.direction,
             outlineIndex := none, lastOutline := false, isOutline := false } ∧
    (mergeInto s d ch kind).dragging = s.dragging ∧
    (mergeInto s d ch kind).cards = s.cards := by
  have hget : s.allObjects.get? (l1.length + 1) = some (Ref.card hid) := by
    rw [hhead]
    simpa using get?_len_append l1 (Ref.card hid) l2
  have herase : s.allObjects.eraseIdx (l1.length + 1) =
      Ref.card did :: (l1 ++ l2) := by
    rw [hhead]
    have h2 := eraseIdx_len_append l1 (Ref.card hid) l2
    simp [List.eraseIdx, h2]
  unfold mergeInto
  rw [hoidx]
  dsimp only [Option.getD_some]
  rw [jsSpliceRemove_valid s.allObjects (l1.length + 1) (Ref.card hid) hget]
  dsimp only
  rw [hobj, herase]
  simp only [List.filterMap, jsSpliceInsert_zero1, List.drop_succ_cons,
    List.drop_zero, setList_allObjects, setList_getGroup, setList_dragging,
    setList_cards, updGroup_allObjects, updGroup_dragging, updGroup_cards,
    updGroup_lastDragged, pushGroup_allObjects, pushGroup_dragging,
    pushGroup_cards, getGroup_upd_flipped, getGroup_upd_direction,
    pushGroup_getGroup, hfresh, Option.elim, Option.map_some',
    eq_self_iff_true, if_true, ite_true]
  exact ⟨trivial, trivial, trivial, trivial⟩

/-- General specification of the `mouseup` card-over-card drop at the
code's fixed bands: under the `dy` test, `dx ∈ [22.5, 45)` builds a Stack
`[hover, dragged]` at the hovered card's position inheriting its
`flipped`/`direction`, `dx ∈ [-22.5, 22.5)` the same with a Pile, and
outside both bands (whatever `dy`) the registry and both heaps are
untouched. -/
theorem mouseup_card_drop (s : GameState) (d : DragInfo)
    (did hid : Nat) (cd ch : Card) (l1 l2 : List Ref)
    (hd : s.dragging = some d)
    (hobj : d.object = Ref.card did)
    (hover : d.over = some (Ref.card hid))
    (hoidx : d.overIndex = some ((l1.length + 1 : Nat) : Int))
    (hhead : s.allObjects = Ref.card did :: l1 ++ Ref.card hid :: l2)
    (hcd : s.getCard did = some cd)
    (hch : s.getCard hid = some ch)
    (hfresh : s.getGroup s.nextId = none) :
    ((cd.y - ch.y) < 0.5 * ch.height → (22.5 : ℚ) ≤ cd.x - ch.x → cd.x - ch.x < 45 →
      (mouseup s).allObjects = Ref.group .stack s.nextId :: (l1 ++ l2) ∧
      (mouseup s).getGroup s.nextId =
        some { id := s.nextId, members := [hid, did], X := ch.x, Y := ch.y,
               flipped := ch.flipped, direction := ch.direction,
               outlineIndex := none, lastOutline := false, isOutline := false } ∧
      (mouseup s).dragging = none) ∧
    ((cd.y - ch.y) < 0.5 * ch.height → (-22.5 : ℚ) ≤ cd.x - ch.x → cd.x - ch.x < 22.5 →
      (mouseup s).allObjects = Ref.group .pile s.nextId :: (l1 ++ l2) ∧
      (mouseup s).getGroup s.nextId =
        some { id := s.nextId, members := [hid, did], X := ch.x, Y := ch.y,
               flipped := ch.flipped, direction := ch.direction,
               outlineIndex := none, lastOutline := false, isOutline := false } ∧
      (mouseup s).dragging = none) ∧
    (¬ ((22.5 : ℚ) ≤ cd.x - ch.x ∧ cd.x - ch.x < 45) →
      ¬ ((-22.5 : ℚ) ≤ cd.x - ch.x ∧ cd.x - ch.x < 22.5) →
      (mouseup s).allObjects = s.allObjects ∧
      (mouseup s).cards = s.cards ∧
      (mouseup s).groups = s.groups ∧
      (mouseup s).dragging = none) := by
  unfold mouseup
  rw [hd]
  dsimp only
  rw [hover]
  dsimp only
  simp only [setLastDragged_getCard]
  rw [hch]
  dsimp only
  simp only [hobj, GameState.refX, GameState.refY, setLastDragged_getCard, hcd,
    Option.map_some', Option.getD_some]
  refine ⟨?_, ?_, ?_⟩
  · intro hdy hx1 hx2
    rw [if_pos hdy, if_pos ⟨hx1, hx2⟩]
    have h1 := mergeInto_spec (s.setLastDragged (some d)) d did hid ch l1 l2 .stack
      hobj hoidx (by simpa using hhead) (by simpa using hfresh)
    refine ⟨?_, ?_, rfl⟩
    · simpa using h1.1
    · simpa using h1.2.1
  · intro hdy hx1 hx2
    have hnot : ¬ ((22.5 : ℚ) ≤ cd.x - ch.x ∧ cd.x - ch.x < 45) := by
      rintro ⟨ha, -⟩
      linarith
    rw [if_pos hdy, if_neg hnot, if_pos ⟨hx1, hx2⟩]
    have h1 := mergeInto_spec (s.setLastDragged (some d)) d did hid ch l1 l2 .pile
      hobj hoidx (by simpa using hhead) (by simpa using hfresh)
    refine ⟨?_, ?_, rfl⟩
    · simpa using h1.1
    · simpa using h1.2.1
  · intro hb1 hb2
    by_cases hdy : (cd.y - ch.y) < 0.5 * ch.height
    · rw [if_pos hdy, if_neg hb1, if_neg hb2]
      exact ⟨rfl, rfl, rfl, rfl⟩
    · rw [if_neg hdy]
      exact ⟨rfl, rfl, rfl, rfl⟩


/-- Claim C2 counterexample: the drop bands are NOT scaled by the dragged
card's scale.  Card 1 has scale 0.5 and is dropped at `dx = 15`, `dy = 0`
over card 2 — inside the claim's scaled stack band
`[22.5 * 0.5, 45 * 0.5) = [11.25, 22.5)` and in the hover's upper half —
yet the code compares `dx` against the unscaled constants, lands in the
`[-22.5, 22.5)` band, and produces a 2-member Pile, not a Stack. -/
theorem c2_counterexample :
    ((22.5 : ℚ) * (sampleCard 1 115 100).size ≤
        (sampleCard 1 115 100).x - (sampleCard 2 100 100).x ∧
      (sampleCard 1 115 100).x - (sampleCard 2 100 100).x <
        45 * (sampleCard 1 115 100).size ∧
      (0 : ℚ) ≤ (sampleCard 1 115 100).y - (sampleCard 2 100 100).y ∧
      (sampleCard 1 115 100).y - (sampleCard 2 100 100).y <
        0.5 * (sampleCard 2 100 100).height) ∧
    (mouseup wC2State).allObjects = [Ref.group .pile wC2State.nextId] ∧
    ((mouseup wC2State).getGroup wC2State.nextId).map GroupObj.members =
      some [2, 1] := by
  have h := mouseup_card_drop wC2State wC2Drag 1 2 (sampleCard 1 115 100)
    (sampleCard 2 100 100) [] [] rfl rfl rfl rfl rfl rfl rfl rfl
  have hp := h.2.1 (by norm_num [sampleCard, Card.height])
    (by norm_num [sampleCard]) (by norm_num [sampleCard])
  refine ⟨⟨by norm_num [sampleCard], by norm_num [sampleCard],
    by norm_num [sampleCard], by norm_num [sampleCard, Card.height]⟩, ?_, ?_⟩
  · simpa using hp.1
  · rw [hp.2.1]
    rfl

/-- Claim C2 amended: for a pointer-up with a Card target over a recorded
Card hover, with `dx`/`dy` the difference of the two cards' positions and
the bands fixed at the unscaled constants: under `dy < hover.height/2`,
`dx ∈ [22.5, 45)` removes both cards from the registry and inserts a new
2-member Stack `[hoveredCard, draggedCard]` at the top, anchored at the
hovered Card's former `(x, y)` and inheriting its face-down flag and
rotation; `dx ∈ [-22.5, 22.5)` does the same with a Pile; outside both
bands nothing structural changes. -/
theorem c2_card_drop_bands_amended (s : GameState) (d : DragInfo)
    (did hid : Nat) (cd ch : Card) (l1 l2 : List Ref)
    (hd : s.dragging = some d)
    (hobj : d.object = Ref.card did)
    (hover : d.over = some (Ref.card hid))
    (hoidx : d.overIndex = some ((l1.length + 1 : Nat) : Int))
    (hhead : s.allObjects = Ref.card did :: l1 ++ Ref.card hid :: l2)
    (hcd : s.getCard did = some cd)
    (hch : s.getCard hid = some ch)
    (hfresh : s.getGroup s.nextId = none) :
    ((cd.y - ch.y) < 0.5 * ch.height → (22.5 : ℚ) ≤ cd.x - ch.x → cd.x - ch.x < 45 →
      (mouseup s).allObjects = Ref.group .stack s.nextId :: (l1 ++ l2) ∧
      (mouseup s).getGroup s.nextId =
        some { id := s.nextId, members := [hid, did], X := ch.x, Y := ch.y,
               flipped := ch.flipped, direction := ch.direction,
               outlineIndex := none, lastOutline := false, isOutline := false } ∧
      (mouseup s).dragging = none) ∧
    ((cd.y - ch.y) < 0.5 * ch.height → (-22.5 : ℚ) ≤ cd.x - ch.x → cd.x - ch.x < 22.5 →
      (mouseup s).allObjects = Ref.group .pile s.nextId :: (l1 ++ l2) ∧
      (mouseup s).getGroup s.nextId =
        some { id := s.nextId, members := [hid, did], X := ch.x, Y := ch.y,
               flipped := ch.flipped, direction := ch.direction,
               outlineIndex := none, lastOutline := false, isOutline := false } ∧
      (mouseup s).dragging = none) ∧
    (¬ ((22.5 : ℚ) ≤ cd.x - ch.x ∧ cd.x - ch.x < 45) →
      ¬ ((-22.5 : ℚ) ≤ cd.x - ch.x ∧ cd.x - ch.x < 22.5) →
      (mouseup s).allObjects = s.allObjects ∧
      (mouseup s).cards = s.cards ∧
      (mouseup s).groups = s.groups ∧
      (mouseup s).dragging = none) :=
  mouseup_card_drop s d did hid cd ch l1 l2 hd hobj hover hoidx hhead hcd hch hfresh

/-- Witness for the amended C2: the concrete `dx = 15` drop lands in the
pile band and produces the 2-member Pile `[2, 1]` at card 2's position. -/
theorem c2_witness :
    (mouseup wC2State).allObjects =
      Ref.group .pile wC2State.nextId :: ([] ++ []) ∧
    (mouseup wC2State).getGroup wC2State.nextId =
      some { id := wC2State.nextId, members := [2, 1],
             X := (sampleCard 2 100 100).x, Y := (sampleCard 2 100 100).y,
             flipped := (sampleCard 2 100 100).flipped,
             direction := (sampleCard 2 100 100).direction,
             outlineIndex := none, lastOutline := false, isOutline := false } ∧
    (mouseup wC2State).dragging = none :=
  (c2_card_drop_bands_amended wC2State wC2Drag 1 2 (sampleCard 1 115 100)
      (sampleCard 2 100 100) [] [] rfl rfl rfl rfl rfl rfl rfl rfl).2.1
    (by norm_num [sampleCard, Card.height]) (by norm_num [sampleCard])
    (by norm_num [sampleCard])


theorem jsIndexOf_mem_spec {α : Type} [DecidableEq α] (l : List α) (a : α)
    (h : a ∈ l) :
    ∃ n : Nat, jsIndexOf l a = (n : Int) ∧ l.get? n = some a := by
  induction l with
  | nil => cases h
  | cons b t ih =>
    by_cases hb : b = a
    · exact ⟨0, by simp [jsIndexOf, List.findIdx?_cons, hb], by simp [hb]⟩
    · have hmem : a ∈ t := by
        rcases List.mem_cons.mp h with h1 | h1
        · exact absurd h1.symm hb
        · exact h1
      obtain ⟨n, hn, hg⟩ := ih hmem
      refine ⟨n + 1, ?_, by simpa using hg⟩
      unfold jsIndexOf at hn ⊢
      rw [List.findIdx?_cons, if_neg (by simpa using hb), List.findIdx?_succ]
      cases hfi : t.findIdx? (fun x => decide (x = a)) with
      | none =>
        rw [hfi] at hn
        dsimp only at hn
        exact absurd hn (by omega)
      | some m =>
        rw [hfi] at hn
        simp only [Option.map_some']
        dsimp only at hn ⊢
        omega

theorem splice_raise_head (l : List Ref) (r : Ref) (hmem : r ∈ l) :
    (match (jsSpliceRemove l (jsIndexOf l r) 1).1.head? with
     | some x => x :: (jsSpliceRemove l (jsIndexOf l r) 1).2
     | none => (jsSpliceRemove l (jsIndexOf l r) 1).2).head? = some r := by
  obtain ⟨n, hn, hg⟩ := jsIndexOf_mem_spec l r hmem
  rw [hn, jsSpliceRemove_valid l n r hg]
  rfl

theorem get?_one_shape {α : Type} (l : List α) (x : α) (h : l.get? 1 = some x) :
    ∃ a b t, l = a :: b :: t := by
  match l with
  | [] => cases h
  | [a] => cases h
  | a :: b :: t => exact ⟨a, b, t, rfl⟩

theorem degenStep_head (s : GameState) (off : ℚ) :
    (degenStep s off).allObjects.head? = s.allObjects.head? := by
  unfold degenStep
  split
  case _ k gid heq =>
    split
    case _ g hg =>
      split_ifs with hlen
      · split
        case _ c0 hc0 =>
          obtain ⟨a, b, t, hl⟩ := get?_one_shape s.allObjects (Ref.group k gid) heq
          simp only [updCard_allObjects, setList_allObjects, hl,
            jsSpliceInsert_cons2, List.head?_cons]
        case _ => rfl
      · rfl
    case _ => rfl
  case _ hne => rfl

theorem firstMoveStack_target (s : GameState) (d : DragInfo) (cx cy ts : ℚ)
    (h : s.allObjects.head? = some d.object) :
    (firstMoveStack s d cx cy ts).1.allObjects.head? =
      some (firstMoveStack s d cx cy ts).2.object := by
  unfold firstMoveStack
  cases hobj : d.object with
  | card i => simpa [hobj] using h
  | group k gid =>
    dsimp only
    cases hg : s.getGroup gid with
    | none => simpa [hobj] using h
    | some g =>
      dsimp only
      cases hh : (jsSpliceRemove g.members (d.specCardIndex.getD 0) 1).1.head? with
      | none =>
        dsimp only
        simpa [hobj] using h
      | some cid =>
        dsimp only
        repeat' split
        all_goals simp [degenStep_head]

theorem firstMovePile_target (s : GameState) (d : DragInfo) (cx cy ts : ℚ)
    (h : s.allObjects.head? = some d.object) :
    (firstMovePile s d cx cy ts).1.allObjects.head? =
      some (firstMovePile s d cx cy ts).2.object := by
  unfold firstMovePile
  cases hobj : d.object with
  | card i => simpa [hobj] using h
  | group k gid =>
    dsimp only
    cases hg : s.getGroup gid with
    | none => simpa [hobj] using h
    | some g =>
      dsimp only
      cases hm : g.members with
      | nil => simpa [hobj] using h
      | cons c0 restm =>
        dsimp only
        repeat' split
        all_goals simp [degenStep_head]

theorem mouseup_dragging_none (s : GameState) : (mouseup s).dragging = none := by
  unfold mouseup
  cases h : s.dragging with
  | none => exact h
  | some d => simp

theorem mousemove_targetAtTop (s : GameState) (cx cy mx my ts : ℚ)
    (h : targetAtTop s) : targetAtTop (mousemove s cx cy mx my ts) := by
  unfold mousemove
  cases hd : s.dragging with
  | none => exact h
  | some d =>
    dsimp only
    intro d2 hd2
    have hbase : s.allObjects.head? = some d.object := h d hd
    simp only [setDragging_dragging, Option.some.injEq] at hd2
    subst hd2
    simp only [setDragging_allObjects]
    rw [hoverPhase_fst_allObjects, movePhase_allObjects, hoverPhase_snd_object]
    by_cases h1 : d.draggedYet = true
    · simpa [h1] using hbase
    · by_cases h2 : d.type = "card"
      · simpa [h1, h2] using hbase
      · by_cases h3 : d.type = "stack"
        · by_cases h4 : d.doubleClick = true
          · simpa [h1, h2, h3, h4] using hbase
          · have hs := firstMoveStack_target s { d with x := cx, y := cy } cx cy ts
              (by simpa using hbase)
            simpa [h1, h2, h3, h4] using hs
        · by_cases h5 : d.type = "pile"
          · by_cases h4 : d.doubleClick = true
            · simpa [h1, h2, h3, h4, h5] using hbase
            · have hs := firstMovePile_target s { d with x := cx, y := cy } cx cy ts
                (by simpa using hbase)
              simpa [h1, h2, h3, h4, h5] using hs
          · simpa [h1, h2, h3, h5] using hbase

theorem mousedown_targetAtTop (s : GameState) (px py ts : ℚ) (b : Nat)
    (h : targetAtTop s) : targetAtTop (mousedown s px py b ts) := by
  unfold mousedown
  by_cases hact : s.dragging.isSome = true
  · rw [if_pos hact]
    exact h
  · rw [if_neg hact]
    dsimp only
    cases hobj : (if (jsFindIdx s.allObjects fun r => truthy (s.refIsIn r px py)) < 0
        then none
        else s.allObjects.get?
          (jsFindIdx s.allObjects fun r => truthy (s.refIsIn r px py)).toNat) with
    | none => exact h
    | some object =>
      dsimp only
      intro d2 hd2
      have hmem : object ∈ s.allObjects := by
        by_cases hn : (jsFindIdx s.allObjects fun r => truthy (s.refIsIn r px py)) < 0
        · rw [if_pos hn] at hobj
          cases hobj
        · rw [if_neg hn] at hobj
          exact List.get?_mem hobj
      split at hd2
      next hcond =>
        rw [if_pos hcond]
        simp only [setDragging_dragging, Option.some.injEq] at hd2
        subst hd2
        simpa using hcond
      next hcond =>
        rw [if_neg hcond]
        simp only [setList_dragging, setDragging_dragging, Option.some.injEq] at hd2
        subst hd2
        simp only [setList_allObjects, setDragging_allObjects, flipStep_allObjects]
        have hsp := splice_raise_head s.allObjects object hmem
        simpa [flipStep_allObjects] using hsp

/-- Claim C10: the drag controller keeps the session target at registry
index 0 — pointer-down raises the hit entity there, extraction retargets
to the freshly prepended Card, and every transition preserves the
invariant, so the movement delta the handlers apply to `allObjects[0]`
always moves the session target. -/
theorem c10_target_at_registry_head (s : GameState) (px py cx cy mx my ts ts2 : ℚ)
    (b : Nat) (h : targetAtTop s) :
    targetAtTop (mousedown s px py b ts) ∧
    targetAtTop (mousemove s cx cy mx my ts2) ∧
    targetAtTop (mouseup s) := by
  refine ⟨mousedown_targetAtTop s px py ts b h,
    mousemove_targetAtTop s cx cy mx my ts2 h, ?_⟩
  intro d2 hd2
  rw [mouseup_dragging_none s] at hd2
  cases hd2

/-- Witness for C10 at the concrete Active state `wC1State` (stack raised
to the top, session open). -/
theorem c10_witness :
    targetAtTop (mousedown wC1State 10 10 0 99) ∧
    targetAtTop (mousemove wC1State 132 151 2 1 1100) ∧
    targetAtTop (mouseup wC1State) :=
  c10_target_at_registry_head wC1State 10 10 132 151 2 1 99 1100 0
    (fun d hd => by
      have h2 : wC1Drag = d := Option.some.inj hd
      subst h2
      rfl)

/-! ### C6: list infrastructure -/

theorem head?_shape {α : Type} (l : List α) (a : α) (h : l.head? = some a) :
    ∃ t, l = a :: t := by
  cases l with
  | nil => cases h
  | cons x t => exact ⟨t, by simpa using congrArg (fun o => o.getD a) h⟩

theorem get_split {α : Type} (l : List α) (j : Nat) (a : α)
    (h : l.get? j = some a) : l = l.take j ++ a :: l.drop (j + 1) := by
  rw [List.get?_eq_getElem?] at h
  have hj : j < l.length := (List.getElem?_eq_some.mp h).1
  have ha : l[j] = a := by simpa [List.getElem?_eq_getElem hj] using h
  rw [← ha, ← List.drop_eq_getElem_cons hj, List.take_append_drop]

theorem perm_cons_eraseIdx {α : Type} (l : List α) (j : Nat) (a : α)
    (h : l.get? j = some a) : (a :: l.eraseIdx j).Perm l := by
  rw [List.eraseIdx_eq_take_drop_succ]
  conv_rhs => rw [get_split l j a h]
  exact List.perm_middle.symm

theorem take1_head? {α : Type} (l : List α) : (l.take 1).head? = l.head? := by
  cases l <;> rfl

theorem jsSpliceRemove_nil1 {α : Type} (l : List α) (st : Int)
    (h : (jsSpliceRemove l st 1).1.head? = none) :
    (jsSpliceRemove l st 1).2 = l := by
  have h1 : (l.drop (jsStart l.length st)).head? = none := by
    rw [← take1_head?]
    exact h
  have h2 : l.drop (jsStart l.length st) = [] := List.head?_eq_none_iff.mp h1
  have h3 : l.length ≤ jsStart l.length st := by
    have := List.drop_eq_nil_iff.mp h2
    omega
  show l.take _ ++ l.drop _ = l
  rw [List.take_of_length_le h3, List.drop_eq_nil_of_le (by omega)]
  exact List.append_nil l

theorem jsSpliceRemove_head1 {α : Type} (l : List α) (st : Int) (a : α)
    (h : (jsSpliceRemove l st 1).1.head? = some a) :
    ∃ j : Nat, l.get? j = some a ∧ (jsSpliceRemove l st 1).2 = l.eraseIdx j := by
  refine ⟨jsStart l.length st, ?_, ?_⟩
  · have h1 : (l.drop (jsStart l.length st)).head? = some a := by
      rw [← take1_head?]
      exact h
    obtain ⟨t, ht⟩ := head?_shape _ _ h1
    have : l.get? (jsStart l.length st + 0) = some a := by
      rw [← List.get?_drop, ht]
      rfl
    simpa using this
  · show l.take _ ++ l.drop _ = _
    rw [List.eraseIdx_eq_take_drop_succ]

theorem jsSpliceRemove_cons_zero {α : Type} (a : α) (t : List α) :
    jsSpliceRemove (a :: t) 0 1 = ([a], t) := by
  simp [jsSpliceRemove, jsStart]

theorem jsSpliceInsert_perm_cons {α : Type} (l : List α) (pos : Int) (a : α) :
    (jsSpliceInsert l pos 0 [a]).Perm (a :: l) := by
  unfold jsSpliceInsert
  dsimp only
  have h2 : l.take (jsStart l.length pos) ++ [a] ++
        l.drop (jsStart l.length pos + 0) =
      l.take (jsStart l.length pos) ++ a :: l.drop (jsStart l.length pos + 0) := by
    simp
  rw [h2]
  refine List.perm_middle.trans ?_
  rw [Nat.add_zero, List.take_append_drop]

theorem flatten_map_perm {α β : Type} (L : List α) (f g : α → List β)
    (h : ∀ r ∈ L, (f r).Perm (g r)) :
    ((L.map f).flatten).Perm ((L.map g).flatten) := by
  induction L with
  | nil => exact List.Perm.refl _
  | cons x t ih =>
    simp only [List.map_cons, List.flatten_cons]
    exact (h x (List.mem_cons_self x t)).append
      (ih (fun r hr => h r (List.mem_cons_of_mem x hr)))

/-! ### C6: `refCards` / `ownedList` computation lemmas -/

@[simp] theorem refCards_card (s : GameState) (i : Nat) :
    s.refCards (Ref.card i) = [i] := rfl

theorem refCards_group (s : GameState) (k : GKind) (gi : Nat) :
    s.refCards (Ref.group k gi) =
      ((s.getGroup gi).map GroupObj.members).getD [] := rfl

@[simp] theorem ownedList_nil (s : GameState) : s.ownedList [] = [] := rfl

@[simp] theorem ownedList_cons (s : GameState) (r : Ref) (l : List Ref) :
    s.ownedList (r :: l) = s.refCards r ++ s.ownedList l := rfl

@[simp] theorem ownedList_append (s : GameState) (l₁ l₂ : List Ref) :
    s.ownedList (l₁ ++ l₂) = s.ownedList l₁ ++ s.ownedList l₂ := by
  simp [GameState.ownedList]

theorem ownedCards_def (s : GameState) : ownedCards s = s.ownedList s.allObjects := rfl

theorem refCards_eq_of_members_eq {s s' : GameState}
    (h : ∀ j, (s'.getGroup j).map GroupObj.members =
      (s.getGroup j).map GroupObj.members) (r : Ref) :
    s'.refCards r = s.refCards r := by
  cases r with
  | card i => rfl
  | group k gi =>
    rw [refCards_group, refCards_group, h gi]

theorem ownedList_eq_of_members_eq {s s' : GameState}
    (h : ∀ j, (s'.getGroup j).map GroupObj.members =
      (s.getGroup j).map GroupObj.members) (l : List Ref) :
    s'.ownedList l = s.ownedList l := by
  unfold GameState.ownedList
  rw [List.map_congr_left (fun r _ => refCards_eq_of_members_eq h r)]

theorem ownedCards_eq_of_frame {s s' : GameState}
    (ha : s'.allObjects = s.allObjects)
    (h : ∀ j, (s'.getGroup j).map GroupObj.members =
      (s.getGroup j).map GroupObj.members) :
    ownedCards s' = ownedCards s := by
  rw [ownedCards_def, ownedCards_def, ha, ownedList_eq_of_members_eq h]

theorem ownedList_perm_pointwise {s s' : GameState}
    (h : ∀ r, (s'.refCards r).Perm (s.refCards r)) (l : List Ref) :
    (s'.ownedList l).Perm (s.ownedList l) :=
  flatten_map_perm l _ _ (fun r _ => h r)

theorem ownedCards_perm_refsPerm {s s' : GameState}
    (hl : s'.allObjects.Perm s.allObjects)
    (h : ∀ r, s'.refCards r = s.refCards r) :
    (ownedCards s').Perm (ownedCards s) := by
  rw [ownedCards_def, ownedCards_def]
  unfold GameState.ownedList
  rw [List.map_congr_left (fun r _ => h r)]
  exact (hl.map s.refCards).flatten

/-! ### C6: invariant transfer lemmas -/

theorem len_of_members_eq {s s' : GameState}
    (h : ∀ j, (s'.getGroup j).map GroupObj.members =
      (s.getGroup j).map GroupObj.members) (j : Nat) :
    (s'.getGroup j).map (fun g => g.members.length) =
      (s.getGroup j).map (fun g => g.members.length) := by
  have := congrArg (Option.map List.length) (h j)
  simpa [Option.map_map, Function.comp] using this

theorem fresh_transfer {s s' : GameState} (hn : s'.nextId = s.nextId)
    (h : ∀ j, (s'.getGroup j).map (fun g => g.members.length) =
      (s.getGroup j).map (fun g => g.members.length))
    (hB : freshIds s) : freshIds s' := by
  intro j hj
  have h2 := h j
  rw [hB j (hn ▸ hj)] at h2
  simpa using (Option.map_eq_none'.mp h2)

theorem live_transfer {s s' : GameState}
    (hsub : ∀ r, r ∈ s'.allObjects → r ∈ s.allObjects)
    (h : ∀ j, (s'.getGroup j).map (fun g => g.members.length) =
      (s.getGroup j).map (fun g => g.members.length))
    (hD : liveGroupsOk s) : liveGroupsOk s' := by
  intro r hr k gi hre
  obtain ⟨g, hg, hlen⟩ := hD r (hsub r hr) k gi hre
  have h2 := h gi
  rw [hg] at h2
  obtain ⟨g', hg', hlen'⟩ := Option.map_eq_some'.mp h2
  exact ⟨g', hg', by rw [hlen']; exact hlen⟩

/-! ### C6: per-operation frame lemmas for the ownership data -/

theorem updCard_membersMap (s : GameState) (i : Nat) (f : Card → Card) (j : Nat) :
    ((s.updCard i f).getGroup j).map GroupObj.members =
      (s.getGroup j).map GroupObj.members := rfl

theorem setRefFlipped_members (s : GameState) (r : Ref) (v : Bool) (j : Nat) :
    ((s.setRefFlipped r v).getGroup j).map GroupObj.members =
      (s.getGroup j).map GroupObj.members := by
  cases r with
  | card i => rfl
  | group k i =>
    apply updGroup_members_pres <;> intro g2 <;> rfl

theorem setRefDirection_members (s : GameState) (r : Ref) (v : ℚ) (j : Nat) :
    ((s.setRefDirection r v).getGroup j).map GroupObj.members =
      (s.getGroup j).map GroupObj.members := by
  cases r with
  | card i => rfl
  | group k i =>
    apply updGroup_members_pres <;> intro g2 <;> rfl

theorem refCards_updCard (s : GameState) (i : Nat) (f : Card → Card) (r : Ref) :
    (s.updCard i f).refCards r = s.refCards r :=
  refCards_eq_of_members_eq (updCard_membersMap s i f) r

theorem refCards_updGroup_ne (s : GameState) (i : Nat) (f : GroupObj → GroupObj)
    (hf : ∀ g, (f g).id = g.id) (r : Ref) (hr : refGid r ≠ some i) :
    (s.updGroup i f).refCards r = s.refCards r := by
  cases r with
  | card j => rfl
  | group k gi =>
    have hne : gi ≠ i := fun he => hr (by simp [refGid, he])
    rw [refCards_group, refCards_group, getGroup_updGroup_other s i gi f hf hne]

theorem freshIds_updGroup (s : GameState) (i : Nat) (f : GroupObj → GroupObj)
    (hf : ∀ g, (f g).id = g.id) (h : freshIds s) : freshIds (s.updGroup i f) := by
  intro j hj
  simp [getGroup_updGroup s i j f hf, h j hj]

theorem freshIds_updCard (s : GameState) (i : Nat) (f : Card → Card)
    (h : freshIds s) : freshIds (s.updCard i f) := h

theorem freshIds_setList (s : GameState) (l : List Ref) (h : freshIds s) :
    freshIds (s.setList l) := h

theorem freshIds_setDragging (s : GameState) (d : Option DragInfo)
    (h : freshIds s) : freshIds (s.setDragging d) := h

theorem freshIds_setLastDragged (s : GameState) (d : Option DragInfo)
    (h : freshIds s) : freshIds (s.setLastDragged d) := h

/-! ### C6: a group with members appears at most once in the registry -/

theorem no_other_gid (s : GameState) (gi : Nat) (g : GroupObj)
    (l₁ l₂ : List Ref) (r : Ref)
    (hnd : (ownedCards s).Nodup) (hg : s.getGroup gi = some g)
    (hne : g.members ≠ [])
    (hsplit : s.allObjects = l₁ ++ r :: l₂) (hr : refGid r = some gi) :
    (∀ r' ∈ l₁, refGid r' ≠ some gi) ∧ (∀ r' ∈ l₂, refGid r' ≠ some gi) := by
  have hrc : ∀ r', refGid r' = some gi → s.refCards r' = g.members := by
    intro r' hr'
    cases r' with
    | card j => cases hr'
    | group k gj =>
      have hj : gj = gi := by simpa [refGid] using hr'
      subst hj
      rw [refCards_group, hg]
      rfl
  obtain ⟨c, hc⟩ : ∃ c, c ∈ g.members := by
    cases hm : g.members with
    | nil => exact absurd hm hne
    | cons x t => exact ⟨x, hm ▸ List.mem_cons_self x t⟩
  have hown : ownedCards s = s.ownedList l₁ ++ (g.members ++ s.ownedList l₂) := by
    rw [ownedCards_def, hsplit, ownedList_append, ownedList_cons, hrc r hr]
  rw [hown, List.nodup_append] at hnd
  obtain ⟨h1, h2, hdisj⟩ := hnd
  constructor
  · intro r' hr' he
    have hcl : c ∈ s.ownedList l₁ :=
      List.mem_flatten.mpr ⟨s.refCards r', List.mem_map_of_mem _ hr',
        by rw [hrc r' he]; exact hc⟩
    exact hdisj hcl (List.mem_append_left _ hc)
  · intro r' hr' he
    rw [List.nodup_append] at h2
    obtain ⟨h21, h22, hdisj2⟩ := h2
    have hcl : c ∈ s.ownedList l₂ :=
      List.mem_flatten.mpr ⟨s.refCards r', List.mem_map_of_mem _ hr',
        by rw [hrc r' he]; exact hc⟩
    exact hdisj2 hc hcl

/-! ### C6: flip phase lemmas -/

theorem perm_of_eq {α : Type} {l₁ l₂ : List α} (h : l₁ = l₂) : l₁.Perm l₂ :=
  h ▸ List.Perm.refl _

theorem reverseIfGroup_refCards_perm (s : GameState) (r r' : Ref) :
    ((reverseIfGroup s r).refCards r').Perm (s.refCards r') := by
  cases r with
  | card i => exact List.Perm.refl _
  | group k gi =>
    simp only [reverseIfGroup]
    cases r' with
    | card j => exact List.Perm.refl _
    | group k' gj =>
      by_cases hj : gj = gi
      · subst hj
        rw [refCards_group, refCards_group,
          getGroup_updGroup_self s gj
            (fun g => { g with members := g.members.reverse }) (fun g2 => rfl)]
        cases s.getGroup gj with
        | none => exact List.Perm.refl _
        | some g => simpa using g.members.reverse_perm
      · exact perm_of_eq (refCards_updGroup_ne s gi
          (fun g => { g with members := g.members.reverse }) (fun g2 => rfl)
          (Ref.group k' gj) (by simp [refGid, hj]))

theorem reverseIfGroup_len (s : GameState) (r : Ref) (j : Nat) :
    ((reverseIfGroup s r).getGroup j).map (fun g => g.members.length) =
      (s.getGroup j).map (fun g => g.members.length) := by
  cases r with
  | card i => rfl
  | group k gi =>
    simp only [reverseIfGroup]
    rw [getGroup_updGroup s gi j
      (fun g => { g with members := g.members.reverse }) (fun g2 => rfl)]
    cases s.getGroup j with
    | none => rfl
    | some g => by_cases h : g.id = gi <;> simp [h]

theorem reverseIfGroup_fresh (s : GameState) (r : Ref) (h : freshIds s) :
    freshIds (reverseIfGroup s r) := by
  cases r with
  | card i => exact h
  | group k gi =>
    simp only [reverseIfGroup]
    exact freshIds_updGroup s gi
      (fun g => { g with members := g.members.reverse }) (fun g2 => rfl) h

theorem setRefFlipped_fresh (s : GameState) (o : Ref) (v : Bool)
    (h : freshIds s) : freshIds (s.setRefFlipped o v) := by
  cases o with
  | card i => exact h
  | group k i =>
    exact freshIds_updGroup s i (fun g => { g with flipped := v })
      (fun g2 => rfl) h

theorem flipStep_refCards_perm (s : GameState) (o : Ref) (ty : String) (b : Nat)
    (r' : Ref) :
    ((flipStep s o ty b).refCards r').Perm (s.refCards r') := by
  unfold flipStep
  split_ifs <;>
    first
      | exact List.Perm.refl _
      | exact (perm_of_eq (refCards_eq_of_members_eq
          (setRefFlipped_members _ o _) r')).trans
          (reverseIfGroup_refCards_perm s o r')
      | exact perm_of_eq (refCards_eq_of_members_eq
          (setRefFlipped_members _ o _) r')

theorem flipStep_len (s : GameState) (o : Ref) (ty : String) (b : Nat) (j : Nat) :
    ((flipStep s o ty b).getGroup j).map (fun g => g.members.length) =
      (s.getGroup j).map (fun g => g.members.length) := by
  unfold flipStep
  split_ifs <;>
    first
      | rfl
      | exact (len_of_members_eq (setRefFlipped_members _ o _) j).trans
          (reverseIfGroup_len s o j)
      | exact len_of_members_eq (setRefFlipped_members _ o _) j

theorem flipStep_fresh (s : GameState) (o : Ref) (ty : String) (b : Nat)
    (h : freshIds s) : freshIds (flipStep s o ty b) := by
  unfold flipStep
  split_ifs <;>
    first
      | exact h
      | exact setRefFlipped_fresh _ o _ (reverseIfGroup_fresh s o h)
      | exact setRefFlipped_fresh _ o _ h

theorem flipStep_ownedCards_perm (s : GameState) (o : Ref) (ty : String)
    (b : Nat) : (ownedCards (flipStep s o ty b)).Perm (ownedCards s) := by
  rw [ownedCards_def, ownedCards_def, flipStep_allObjects]
  exact ownedList_perm_pointwise (fun r => flipStep_refCards_perm s o ty b r) _

theorem flipStep_live (s : GameState) (o : Ref) (ty : String) (b : Nat)
    (h : liveGroupsOk s) : liveGroupsOk (flipStep s o ty b) := by
  refine live_transfer (fun r hr => ?_) (flipStep_len s o ty b) h
  rw [flipStep_allObjects] at hr
  exact hr

/-! ### C6: move / hover phases are ownership-invisible -/

theorem movePhase_ownedCards (s : GameState) (d : DragInfo) (mx my : ℚ) :
    ownedCards (movePhase s d mx my) = ownedCards s :=
  ownedCards_eq_of_frame (movePhase_allObjects s d mx my)
    (movePhase_members s d mx my)

theorem movePhase_fresh (s : GameState) (d : DragInfo) (mx my : ℚ)
    (h : freshIds s) : freshIds (movePhase s d mx my) :=
  fresh_transfer (movePhase_nextId s d mx my)
    (fun j => len_of_members_eq (movePhase_members s d mx my) j) h

theorem movePhase_live (s : GameState) (d : DragInfo) (mx my : ℚ)
    (h : liveGroupsOk s) : liveGroupsOk (movePhase s d mx my) := by
  refine live_transfer (fun r hr => ?_)
    (fun j => len_of_members_eq (movePhase_members s d mx my) j) h
  rw [movePhase_allObjects] at hr
  exact hr

theorem hoverPhase_ownedCards (s : GameState) (d : DragInfo) (cx cy : ℚ) :
    ownedCards (hoverPhase s d cx cy).1 = ownedCards s :=
  ownedCards_eq_of_frame (hoverPhase_fst_allObjects s d cx cy)
    (hoverPhase_fst_members s d cx cy)

theorem hoverPhase_fresh (s : GameState) (d : DragInfo) (cx cy : ℚ)
    (h : freshIds s) : freshIds (hoverPhase s d cx cy).1 :=
  fresh_transfer ((hoverPhase_frame s d cx cy).2.2.2.1)
    (fun j => len_of_members_eq (hoverPhase_fst_members s d cx cy) j) h

theorem hoverPhase_live (s : GameState) (d : DragInfo) (cx cy : ℚ)
    (h : liveGroupsOk s) : liveGroupsOk (hoverPhase s d cx cy).1 := by
  refine live_transfer (fun r hr => ?_)
    (fun j => len_of_members_eq (hoverPhase_fst_members s d cx cy) j) h
  rw [hoverPhase_fst_allObjects] at hr
  exact hr

/-! ### C6: what the hover recomputation stores in the session -/

theorem findIdx?_get {α : Type} (l : List α) (p : α → Bool) (n : Nat)
    (h : l.findIdx? p = some n) : ∃ a, l.get? n = some a ∧ p a = true := by
  induction l generalizing n with
  | nil => cases h
  | cons b t ih =>
    rw [List.findIdx?_cons] at h
    by_cases hb : p b = true
    · rw [if_pos hb] at h
      cases h
      exact ⟨b, rfl, hb⟩
    · rw [if_neg hb, List.findIdx?_succ] at h
      cases hfi : t.findIdx? p with
      | none =>
        rw [hfi] at h
        cases h
      | some m =>
        rw [hfi] at h
        simp only [Option.map_some', Option.some.injEq] at h
        obtain ⟨a, ha, hpa⟩ := ih m hfi
        refine ⟨a, ?_, hpa⟩
        rw [← h]
        simpa using ha

theorem jsFindIdx_nonneg_get {α : Type} (l : List α) (p : α → Bool)
    (h : ¬ jsFindIdx l p < 0) :
    ∃ n : Nat, jsFindIdx l p = (n : Int) ∧
      ∃ a, l.get? n = some a ∧ p a = true := by
  cases hfi : l.findIdx? p with
  | none =>
    exfalso
    apply h
    unfold jsFindIdx
    rw [hfi]
    norm_num
  | some m =>
    refine ⟨m, ?_, findIdx?_get l p m hfi⟩
    unfold jsFindIdx
    rw [hfi]

theorem object_card_of_typeStr {o : Ref} (h : refTypeStr o = "card") :
    ∃ ci, o = Ref.card ci := by
  cases o with
  | card i => exact ⟨i, rfl⟩
  | group k i =>
    exfalso
    cases k <;> simp [refTypeStr] at h

theorem hoverPhase_over (s : GameState) (d : DragInfo) (cx cy : ℚ) :
    ((hoverPhase s d cx cy).2.over = d.over ∧
     (hoverPhase s d cx cy).2.overIndex = d.overIndex) ∨
    (d.type = "card" ∧
     ∀ r, (hoverPhase s d cx cy).2.over = some r →
       r ≠ d.object ∧
       ∃ n : Nat, (hoverPhase s d cx cy).2.overIndex = some ((n : Nat) : Int) ∧
         s.allObjects.get? n = some r) := by
  unfold hoverPhase
  by_cases h : d.type = "card"
  · rw [if_pos h]
    right
    refine ⟨h, fun r hr => ?_⟩
    dsimp only at hr ⊢
    by_cases hneg : (jsFindIdx s.allObjects
        (fun r2 => decide (r2 ≠ d.object) && truthy (s.refIsIn r2 cx cy))) < 0
    · rw [if_pos hneg] at hr
      cases hr
    · obtain ⟨n, hn, a, ha, hpa⟩ := jsFindIdx_nonneg_get _ _ hneg
      rw [if_neg hneg, hn, Int.toNat_natCast, ha] at hr
      have har : a = r := by
        injection hr
      subst har
      simp only [Bool.and_eq_true, decide_eq_true_eq] at hpa
      exact ⟨hpa.1, n, by rw [hn], ha⟩
  · rw [if_neg h]
    left
    exact ⟨rfl, rfl⟩

/-! ### C6: the tail of `mousemove` preserves the invariant -/

theorem pipeline_own (s0 s1 : GameState) (d1 : DragInfo) (mx my cx cy : ℚ)
    (hA0 : (ownedCards s0).Nodup)
    (hperm : (ownedCards s1).Perm (ownedCards s0))
    (hfresh : freshIds s1) (hlive : liveGroupsOk s1)
    (hhead : s1.allObjects.head? = some d1.object)
    (htype : refTypeStr d1.object = d1.type)
    (hover : ∀ r, d1.over = some r →
      (∃ ci, d1.object = Ref.card ci) ∧ r ≠ d1.object ∧
      ∃ k : Int, d1.overIndex = some k ∧ 0 ≤ k ∧
        s1.allObjects.get? k.toNat = some r) :
    WFOwn ((hoverPhase (movePhase s1 d1 mx my) d1 cx cy).1.setDragging
      (some (hoverPhase (movePhase s1 d1 mx my) d1 cx cy).2)) ∧
    (ownedCards ((hoverPhase (movePhase s1 d1 mx my) d1 cx cy).1.setDragging
      (some (hoverPhase (movePhase s1 d1 mx my) d1 cx cy).2))).Perm
      (ownedCards s0) := by
  have hownF : ownedCards ((hoverPhase (movePhase s1 d1 mx my) d1 cx cy).1.setDragging
      (some (hoverPhase (movePhase s1 d1 mx my) d1 cx cy).2)) = ownedCards s1 := by
    rw [ownedCards_eq_of_frame (setDragging_allObjects _ _) (fun j => rfl),
      hoverPhase_ownedCards, movePhase_ownedCards]
  have hpermF : (ownedCards ((hoverPhase (movePhase s1 d1 mx my) d1 cx cy).1.setDragging
      (some (hoverPhase (movePhase s1 d1 mx my) d1 cx cy).2))).Perm (ownedCards s0) := by
    rw [hownF]
    exact hperm
  refine ⟨⟨hpermF.nodup_iff.mpr hA0, ?_, ?_, ?_⟩, hpermF⟩
  · exact freshIds_setDragging _ _
      (hoverPhase_fresh _ d1 cx cy (movePhase_fresh s1 d1 mx my hfresh))
  · have hl : liveGroupsOk (hoverPhase (movePhase s1 d1 mx my) d1 cx cy).1 :=
      hoverPhase_live _ d1 cx cy (movePhase_live s1 d1 mx my hlive)
    refine live_transfer (fun r hr => ?_) (fun j => rfl) hl
    rw [setDragging_allObjects] at hr
    exact hr
  · intro d2 hd2
    rw [setDragging_dragging, Option.some.injEq] at hd2
    subst hd2
    refine ⟨?_, ?_, ?_⟩
    · rw [setDragging_allObjects, hoverPhase_fst_allObjects,
        movePhase_allObjects, hoverPhase_snd_object]
      exact hhead
    · rw [hoverPhase_snd_object, hoverPhase_snd_type]
      exact htype
    · intro r hr
      rcases hoverPhase_over (movePhase s1 d1 mx my) d1 cx cy with ⟨hov, hoi⟩ | ⟨hc, hfound⟩
      · rw [hov] at hr
        obtain ⟨hcard, hne, k, hk, hk0, hget⟩ := hover r hr
        refine ⟨by rw [hoverPhase_snd_object]; exact hcard,
          by rw [hoverPhase_snd_object]; exact hne, k, by rw [hoi]; exact hk, hk0, ?_⟩
        rw [setDragging_allObjects, hoverPhase_fst_allObjects, movePhase_allObjects]
        exact hget
      · obtain ⟨hne, n, hoi, hget⟩ := hfound r hr
        have hcard : ∃ ci, d1.object = Ref.card ci :=
          object_card_of_typeStr (htype.trans hc)
        refine ⟨by rw [hoverPhase_snd_object]; exact hcard,
          by rw [hoverPhase_snd_object]; exact hne, (n : Int), hoi,
          Int.natCast_nonneg n, ?_⟩
        rw [setDragging_allObjects, hoverPhase_fst_allObjects,
          movePhase_allObjects, Int.toNat_natCast]
        rw [movePhase_allObjects] at hget
        exact hget

/-! ### C6: more ownership computation helpers -/

theorem refCards_setDragging (s : GameState) (v : Option DragInfo) (r : Ref) :
    (s.setDragging v).refCards r = s.refCards r := by
  cases r <;> rfl

theorem refCards_setLastDragged (s : GameState) (v : Option DragInfo) (r : Ref) :
    (s.setLastDragged v).refCards r = s.refCards r := by
  cases r <;> rfl

theorem refCards_setList (s : GameState) (l : List Ref) (r : Ref) :
    (s.setList l).refCards r = s.refCards r := by
  cases r <;> rfl

theorem ownedCards_setList (s : GameState) (l : List Ref) :
    ownedCards (s.setList l) = s.ownedList l := by
  rw [ownedCards_def, setList_allObjects]
  exact ownedList_eq_of_members_eq (fun j => rfl) l

theorem ownedCards_setDragging (s : GameState) (v : Option DragInfo) :
    ownedCards (s.setDragging v) = ownedCards s :=
  ownedCards_eq_of_frame (setDragging_allObjects s v) (fun j => rfl)

theorem ownedCards_setLastDragged (s : GameState) (v : Option DragInfo) :
    ownedCards (s.setLastDragged v) = ownedCards s :=
  ownedCards_eq_of_frame (setLastDragged_allObjects s v) (fun j => rfl)

theorem ownedList_perm_list (s : GameState) {l₁ l₂ : List Ref}
    (h : l₁.Perm l₂) : (s.ownedList l₁).Perm (s.ownedList l₂) :=
  (h.map _).flatten

/-! ### C6: `mousedown` preserves the invariant -/

theorem mousedown_own (s : GameState) (px py ts : ℚ) (b : Nat)
    (hWF : WFOwn s) :
    WFOwn (mousedown s px py b ts) ∧
    (ownedCards (mousedown s px py b ts)).Perm (ownedCards s) := by
  obtain ⟨hA, hfresh, hlive, hcoh⟩ := hWF
  unfold mousedown
  by_cases hact : s.dragging.isSome = true
  · rw [if_pos hact]
    exact ⟨⟨hA, hfresh, hlive, hcoh⟩, List.Perm.refl _⟩
  · rw [if_neg hact]
    dsimp only
    cases hobj : (if (jsFindIdx s.allObjects fun r => truthy (s.refIsIn r px py)) < 0
        then none
        else s.allObjects.get?
          (jsFindIdx s.allObjects fun r => truthy (s.refIsIn r px py)).toNat) with
    | none => exact ⟨⟨hA, hfresh, hlive, hcoh⟩, List.Perm.refl _⟩
    | some object =>
      dsimp only
      have hmem : object ∈ s.allObjects := by
        by_cases hn : (jsFindIdx s.allObjects fun r => truthy (s.refIsIn r px py)) < 0
        · rw [if_pos hn] at hobj
          cases hobj
        · rw [if_neg hn] at hobj
          exact List.get?_mem hobj
      split
      next hcond =>
        have hperm : ∀ v, (ownedCards ((flipStep s object
            (refTypeStr object) b).setDragging v)).Perm (ownedCards s) := by
          intro v
          rw [ownedCards_setDragging]
          exact flipStep_ownedCards_perm s object (refTypeStr object) b
        refine ⟨⟨(hperm _).nodup_iff.mpr hA, ?_, ?_, ?_⟩, hperm _⟩
        · exact freshIds_setDragging _ _
            (flipStep_fresh s object (refTypeStr object) b hfresh)
        · refine live_transfer (fun r hr => ?_) (fun j => ?_) hlive
          · rw [setDragging_allObjects, flipStep_allObjects] at hr
            exact hr
          · exact flipStep_len s object (refTypeStr object) b j
        · intro d2 hd2
          simp only [setDragging_dragging, Option.some.injEq] at hd2
          subst hd2
          refine ⟨hcond, rfl, fun r hr => ?_⟩
          cases hr
      next hcond =>
        simp only [setDragging_allObjects, flipStep_allObjects]
        obtain ⟨n, hn, hgetn⟩ := jsIndexOf_mem_spec s.allObjects object hmem
        rw [hn, jsSpliceRemove_valid s.allObjects n object hgetn]
        dsimp only [List.head?_cons]
        have hperm : ∀ v, (ownedCards (((flipStep s object (refTypeStr object)
            b).setDragging v).setList (object :: s.allObjects.eraseIdx n))).Perm
            (ownedCards s) := by
          intro v
          rw [ownedCards_setList]
          refine (ownedList_perm_pointwise (fun r => ?_) _).trans
            (ownedList_perm_list s (perm_cons_eraseIdx s.allObjects n object hgetn))
          rw [refCards_setDragging]
          exact flipStep_refCards_perm s object (refTypeStr object) b r
        refine ⟨⟨(hperm _).nodup_iff.mpr hA, ?_, ?_, ?_⟩, hperm _⟩
        · exact freshIds_setList _ _ (freshIds_setDragging _ _
            (flipStep_fresh s object (refTypeStr object) b hfresh))
        · refine live_transfer (fun r hr => ?_) (fun j => ?_) hlive
          · rw [setList_allObjects] at hr
            rcases List.mem_cons.mp hr with h1 | h1
            · rw [h1]
              exact hmem
            · exact List.eraseIdx_subset _ _ h1
          · exact flipStep_len s object (refTypeStr object) b j
        · intro d2 hd2
          simp only [setList_dragging, setDragging_dragging, Option.some.injEq] at hd2
          subst hd2
          refine ⟨by rw [setList_allObjects]; rfl, rfl, fun r hr => ?_⟩
          cases hr

/-! ### C6: uniform transfer closers for ownership-invisible operations -/

theorem ownedList_congr {s s' : GameState} {l : List Ref}
    (h : ∀ r ∈ l, s'.refCards r = s.refCards r) :
    s'.ownedList l = s.ownedList l := by
  unfold GameState.ownedList
  rw [List.map_congr_left h]

theorem own3_frame {s0 x y : GameState}
    (ha : y.allObjects = x.allObjects) (hn : y.nextId = x.nextId)
    (hm : ∀ j, (y.getGroup j).map GroupObj.members =
      (x.getGroup j).map GroupObj.members)
    (h : (ownedCards x).Perm (ownedCards s0) ∧ freshIds x ∧ liveGroupsOk x) :
    (ownedCards y).Perm (ownedCards s0) ∧ freshIds y ∧ liveGroupsOk y := by
  refine ⟨(perm_of_eq (ownedCards_eq_of_frame ha hm)).trans h.1,
    fresh_transfer hn (fun j => len_of_members_eq hm j) h.2.1, ?_⟩
  refine live_transfer (fun r hr => ?_) (fun j => len_of_members_eq hm j) h.2.2
  rw [ha] at hr
  exact hr

theorem own3_updCard (s0 x : GameState) (i : Nat) (f : Card → Card)
    (h : (ownedCards x).Perm (ownedCards s0) ∧ freshIds x ∧ liveGroupsOk x) :
    (ownedCards (x.updCard i f)).Perm (ownedCards s0) ∧
    freshIds (x.updCard i f) ∧ liveGroupsOk (x.updCard i f) :=
  own3_frame rfl rfl (fun j => rfl) h

theorem own3_setRefX (s0 x : GameState) (r : Ref) (v : ℚ)
    (h : (ownedCards x).Perm (ownedCards s0) ∧ freshIds x ∧ liveGroupsOk x) :
    (ownedCards (x.setRefX r v)).Perm (ownedCards s0) ∧
    freshIds (x.setRefX r v) ∧ liveGroupsOk (x.setRefX r v) :=
  own3_frame (setRefX_allObjects x r v) (setRefX_nextId x r v)
    (setRefX_members x r v) h

theorem own3_setRefY (s0 x : GameState) (r : Ref) (v : ℚ)
    (h : (ownedCards x).Perm (ownedCards s0) ∧ freshIds x ∧ liveGroupsOk x) :
    (ownedCards (x.setRefY r v)).Perm (ownedCards s0) ∧
    freshIds (x.setRefY r v) ∧ liveGroupsOk (x.setRefY r v) :=
  own3_frame (setRefY_allObjects x r v) (setRefY_nextId x r v)
    (setRefY_members x r v) h

theorem own3_setRefFlipped (s0 x : GameState) (r : Ref) (v : Bool)
    (h : (ownedCards x).Perm (ownedCards s0) ∧ freshIds x ∧ liveGroupsOk x) :
    (ownedCards (x.setRefFlipped r v)).Perm (ownedCards s0) ∧
    freshIds (x.setRefFlipped r v) ∧ liveGroupsOk (x.setRefFlipped r v) :=
  own3_frame (setRefFlipped_allObjects x r v) (setRefFlipped_nextId x r v)
    (setRefFlipped_members x r v) h

theorem own3_setRefDirection (s0 x : GameState) (r : Ref) (v : ℚ)
    (h : (ownedCards x).Perm (ownedCards s0) ∧ freshIds x ∧ liveGroupsOk x) :
    (ownedCards (x.setRefDirection r v)).Perm (ownedCards s0) ∧
    freshIds (x.setRefDirection r v) ∧ liveGroupsOk (x.setRefDirection r v) :=
  own3_frame (setRefDirection_allObjects x r v) (setRefDirection_nextId x r v)
    (setRefDirection_members x r v) h

/-! ### C6: the degeneration step preserves the invariant -/

theorem degenStep_own_from (s0 x : GameState) (off : ℚ) (cid : Nat) (k : GKind)
    (gid : Nat) (t : List Ref) (g2 : GroupObj)
    (hao : x.allObjects = Ref.card cid :: Ref.group k gid :: t)
    (hg : x.getGroup gid = some g2)
    (hlive_t : ∀ r ∈ t, ∀ k' gi, r = Ref.group k' gi →
        ∃ g, x.getGroup gi = some g ∧ 2 ≤ g.members.length)
    (hperm : (ownedCards x).Perm (ownedCards s0))
    (hfresh : freshIds x)
    (hg2len : 1 ≤ g2.members.length) :
    (ownedCards (degenStep x off)).Perm (ownedCards s0) ∧
    freshIds (degenStep x off) ∧ liveGroupsOk (degenStep x off) := by
  unfold degenStep
  have ho1 : x.objAt 1 = some (Ref.group k gid) := by
    rw [GameState.objAt, hao]
    rfl
  rw [ho1]
  dsimp only
  rw [hg]
  dsimp only
  by_cases hl1 : g2.members.length = 1
  · rw [if_pos hl1]
    obtain ⟨c0, hc0⟩ := List.length_eq_one.mp hl1
    rw [hc0]
    dsimp only [List.head?_cons]
    have hao4 : ((((x.updCard c0 (fun c => { c with flipped := g2.flipped })).updCard c0
        (fun c => { c with direction := g2.direction })).updCard c0
        (fun c => { c with x := g2.X - off })).updCard c0
        (fun c => { c with y := g2.Y - off })).allObjects =
        Ref.card cid :: Ref.group k gid :: t := by
      simp only [updCard_allObjects]
      exact hao
    rw [hao4, jsSpliceInsert_cons2]
    have hrc : ∀ r, ((((x.updCard c0 (fun c => { c with flipped := g2.flipped })).updCard c0
        (fun c => { c with direction := g2.direction })).updCard c0
        (fun c => { c with x := g2.X - off })).updCard c0
        (fun c => { c with y := g2.Y - off })).refCards r = x.refCards r := by
      intro r
      cases r <;> rfl
    constructor
    · refine List.Perm.trans (perm_of_eq ?_) hperm
      rw [ownedCards_setList, ownedCards_def, hao]
      rw [ownedList_cons, ownedList_cons, ownedList_cons, ownedList_cons,
        ownedList_congr (fun r _ => hrc r)]
      rw [hrc, hrc, refCards_card, refCards_card, refCards_group, hg]
      simp [hc0]
    constructor
    · exact freshIds_setList _ _ (freshIds_updCard _ _ _ (freshIds_updCard _ _ _
        (freshIds_updCard _ _ _ (freshIds_updCard _ _ _ hfresh))))
    · intro r hr k' gi hre
      rw [setList_allObjects] at hr
      rcases List.mem_cons.mp hr with h1 | h1
      · rw [hre] at h1
        cases h1
      · rcases List.mem_cons.mp h1 with h2 | h2
        · rw [hre] at h2
          cases h2
        · obtain ⟨g3, hg3, hlen3⟩ := hlive_t r h2 k' gi hre
          exact ⟨g3, hg3, hlen3⟩
  · rw [if_neg hl1]
    refine ⟨hperm, hfresh, ?_⟩
    intro r hr k' gi hre
    rw [hao] at hr
    rcases List.mem_cons.mp hr with h1 | h1
    · rw [hre] at h1
      cases h1
    · rcases List.mem_cons.mp h1 with h2 | h2
      · rw [hre] at h2
        injection h2 with hk hgi
        subst hgi
        exact ⟨g2, hg, by omega⟩
      · exact hlive_t r h2 k' gi hre

/-! ### C6: the Stack extraction branch preserves the invariant -/

theorem firstMoveStack_own (s : GameState) (d : DragInfo) (cx cy ts : ℚ)
    (hA : (ownedCards s).Nodup) (hfresh : freshIds s) (hlive : liveGroupsOk s)
    (hhead : s.allObjects.head? = some d.object) :
    (ownedCards (firstMoveStack s d cx cy ts).1).Perm (ownedCards s) ∧
    freshIds (firstMoveStack s d cx cy ts).1 ∧
    liveGroupsOk (firstMoveStack s d cx cy ts).1 := by
  unfold firstMoveStack
  cases hobj : d.object with
  | card i =>
    exact ⟨List.Perm.refl _, hfresh, hlive⟩
  | group k gid =>
    dsimp only
    cases hg : s.getGroup gid with
    | none => exact ⟨List.Perm.refl _, hfresh, hlive⟩
    | some g =>
      dsimp only
      cases hh : (jsSpliceRemove g.members (d.specCardIndex.getD 0) 1).1.head? with
      | none =>
        dsimp only
        have h2 := jsSpliceRemove_nil1 g.members (d.specCardIndex.getD 0) hh
        rw [h2]
        have hmm : ∀ jj, ((s.updGroup gid
            (fun g2 => { g2 with members := g.members })).getGroup jj).map
            GroupObj.members = (s.getGroup jj).map GroupObj.members := by
          intro jj
          by_cases hj : jj = gid
          · subst hj
            rw [getGroup_upd_members, hg]
            rfl
          · rw [getGroup_updGroup_other s gid jj
              (fun g2 => { g2 with members := g.members }) (fun g2 => rfl) hj]
        refine ⟨perm_of_eq (ownedCards_eq_of_frame (updGroup_allObjects s gid _) hmm),
          freshIds_updGroup s gid (fun g2 => { g2 with members := g.members })
            (fun g2 => rfl) hfresh, ?_⟩
        refine live_transfer (fun r hr => ?_)
          (fun jj => len_of_members_eq hmm jj) hlive
        rw [updGroup_allObjects] at hr
        exact hr
      | some cid =>
        dsimp only
        obtain ⟨j, hjget, h2⟩ :=
          jsSpliceRemove_head1 g.members (d.specCardIndex.getD 0) cid hh
        rw [hobj] at hhead
        obtain ⟨t, ht⟩ := head?_shape _ _ hhead
        obtain ⟨g0, hg0, hlen2⟩ := hlive (Ref.group k gid)
          (by rw [ht]; exact List.mem_cons_self _ _) k gid rfl
        rw [hg] at hg0
        injection hg0 with hg0e
        rw [← hg0e] at hlen2
        have hjlt : j < g.members.length := by
          rw [List.get?_eq_getElem?] at hjget
          exact (List.getElem?_eq_some.mp hjget).1
        have hmemne : g.members ≠ [] := by
          intro he
          rw [he] at hlen2
          simp at hlen2
        have hno := (no_other_gid s gid g [] t (Ref.group k gid) hA hg hmemne
          (by rw [ht]; rfl) (by simp [refGid])).2
        rw [h2]
        set x1 := s.updGroup gid
          (fun g2 => { g2 with members := g.members.eraseIdx j }) with hx1
        have hao1 : x1.allObjects = Ref.group k gid :: t := by
          rw [hx1, updGroup_allObjects, ht]
        rw [hao1]
        set x2 := x1.setList (Ref.card cid :: Ref.group k gid :: t) with hx2
        have hao2 : x2.allObjects = Ref.card cid :: Ref.group k gid :: t := by
          rw [hx2, setList_allObjects]
        have ho21 : x2.objAt 1 = some (Ref.group k gid) := by
          rw [GameState.objAt, hao2]
          rfl
        rw [ho21]
        dsimp only
        set x3 := x2.setRefFlipped (Ref.card cid)
          (x2.refFlipped (Ref.group k gid)) with hx3
        have hao3 : x3.allObjects = Ref.card cid :: Ref.group k gid :: t := by
          rw [hx3, setRefFlipped_allObjects, hao2]
        have ho31 : x3.objAt 1 = some (Ref.group k gid) := by
          rw [GameState.objAt, hao3]
          rfl
        rw [ho31]
        dsimp only
        set x4 := x3.setRefDirection (Ref.card cid)
          (x3.refDirection (Ref.group k gid)) with hx4
        have hao4 : x4.allObjects = Ref.card cid :: Ref.group k gid :: t := by
          rw [hx4, setRefDirection_allObjects, hao3]
        have hgx1 : x1.getGroup gid =
            some { g with members := g.members.eraseIdx j } := by
          rw [hx1, getGroup_upd_members, hg]
          rfl
        have hgx4 : x4.getGroup gid =
            some { g with members := g.members.eraseIdx j } := by
          rw [hx4, hx3, hx2]
          exact hgx1
        have hrc4 : ∀ r, x4.refCards r = x1.refCards r := by
          intro r
          rw [hx4, hx3, hx2]
          cases r <;> rfl
        have hrc1 : ∀ r ∈ t, x1.refCards r = s.refCards r := by
          intro r hr
          rw [hx1]
          exact refCards_updGroup_ne s gid
            (fun g2 => { g2 with members := g.members.eraseIdx j })
            (fun g2 => rfl) r (hno r hr)
        have hm41 : ∀ jj, (x4.getGroup jj).map GroupObj.members =
            (x1.getGroup jj).map GroupObj.members := by
          intro jj
          rw [hx4, setRefDirection_members, hx3, setRefFlipped_members, hx2,
            setList_getGroup]
        have hfresh1 : freshIds x1 := by
          rw [hx1]
          exact freshIds_updGroup s gid
            (fun g2 => { g2 with members := g.members.eraseIdx j })
            (fun g2 => rfl) hfresh
        have hfreshT : freshIds x4 :=
          fresh_transfer (by rw [hx4, setRefDirection_nextId, hx3,
              setRefFlipped_nextId, hx2, setList_nextId])
            (fun jj => len_of_members_eq hm41 jj) hfresh1
        have hliveT : ∀ r ∈ t, ∀ k' gi, r = Ref.group k' gi →
            ∃ gg, x4.getGroup gi = some gg ∧ 2 ≤ gg.members.length := by
          intro r hr k' gi hre
          obtain ⟨gg, hgg, hggl⟩ := hlive r
            (by rw [ht]; exact List.mem_cons_of_mem _ hr) k' gi hre
          refine ⟨gg, ?_, hggl⟩
          have hgine : gi ≠ gid := by
            intro he
            apply hno r hr
            rw [hre, he]
            rfl
          rw [hx4, hx3, hx2]
          show x1.getGroup gi = some gg
          rw [hx1, getGroup_updGroup_other s gid gi
            (fun g2 => { g2 with members := g.members.eraseIdx j })
            (fun g2 => rfl) hgine]
          exact hgg
        have hrcg : x4.refCards (Ref.group k gid) = g.members.eraseIdx j := by
          rw [hrc4, refCards_group, hgx1]
          rfl
        have hpermT : (ownedCards x4).Perm (ownedCards s) := by
          have e1 : ownedCards x4 =
              cid :: (g.members.eraseIdx j ++ s.ownedList t) := by
            rw [ownedCards_def, hao4, ownedList_cons, ownedList_cons,
              refCards_card, hrcg,
              ownedList_congr (fun r hr => hrc4 r), ownedList_congr hrc1]
            rfl
          have e2 : ownedCards s = g.members ++ s.ownedList t := by
            rw [ownedCards_def, ht, ownedList_cons, refCards_group, hg]
            rfl
          rw [e1, e2]
          exact (perm_cons_eraseIdx g.members j cid hjget).append_right
            (s.ownedList t)
        have hlen1 : 1 ≤ ({ g with members := g.members.eraseIdx j } :
            GroupObj).members.length := by
          show 1 ≤ (g.members.eraseIdx j).length
          rw [List.length_eraseIdx]
          simp only [hjlt, if_true, ite_true]
          omega
        have hD := degenStep_own_from s x4 0 cid k gid t
          { g with members := g.members.eraseIdx j } hao4 hgx4 hliveT hpermT
          hfreshT hlen1
        repeat' split
        all_goals
          repeat
            first
              | exact hD
              | apply own3_setRefDirection s
              | apply own3_setRefX s
              | apply own3_setRefY s

/-! ### C6: the Pile extraction branch preserves the invariant -/

theorem firstMovePile_own (s : GameState) (d : DragInfo) (cx cy ts : ℚ)
    (hA : (ownedCards s).Nodup) (hfresh : freshIds s) (hlive : liveGroupsOk s)
    (hhead : s.allObjects.head? = some d.object) :
    (ownedCards (firstMovePile s d cx cy ts).1).Perm (ownedCards s) ∧
    freshIds (firstMovePile s d cx cy ts).1 ∧
    liveGroupsOk (firstMovePile s d cx cy ts).1 := by
  unfold firstMovePile
  cases hobj : d.object with
  | card i =>
    exact ⟨List.Perm.refl _, hfresh, hlive⟩
  | group k gid =>
    dsimp only
    cases hg : s.getGroup gid with
    | none => exact ⟨List.Perm.refl _, hfresh, hlive⟩
    | some g =>
      dsimp only
      cases hm : g.members with
      | nil => exact ⟨List.Perm.refl _, hfresh, hlive⟩
      | cons c0 restm =>
        dsimp only
        rw [hobj] at hhead
        obtain ⟨t, ht⟩ := head?_shape _ _ hhead
        obtain ⟨g0, hg0, hlen2⟩ := hlive (Ref.group k gid)
          (by rw [ht]; exact List.mem_cons_self _ _) k gid rfl
        rw [hg] at hg0
        injection hg0 with hg0e
        rw [← hg0e] at hlen2
        have hmemne : g.members ≠ [] := by
          rw [hm]
          exact List.cons_ne_nil c0 restm
        have hno := (no_other_gid s gid g [] t (Ref.group k gid) hA hg hmemne
          (by rw [ht]; rfl) (by simp [refGid])).2
        set x1 := s.updGroup gid (fun g2 => { g2 with members := restm }) with hx1
        have hao1 : x1.allObjects = Ref.group k gid :: t := by
          rw [hx1, updGroup_allObjects, ht]
        rw [hao1]
        set x2 := x1.setList (Ref.card c0 :: Ref.group k gid :: t) with hx2
        have hao2 : x2.allObjects = Ref.card c0 :: Ref.group k gid :: t := by
          rw [hx2, setList_allObjects]
        have ho21 : x2.objAt 1 = some (Ref.group k gid) := by
          rw [GameState.objAt, hao2]
          rfl
        rw [ho21]
        dsimp only
        set x3 := x2.setRefFlipped (Ref.card c0)
          (x2.refFlipped (Ref.group k gid)) with hx3
        have hao3 : x3.allObjects = Ref.card c0 :: Ref.group k gid :: t := by
          rw [hx3, setRefFlipped_allObjects, hao2]
        have ho31 : x3.objAt 1 = some (Ref.group k gid) := by
          rw [GameState.objAt, hao3]
          rfl
        rw [ho31]
        dsimp only
        set x4 := x3.setRefDirection (Ref.card c0)
          (x3.refDirection (Ref.group k gid)) with hx4
        have hao4 : x4.allObjects = Ref.card c0 :: Ref.group k gid :: t := by
          rw [hx4, setRefDirection_allObjects, hao3]
        have hgx1 : x1.getGroup gid = some { g with members := restm } := by
          rw [hx1, getGroup_upd_members, hg]
          rfl
        have hgx4 : x4.getGroup gid = some { g with members := restm } := by
          rw [hx4, hx3, hx2]
          exact hgx1
        have hrc4 : ∀ r, x4.refCards r = x1.refCards r := by
          intro r
          rw [hx4, hx3, hx2]
          cases r <;> rfl
        have hrc1 : ∀ r ∈ t, x1.refCards r = s.refCards r := by
          intro r hr
          rw [hx1]
          exact refCards_updGroup_ne s gid
            (fun g2 => { g2 with members := restm })
            (fun g2 => rfl) r (hno r hr)
        have hm41 : ∀ jj, (x4.getGroup jj).map GroupObj.members =
            (x1.getGroup jj).map GroupObj.members := by
          intro jj
          rw [hx4, setRefDirection_members, hx3, setRefFlipped_members, hx2,
            setList_getGroup]
        have hfresh1 : freshIds x1 := by
          rw [hx1]
          exact freshIds_updGroup s gid
            (fun g2 => { g2 with members := restm })
            (fun g2 => rfl) hfresh
        have hfreshT : freshIds x4 :=
          fresh_transfer (by rw [hx4, setRefDirection_nextId, hx3,
              setRefFlipped_nextId, hx2, setList_nextId])
            (fun jj => len_of_members_eq hm41 jj) hfresh1
        have hliveT : ∀ r ∈ t, ∀ k' gi, r = Ref.group k' gi →
            ∃ gg, x4.getGroup gi = some gg ∧ 2 ≤ gg.members.length := by
          intro r hr k' gi hre
          obtain ⟨gg, hgg, hggl⟩ := hlive r
            (by rw [ht]; exact List.mem_cons_of_mem _ hr) k' gi hre
          refine ⟨gg, ?_, hggl⟩
          have hgine : gi ≠ gid := by
            intro he
            apply hno r hr
            rw [hre, he]
            rfl
          rw [hx4, hx3, hx2]
          show x1.getGroup gi = some gg
          rw [hx1, getGroup_updGroup_other s gid gi
            (fun g2 => { g2 with members := restm })
            (fun g2 => rfl) hgine]
          exact hgg
        have hrcg : x4.refCards (Ref.group k gid) = restm := by
          rw [hrc4, refCards_group, hgx1]
          rfl
        have hpermT : (ownedCards x4).Perm (ownedCards s) := by
          have e1 : ownedCards x4 = c0 :: (restm ++ s.ownedList t) := by
            rw [ownedCards_def, hao4, ownedList_cons, ownedList_cons,
              refCards_card, hrcg,
              ownedList_congr (fun r hr => hrc4 r), ownedList_congr hrc1]
            rfl
          have e2 : ownedCards s = (c0 :: restm) ++ s.ownedList t := by
            rw [ownedCards_def, ht, ownedList_cons, refCards_group, hg, ← hm]
            rfl
          rw [e1, e2]
          exact List.Perm.refl _
        have hlen1 : 1 ≤ ({ g with members := restm } :
            GroupObj).members.length := by
          show 1 ≤ restm.length
          rw [hm] at hlen2
          simp at hlen2
          omega
        have hD := degenStep_own_from s x4 2 c0 k gid t
          { g with members := restm } hao4 hgx4 hliveT hpermT hfreshT hlen1
        exact hD

/-! ### C6: session shape of the extraction branches -/

theorem firstMoveStack_session (s : GameState) (d : DragInfo) (cx cy ts : ℚ) :
    ((firstMoveStack s d cx cy ts).2 = d ∧
     (firstMoveStack s d cx cy ts).1.allObjects = s.allObjects) ∨
    ((firstMoveStack s d cx cy ts).2.over = none ∧
     (firstMoveStack s d cx cy ts).2.type = "card" ∧
     ∃ ci, (firstMoveStack s d cx cy ts).2.object = Ref.card ci) := by
  unfold firstMoveStack
  cases d.object with
  | card i => exact Or.inl ⟨rfl, rfl⟩
  | group k gid =>
    dsimp only
    cases s.getGroup gid with
    | none => exact Or.inl ⟨rfl, rfl⟩
    | some g =>
      dsimp only
      cases (jsSpliceRemove g.members (d.specCardIndex.getD 0) 1).1.head? with
      | none => exact Or.inl ⟨rfl, by rw [updGroup_allObjects]⟩
      | some cid =>
        dsimp only
        exact Or.inr ⟨rfl, rfl, cid, rfl⟩

theorem firstMovePile_session (s : GameState) (d : DragInfo) (cx cy ts : ℚ) :
    ((firstMovePile s d cx cy ts).2 = d ∧
     (firstMovePile s d cx cy ts).1.allObjects = s.allObjects) ∨
    ((firstMovePile s d cx cy ts).2.over = none ∧
     (firstMovePile s d cx cy ts).2.type = "card" ∧
     ∃ ci, (firstMovePile s d cx cy ts).2.object = Ref.card ci) := by
  unfold firstMovePile
  cases d.object with
  | card i => exact Or.inl ⟨rfl, rfl⟩
  | group k gid =>
    dsimp only
    cases s.getGroup gid with
    | none => exact Or.inl ⟨rfl, rfl⟩
    | some g =>
      dsimp only
      cases g.members with
      | nil => exact Or.inl ⟨rfl, rfl⟩
      | cons c0 restm =>
        dsimp only
        exact Or.inr ⟨rfl, rfl, c0, rfl⟩

/-! ### C6: `mousemove` preserves the invariant -/

theorem firstmove_pipeline (s : GameState) (dIn : DragInfo)
    (fm : GameState × DragInfo) (mx my cx cy : ℚ)
    (hA : (ownedCards s).Nodup)
    (hperm : (ownedCards fm.1).Perm (ownedCards s))
    (hfresh : freshIds fm.1) (hlive : liveGroupsOk fm.1)
    (hhead : fm.1.allObjects.head? = some fm.2.object)
    (hsess : (fm.2 = dIn ∧ fm.1.allObjects = s.allObjects) ∨
      (fm.2.over = none ∧ fm.2.type = "card" ∧ ∃ ci, fm.2.object = Ref.card ci))
    (htypeIn : refTypeStr dIn.object = dIn.type)
    (hoverIn : ∀ r, dIn.over = some r →
      (∃ ci, dIn.object = Ref.card ci) ∧ r ≠ dIn.object ∧
      ∃ k : Int, dIn.overIndex = some k ∧ 0 ≤ k ∧
        s.allObjects.get? k.toNat = some r) :
    WFOwn ((hoverPhase (movePhase fm.1 { fm.2 with draggedYet := true } mx my)
      { fm.2 with draggedYet := true } cx cy).1.setDragging
      (some (hoverPhase (movePhase fm.1 { fm.2 with draggedYet := true } mx my)
        { fm.2 with draggedYet := true } cx cy).2)) ∧
    (ownedCards ((hoverPhase (movePhase fm.1 { fm.2 with draggedYet := true } mx my)
      { fm.2 with draggedYet := true } cx cy).1.setDragging
      (some (hoverPhase (movePhase fm.1 { fm.2 with draggedYet := true } mx my)
        { fm.2 with draggedYet := true } cx cy).2))).Perm (ownedCards s) := by
  refine pipeline_own s fm.1 { fm.2 with draggedYet := true } mx my cx cy hA
    hperm hfresh hlive ?_ ?_ ?_
  · exact hhead
  · rcases hsess with ⟨hsd, _⟩ | ⟨_, hty, ci, hob⟩
    · show refTypeStr fm.2.object = fm.2.type
      rw [hsd]
      exact htypeIn
    · show refTypeStr fm.2.object = fm.2.type
      rw [hob, hty]
      rfl
  · intro r hr
    have hr' : fm.2.over = some r := hr
    rcases hsess with ⟨hsd, hsa⟩ | ⟨hov, _, _⟩
    · rw [hsd] at hr'
      obtain ⟨hcard, hne, k, hoi, hk0, hget⟩ := hoverIn r hr'
      refine ⟨?_, ?_, k, ?_, hk0, ?_⟩
      · show ∃ ci, fm.2.object = Ref.card ci
        rw [hsd]
        exact hcard
      · show r ≠ fm.2.object
        rw [hsd]
        exact hne
      · show fm.2.overIndex = some k
        rw [hsd]
        exact hoi
      · rw [hsa]
        exact hget
    · rw [hov] at hr'
      cases hr'

theorem mousemove_own (s : GameState) (cx cy mx my ts : ℚ) (hWF : WFOwn s) :
    WFOwn (mousemove s cx cy mx my ts) ∧
    (ownedCards (mousemove s cx cy mx my ts)).Perm (ownedCards s) := by
  obtain ⟨hA, hfresh, hlive, hcoh⟩ := hWF
  unfold mousemove
  cases hd : s.dragging with
  | none => exact ⟨⟨hA, hfresh, hlive, hcoh⟩, List.Perm.refl _⟩
  | some dIn =>
    dsimp only
    obtain ⟨hheadIn, htypeIn, hoverIn⟩ := hcoh dIn hd
    by_cases h1 : dIn.draggedYet = true
    · rw [if_pos h1]
      dsimp only
      refine pipeline_own s s _ mx my cx cy hA (List.Perm.refl _) hfresh hlive
        ?_ ?_ ?_
      · exact hheadIn
      · exact htypeIn
      · exact hoverIn
    · rw [if_neg h1]
      by_cases h2 : dIn.type = "card"
      · rw [if_pos h2]
        dsimp only
        refine pipeline_own s s _ mx my cx cy hA (List.Perm.refl _) hfresh hlive
          ?_ ?_ ?_
        · exact hheadIn
        · exact htypeIn
        · exact hoverIn
      · rw [if_neg h2]
        by_cases h3 : dIn.type = "stack"
        · rw [if_pos h3]
          by_cases h4 : dIn.doubleClick = true
          · rw [if_pos h4]
            dsimp only
            refine pipeline_own s s _ mx my cx cy hA (List.Perm.refl _) hfresh
              hlive ?_ ?_ ?_
            · exact hheadIn
            · exact htypeIn
            · exact hoverIn
          · rw [if_neg h4]
            dsimp only
            have hOwn := firstMoveStack_own s { dIn with x := cx, y := cy }
              cx cy ts hA hfresh hlive hheadIn
            have hTgt := firstMoveStack_target s { dIn with x := cx, y := cy }
              cx cy ts hheadIn
            have hSess := firstMoveStack_session s { dIn with x := cx, y := cy }
              cx cy ts
            exact firstmove_pipeline s { dIn with x := cx, y := cy }
              (firstMoveStack s { dIn with x := cx, y := cy } cx cy ts)
              mx my cx cy hA hOwn.1 hOwn.2.1 hOwn.2.2 hTgt hSess htypeIn hoverIn
        · rw [if_neg h3]
          by_cases h5 : dIn.type = "pile"
          · rw [if_pos h5]
            by_cases h4 : dIn.doubleClick = true
            · rw [if_pos h4]
              dsimp only
              refine pipeline_own s s _ mx my cx cy hA (List.Perm.refl _) hfresh
                hlive ?_ ?_ ?_
              · exact hheadIn
              · exact htypeIn
              · exact hoverIn
            · rw [if_neg h4]
              dsimp only
              have hOwn := firstMovePile_own s { dIn with x := cx, y := cy }
                cx cy ts hA hfresh hlive hheadIn
              have hTgt := firstMovePile_target s { dIn with x := cx, y := cy }
                cx cy ts hheadIn
              have hSess := firstMovePile_session s { dIn with x := cx, y := cy }
                cx cy ts
              exact firstmove_pipeline s { dIn with x := cx, y := cy }
                (firstMovePile s { dIn with x := cx, y := cy } cx cy ts)
                mx my cx cy hA hOwn.1 hOwn.2.1 hOwn.2.2 hTgt hSess htypeIn hoverIn
          · rw [if_neg h5]
            dsimp only
            refine pipeline_own s s _ mx my cx cy hA (List.Perm.refl _) hfresh
              hlive ?_ ?_ ?_
            · exact hheadIn
            · exact htypeIn
            · exact hoverIn

/-! ### C6: `mouseup` helper lemmas -/

theorem own3_setLastDragged (s0 x : GameState) (v : Option DragInfo)
    (h : (ownedCards x).Perm (ownedCards s0) ∧ freshIds x ∧ liveGroupsOk x) :
    (ownedCards (x.setLastDragged v)).Perm (ownedCards s0) ∧
    freshIds (x.setLastDragged v) ∧ liveGroupsOk (x.setLastDragged v) :=
  own3_frame rfl rfl (fun j => rfl) h

theorem own3_updGroup_pres (s0 x : GameState) (i : Nat)
    (f : GroupObj → GroupObj) (hf : ∀ g, (f g).id = g.id)
    (hm : ∀ g, (f g).members = g.members)
    (h : (ownedCards x).Perm (ownedCards s0) ∧ freshIds x ∧ liveGroupsOk x) :
    (ownedCards (x.updGroup i f)).Perm (ownedCards s0) ∧
    freshIds (x.updGroup i f) ∧ liveGroupsOk (x.updGroup i f) := by
  refine own3_frame ?_ ?_ (fun j => updGroup_members_pres x i f hf hm j) h
  · rfl
  · rfl

theorem wf_close_setDragging_none (s0 x : GameState)
    (hA0 : (ownedCards s0).Nodup)
    (h : (ownedCards x).Perm (ownedCards s0) ∧ freshIds x ∧ liveGroupsOk x) :
    WFOwn (x.setDragging none) ∧
    (ownedCards (x.setDragging none)).Perm (ownedCards s0) := by
  have hp : (ownedCards (x.setDragging none)).Perm (ownedCards s0) := by
    rw [ownedCards_setDragging]
    exact h.1
  refine ⟨⟨hp.nodup_iff.mpr hA0, freshIds_setDragging _ _ h.2.1, ?_, ?_⟩, hp⟩
  · refine live_transfer (fun r hr => ?_) (fun j => rfl) h.2.2
    rw [setDragging_allObjects] at hr
    exact hr
  · intro d2 hd2
    rw [setDragging_dragging] at hd2
    cases hd2

/-- Dropping the registry head (the dragged card) after its id has been
inserted into the hovered group's member list is an ownership
permutation. -/
theorem drop_head_own (s0 x : GameState) (ci gi : Nat) (kk : GKind)
    (t₁ t₂ : List Ref) (g gx : GroupObj)
    (hao : x.allObjects = Ref.card ci :: (t₁ ++ Ref.group kk gi :: t₂))
    (hs0ao : s0.allObjects = Ref.card ci :: (t₁ ++ Ref.group kk gi :: t₂))
    (hrc : ∀ r', refGid r' ≠ some gi → x.refCards r' = s0.refCards r')
    (hgx : x.getGroup gi = some gx)
    (hgs : s0.getGroup gi = some g)
    (hmemperm : gx.members.Perm (ci :: g.members))
    (hno1 : ∀ r' ∈ t₁, refGid r' ≠ some gi)
    (hno2 : ∀ r' ∈ t₂, refGid r' ≠ some gi)
    (hgother : ∀ jj, jj ≠ gi → x.getGroup jj = s0.getGroup jj)
    (hfreshx : freshIds x)
    (hlives0 : liveGroupsOk s0)
    (hlen : 2 ≤ g.members.length) :
    (ownedCards (x.setList (jsSpliceRemove x.allObjects 0 1).2)).Perm
      (ownedCards s0) ∧
    freshIds (x.setList (jsSpliceRemove x.allObjects 0 1).2) ∧
    liveGroupsOk (x.setList (jsSpliceRemove x.allObjects 0 1).2) := by
  have hsp : (jsSpliceRemove x.allObjects 0 1).2 =
      t₁ ++ Ref.group kk gi :: t₂ := by
    rw [hao, jsSpliceRemove_cons_zero]
  rw [hsp]
  refine ⟨?_, freshIds_setList _ _ hfreshx, ?_⟩
  · have e1 : ownedCards (x.setList (t₁ ++ Ref.group kk gi :: t₂)) =
        s0.ownedList t₁ ++ (gx.members ++ s0.ownedList t₂) := by
      rw [ownedCards_setList, ownedList_append, ownedList_cons]
      rw [ownedList_congr (fun r' hr' => hrc r' (hno1 r' hr'))]
      rw [ownedList_congr (fun r' hr' => hrc r' (hno2 r' hr'))]
      rw [refCards_group, hgx]
      rfl
    have e2' : ownedCards s0 =
        ci :: (s0.ownedList t₁ ++ (g.members ++ s0.ownedList t₂)) := by
      rw [ownedCards_def, hs0ao, ownedList_cons, ownedList_append,
        ownedList_cons, refCards_card, refCards_group, hgs]
      rfl
    rw [e1, e2']
    have s1 : (s0.ownedList t₁ ++ (gx.members ++ s0.ownedList t₂)).Perm
        (s0.ownedList t₁ ++ ((ci :: g.members) ++ s0.ownedList t₂)) :=
      (hmemperm.append_right (s0.ownedList t₂)).append_left (s0.ownedList t₁)
    refine s1.trans ?_
    have hshape : (ci :: g.members) ++ s0.ownedList t₂ =
        ci :: (g.members ++ s0.ownedList t₂) := rfl
    rw [hshape]
    exact List.perm_middle
  · intro r' hr' k' gi' hre
    rw [setList_allObjects] at hr'
    have hxg : ∀ gg, x.getGroup gi' = some gg → 2 ≤ gg.members.length →
        ∃ gg2, (x.setList (t₁ ++ Ref.group kk gi :: t₂)).getGroup gi' = some gg2 ∧
          2 ≤ gg2.members.length := fun gg h1 h2 => ⟨gg, h1, h2⟩
    rcases List.mem_append.mp hr' with h1 | h1
    · have hgi' : gi' ≠ gi := by
        intro he
        apply hno1 r' h1
        rw [hre, he]
        rfl
      obtain ⟨gg, hgg, hggl⟩ := hlives0 r'
        (by rw [hs0ao]
            exact List.mem_cons_of_mem _ (List.mem_append_left _ h1)) k' gi' hre
      exact hxg gg (by rw [hgother gi' hgi']; exact hgg) hggl
    · rcases List.mem_cons.mp h1 with h2 | h2
      · rw [hre] at h2
        injection h2 with hk2 hg2
        subst hg2
        refine hxg gx hgx ?_
        have := hmemperm.length_eq
        simp at this
        omega
      · have hgi' : gi' ≠ gi := by
          intro he
          apply hno2 r' h2
          rw [hre, he]
          rfl
        obtain ⟨gg, hgg, hggl⟩ := hlives0 r'
          (by rw [hs0ao]
              exact List.mem_cons_of_mem _
                (List.mem_append_right _ (List.mem_cons_of_mem _ h2))) k' gi' hre
        exact hxg gg (by rw [hgother gi' hgi']; exact hgg) hggl

theorem mergeInto_getGroup_other (s : GameState) (d : DragInfo) (hc : Card)
    (kk : GKind) (jj : Nat) (hjj : jj ≠ s.nextId) :
    (mergeInto s d hc kk).getGroup jj = s.getGroup jj := by
  unfold mergeInto
  dsimp only
  rw [getGroup_updGroup_other _ s.nextId jj
      (fun g => { g with direction := hc.direction }) (fun g2 => rfl) hjj,
    getGroup_updGroup_other _ s.nextId jj
      (fun g => { g with flipped := hc.flipped }) (fun g2 => rfl) hjj,
    setList_getGroup, pushGroup_getGroup]
  cases s.getGroup jj with
  | some gg => rfl
  | none =>
    show Option.elim none _ some = none
    rw [Option.elim]
    rw [if_neg (fun he => hjj he.symm)]

theorem mergeInto_nextId (s : GameState) (d : DragInfo) (hc : Card)
    (kk : GKind) : (mergeInto s d hc kk).nextId = s.nextId + 1 := by
  unfold mergeInto
  dsimp only
  rw [updGroup_nextId, updGroup_nextId, setList_nextId, pushGroup_nextId]

theorem mergeInto_fresh (s : GameState) (d : DragInfo) (hc : Card) (kk : GKind)
    (hfresh : freshIds s) : freshIds (mergeInto s d hc kk) := by
  intro jj hjj
  rw [mergeInto_nextId] at hjj
  rw [mergeInto_getGroup_other s d hc kk jj (by omega)]
  exact hfresh jj (by omega)

theorem mergeInto_own (s : GameState) (d : DragInfo) (hc : Card) (kk : GKind)
    (ci hi : Nat) (t1 t2 : List Ref)
    (hobj : d.object = Ref.card ci)
    (hsplit : s.allObjects = Ref.card ci :: (t1 ++ Ref.card hi :: t2))
    (hoi : d.overIndex = some ((t1.length + 1 : Nat) : Int))
    (hfresh : freshIds s) (hlive : liveGroupsOk s) :
    (ownedCards (mergeInto s d hc kk)).Perm (ownedCards s) ∧
    freshIds (mergeInto s d hc kk) ∧ liveGroupsOk (mergeInto s d hc kk) := by
  have hspec := mergeInto_spec s d ci hi hc t1 t2 kk hobj hoi hsplit
    (hfresh s.nextId (le_refl _))
  have hao' := hspec.1
  have hg' := hspec.2.1
  have hmemS : ∀ r' ∈ t1 ++ Ref.card hi :: t2, r' ∈ s.allObjects := by
    intro r' hr'
    rw [hsplit]
    exact List.mem_cons_of_mem _ hr'
  have hmem12 : ∀ r', r' ∈ t1 ++ t2 → r' ∈ s.allObjects := by
    intro r' hr'
    refine hmemS r' ?_
    rcases List.mem_append.mp hr' with h1 | h1
    · exact List.mem_append_left _ h1
    · exact List.mem_append_right _ (List.mem_cons_of_mem _ h1)
  have hrco : ∀ r', r' ∈ s.allObjects →
      (mergeInto s d hc kk).refCards r' = s.refCards r' := by
    intro r' hr'
    cases r' with
    | card j => rfl
    | group k' gi =>
      obtain ⟨gg, hgg, hggl⟩ := hlive _ hr' k' gi rfl
      have hgi : gi ≠ s.nextId := by
        intro he
        rw [he, hfresh s.nextId (le_refl _)] at hgg
        cases hgg
      rw [refCards_group, refCards_group,
        mergeInto_getGroup_other s d hc kk gi hgi]
  refine ⟨?_, mergeInto_fresh s d hc kk hfresh, ?_⟩
  · have e1 : ownedCards (mergeInto s d hc kk) =
        hi :: ci :: (s.ownedList t1 ++ s.ownedList t2) := by
      rw [ownedCards_def, hao', ownedList_cons, refCards_group, hg',
        ownedList_congr (fun r' hr' => hrco r' (hmem12 r' hr')),
        ownedList_append]
      rfl
    have e2 : ownedCards s =
        ci :: (s.ownedList t1 ++ (hi :: s.ownedList t2)) := by
      rw [ownedCards_def, hsplit, ownedList_cons, refCards_card,
        ownedList_append, ownedList_cons, refCards_card]
      rfl
    rw [e1, e2]
    exact (List.Perm.swap ci hi _).trans (List.perm_middle.symm.cons ci)
  · intro r' hr' k' gi hre
    rw [hao'] at hr'
    rcases List.mem_cons.mp hr' with h1 | h1
    · rw [hre] at h1
      injection h1 with hk1 hg1
      subst hg1
      exact ⟨_, hg', by norm_num⟩
    · obtain ⟨gg, hgg, hggl⟩ := hlive r' (hmem12 r' h1) k' gi hre
      have hgi : gi ≠ s.nextId := by
        intro he
        rw [he, hfresh s.nextId (le_refl _)] at hgg
        cases hgg
      exact ⟨gg, by rw [mergeInto_getGroup_other s d hc kk gi hgi]; exact hgg,
        hggl⟩

theorem getGroup_updGroup_self_some (x : GameState) (gi : Nat)
    (f : GroupObj → GroupObj) (hf : ∀ g, (f g).id = g.id) (g : GroupObj)
    (hg : x.getGroup gi = some g) :
    (x.updGroup gi f).getGroup gi = some (f g) := by
  rw [getGroup_updGroup_self x gi f hf, hg]
  rfl

/-! ### C6: shape-specialised update lemmas for the `mouseup` branches -/

theorem consm_refCards_ne (x : GameState) (gi ci : Nat) (r' : Ref)
    (hr : refGid r' ≠ some gi) :
    (x.updGroup gi (fun g2 =>
      { g2 with members := ci :: g2.members })).refCards r' = x.refCards r' :=
  refCards_updGroup_ne x gi (fun g2 => { g2 with members := ci :: g2.members })
    (fun g2 => rfl) r' hr

theorem consm_getGroup_self (x : GameState) (gi ci : Nat) (g : GroupObj)
    (hg : x.getGroup gi = some g) :
    (x.updGroup gi (fun g2 =>
      { g2 with members := ci :: g2.members })).getGroup gi =
      some { g with members := ci :: g.members } :=
  getGroup_updGroup_self_some x gi
    (fun g2 => { g2 with members := ci :: g2.members }) (fun g2 => rfl) g hg

theorem consm_getGroup_other (x : GameState) (gi ci : Nat) (jj : Nat)
    (hjj : jj ≠ gi) :
    (x.updGroup gi (fun g2 =>
      { g2 with members := ci :: g2.members })).getGroup jj = x.getGroup jj :=
  getGroup_updGroup_other x gi jj
    (fun g2 => { g2 with members := ci :: g2.members }) (fun g2 => rfl) hjj

theorem consm_fresh (x : GameState) (gi ci : Nat) (h : freshIds x) :
    freshIds (x.updGroup gi (fun g2 =>
      { g2 with members := ci :: g2.members })) :=
  freshIds_updGroup x gi (fun g2 => { g2 with members := ci :: g2.members })
    (fun g2 => rfl) h

theorem ins_refCards_ne (x : GameState) (gi ci : Nat) (pos : Int) (r' : Ref)
    (hr : refGid r' ≠ some gi) :
    (x.updGroup gi (fun g2 =>
      { g2 with members := jsSpliceInsert g2.members pos 0 [ci] })).refCards r' =
      x.refCards r' :=
  refCards_updGroup_ne x gi
    (fun g2 => { g2 with members := jsSpliceInsert g2.members pos 0 [ci] })
    (fun g2 => rfl) r' hr

theorem ins_getGroup_self (x : GameState) (gi ci : Nat) (pos : Int)
    (g : GroupObj) (hg : x.getGroup gi = some g) :
    (x.updGroup gi (fun g2 =>
      { g2 with members := jsSpliceInsert g2.members pos 0 [ci] })).getGroup gi =
      some { g with members := jsSpliceInsert g.members pos 0 [ci] } :=
  getGroup_updGroup_self_some x gi
    (fun g2 => { g2 with members := jsSpliceInsert g2.members pos 0 [ci] })
    (fun g2 => rfl) g hg

theorem ins_getGroup_other (x : GameState) (gi ci : Nat) (pos : Int) (jj : Nat)
    (hjj : jj ≠ gi) :
    (x.updGroup gi (fun g2 =>
      { g2 with members := jsSpliceInsert g2.members pos 0 [ci] })).getGroup jj =
      x.getGroup jj :=
  getGroup_updGroup_other x gi jj
    (fun g2 => { g2 with members := jsSpliceInsert g2.members pos 0 [ci] })
    (fun g2 => rfl) hjj

theorem ins_fresh (x : GameState) (gi ci : Nat) (pos : Int) (h : freshIds x) :
    freshIds (x.updGroup gi (fun g2 =>
      { g2 with members := jsSpliceInsert g2.members pos 0 [ci] })) :=
  freshIds_updGroup x gi
    (fun g2 => { g2 with members := jsSpliceInsert g2.members pos 0 [ci] })
    (fun g2 => rfl) h

theorem outl_refCards (x : GameState) (gi : Nat) (r' : Ref) :
    (x.updGroup gi (fun g2 =>
      { g2 with outlineIndex := none, lastOutline := false })).refCards r' =
      x.refCards r' :=
  refCards_eq_of_members_eq
    (fun j => updGroup_members_pres x gi
      (fun g2 => { g2 with outlineIndex := none, lastOutline := false })
      (fun g2 => rfl) (fun g2 => rfl) j) r'

theorem outl_getGroup_self (x : GameState) (gi : Nat) (g : GroupObj)
    (hg : x.getGroup gi = some g) :
    (x.updGroup gi (fun g2 =>
      { g2 with outlineIndex := none, lastOutline := false })).getGroup gi =
      some { g with outlineIndex := none, lastOutline := false } :=
  getGroup_updGroup_self_some x gi
    (fun g2 => { g2 with outlineIndex := none, lastOutline := false })
    (fun g2 => rfl) g hg

theorem outl_getGroup_other (x : GameState) (gi : Nat) (jj : Nat)
    (hjj : jj ≠ gi) :
    (x.updGroup gi (fun g2 =>
      { g2 with outlineIndex := none, lastOutline := false })).getGroup jj =
      x.getGroup jj :=
  getGroup_updGroup_other x gi jj
    (fun g2 => { g2 with outlineIndex := none, lastOutline := false })
    (fun g2 => rfl) hjj

theorem outl_fresh (x : GameState) (gi : Nat) (h : freshIds x) :
    freshIds (x.updGroup gi (fun g2 =>
      { g2 with outlineIndex := none, lastOutline := false })) :=
  freshIds_updGroup x gi
    (fun g2 => { g2 with outlineIndex := none, lastOutline := false })
    (fun g2 => rfl) h


theorem stack_ins_own_B (s0 : GameState) (v : Option DragInfo) (ci gi : Nat)
    (pos : Int) (t1 t2 : List Ref) (g : GroupObj)
    (hsplit : s0.allObjects =
      Ref.card ci :: (t1 ++ Ref.group GKind.stack gi :: t2))
    (hg : s0.getGroup gi = some g)
    (hglen : 2 <= g.members.length)
    (hno1 : forall r' : Ref, r' ∈ t1 -> refGid r' ≠ some gi)
    (hno2 : forall r' : Ref, r' ∈ t2 -> refGid r' ≠ some gi)
    (hfresh : freshIds s0) (hlive : liveGroupsOk s0) :
    (ownedCards ((((s0.setLastDragged v).updGroup gi (fun g2 =>
      { g2 with members := jsSpliceInsert g2.members pos 0 [ci] }))).setList
      (jsSpliceRemove (((s0.setLastDragged v).updGroup gi (fun g2 =>
      { g2 with members := jsSpliceInsert g2.members pos 0 [ci] }))).allObjects 0 1).2)).Perm (ownedCards s0) ∧
    freshIds ((((s0.setLastDragged v).updGroup gi (fun g2 =>
      { g2 with members := jsSpliceInsert g2.members pos 0 [ci] }))).setList
      (jsSpliceRemove (((s0.setLastDragged v).updGroup gi (fun g2 =>
      { g2 with members := jsSpliceInsert g2.members pos 0 [ci] }))).allObjects 0 1).2) ∧ liveGroupsOk ((((s0.setLastDragged v).updGroup gi (fun g2 =>
      { g2 with members := jsSpliceInsert g2.members pos 0 [ci] }))).setList
      (jsSpliceRemove (((s0.setLastDragged v).updGroup gi (fun g2 =>
      { g2 with members := jsSpliceInsert g2.members pos 0 [ci] }))).allObjects 0 1).2) := by
  refine drop_head_own s0 _ ci gi .stack t1 t2 g
    { g with members := jsSpliceInsert g.members pos 0 [ci] } ?_ hsplit ?_ ?_
    hg (jsSpliceInsert_perm_cons g.members pos ci) hno1 hno2 ?_ ?_ hlive hglen
  · rw [updGroup_allObjects, setLastDragged_allObjects]
    exact hsplit
  · intro r' hgid
    exact (ins_refCards_ne _ gi ci pos r' hgid).trans
      (refCards_setLastDragged s0 v r')
  · exact ins_getGroup_self _ gi ci pos g hg
  · intro jj hjj
    exact (ins_getGroup_other _ gi ci pos jj hjj).trans
      (setLastDragged_getGroup s0 v jj)
  · exact ins_fresh _ gi ci pos (freshIds_setLastDragged s0 v hfresh)

theorem stack_ins_own_A (s0 : GameState) (v : Option DragInfo) (ci gi : Nat)
    (pos : Int) (t1 t2 : List Ref) (g : GroupObj)
    (hsplit : s0.allObjects =
      Ref.card ci :: (t1 ++ Ref.group GKind.stack gi :: t2))
    (hg : s0.getGroup gi = some g)
    (hglen : 2 <= g.members.length)
    (hno1 : forall r' : Ref, r' ∈ t1 -> refGid r' ≠ some gi)
    (hno2 : forall r' : Ref, r' ∈ t2 -> refGid r' ≠ some gi)
    (hfresh : freshIds s0) (hlive : liveGroupsOk s0) :
    (ownedCards ((((((s0.setLastDragged v).updGroup gi (fun g2 =>
      { g2 with members := jsSpliceInsert g2.members pos 0 [ci] }))).updGroup gi
      (fun g2 => { g2 with outlineIndex := none, lastOutline := false }))).setList
      (jsSpliceRemove (((((s0.setLastDragged v).updGroup gi (fun g2 =>
      { g2 with members := jsSpliceInsert g2.members pos 0 [ci] }))).updGroup gi
      (fun g2 => { g2 with outlineIndex := none, lastOutline := false }))).allObjects 0 1).2)).Perm (ownedCards s0) ∧
    freshIds ((((((s0.setLastDragged v).updGroup gi (fun g2 =>
      { g2 with members := jsSpliceInsert g2.members pos 0 [ci] }))).updGroup gi
      (fun g2 => { g2 with outlineIndex := none, lastOutline := false }))).setList
      (jsSpliceRemove (((((s0.setLastDragged v).updGroup gi (fun g2 =>
      { g2 with members := jsSpliceInsert g2.members pos 0 [ci] }))).updGroup gi
      (fun g2 => { g2 with outlineIndex := none, lastOutline := false }))).allObjects 0 1).2) ∧ liveGroupsOk ((((((s0.setLastDragged v).updGroup gi (fun g2 =>
      { g2 with members := jsSpliceInsert g2.members pos 0 [ci] }))).updGroup gi
      (fun g2 => { g2 with outlineIndex := none, lastOutline := false }))).setList
      (jsSpliceRemove (((((s0.setLastDragged v).updGroup gi (fun g2 =>
      { g2 with members := jsSpliceInsert g2.members pos 0 [ci] }))).updGroup gi
      (fun g2 => { g2 with outlineIndex := none, lastOutline := false }))).allObjects 0 1).2) := by
  refine drop_head_own s0 _ ci gi .stack t1 t2 g
    { { g with members := jsSpliceInsert g.members pos 0 [ci] } with
      outlineIndex := none, lastOutline := false } ?_ hsplit ?_ ?_
    hg (jsSpliceInsert_perm_cons g.members pos ci) hno1 hno2 ?_ ?_ hlive hglen
  · rw [updGroup_allObjects, updGroup_allObjects, setLastDragged_allObjects]
    exact hsplit
  · intro r' hgid
    exact (outl_refCards _ gi r').trans
      ((ins_refCards_ne _ gi ci pos r' hgid).trans
        (refCards_setLastDragged s0 v r'))
  · exact outl_getGroup_self _ gi _ (ins_getGroup_self _ gi ci pos g hg)
  · intro jj hjj
    exact (outl_getGroup_other _ gi jj hjj).trans
      ((ins_getGroup_other _ gi ci pos jj hjj).trans
        (setLastDragged_getGroup s0 v jj))
  · exact outl_fresh _ gi (ins_fresh _ gi ci pos
      (freshIds_setLastDragged s0 v hfresh))

/-! ### C6: `mouseup` preserves the invariant -/

set_option maxHeartbeats 1000000 in
theorem mouseup_own (s : GameState) (hWF : WFOwn s) :
    WFOwn (mouseup s) ∧ (ownedCards (mouseup s)).Perm (ownedCards s) := by
  obtain ⟨hA, hfresh, hlive, hcoh⟩ := hWF
  unfold mouseup
  cases hd : s.dragging with
  | none => exact ⟨⟨hA, hfresh, hlive, hcoh⟩, List.Perm.refl _⟩
  | some d =>
    dsimp only
    obtain ⟨hhead, htype, hover⟩ := hcoh d hd
    have base : (ownedCards (s.setLastDragged (some d))).Perm (ownedCards s) ∧
        freshIds (s.setLastDragged (some d)) ∧
        liveGroupsOk (s.setLastDragged (some d)) :=
      own3_setLastDragged s s (some d) ⟨List.Perm.refl _, hfresh, hlive⟩
    cases hov : d.over with
    | none =>
      exact wf_close_setDragging_none s _ hA base
    | some r =>
      obtain ⟨⟨ci, hobj⟩, hne, k, hoi, hk0, hget⟩ := hover r hov
      rw [hobj] at hhead
      obtain ⟨t, ht⟩ := head?_shape _ _ hhead
      have hget' : s.allObjects.get? k.toNat = some r := hget
      have hn1 : 1 ≤ k.toNat := by
        by_contra hcon
        have h0 : k.toNat = 0 := by omega
        rw [h0, ht, List.get?_cons_zero] at hget'
        injection hget' with hre
        exact hne (by rw [hobj, ← hre])
      obtain ⟨n', hn'⟩ : ∃ n', k.toNat = n' + 1 := ⟨k.toNat - 1, by omega⟩
      have hgt : t.get? n' = some r := by
        rw [ht, hn'] at hget'
        simpa using hget'
      have hrmem : r ∈ t := List.get?_mem hgt
      have ho0 : (s.setLastDragged (some d)).objAt 0 = some (Ref.card ci) := by
        rw [GameState.objAt, setLastDragged_allObjects, ht]
        rfl
      cases r with
      | card hi =>
        dsimp only
        cases hcrd : (s.setLastDragged (some d)).getCard hi with
        | none =>
          dsimp only
          exact wf_close_setDragging_none s _ hA base
        | some hcard =>
          dsimp only
          have hnlt : n' < t.length := by
            rw [List.get?_eq_getElem?] at hgt
            exact (List.getElem?_eq_some.mp hgt).1
          have hsplit2 : t = t.take n' ++ Ref.card hi :: t.drop (n' + 1) :=
            get_split t n' _ hgt
          have hsplitSL : (s.setLastDragged (some d)).allObjects =
              Ref.card ci :: (t.take n' ++ Ref.card hi :: t.drop (n' + 1)) := by
            rw [setLastDragged_allObjects, ht]
            exact congrArg (fun l => Ref.card ci :: l) hsplit2
          have hoi2 : d.overIndex =
              some (((t.take n').length + 1 : Nat) : Int) := by
            rw [hoi]
            rw [← Int.toNat_of_nonneg hk0, hn']
            rw [List.length_take, Nat.min_eq_left (Nat.le_of_lt hnlt)]
          have hfreshSL : freshIds (s.setLastDragged (some d)) :=
            freshIds_setLastDragged s (some d) hfresh
          have hliveSL : liveGroupsOk (s.setLastDragged (some d)) := base.2.2
          have hmrg : ∀ kk : GKind,
              (ownedCards (mergeInto (s.setLastDragged (some d)) d hcard kk)).Perm
                (ownedCards s) ∧
              freshIds (mergeInto (s.setLastDragged (some d)) d hcard kk) ∧
              liveGroupsOk (mergeInto (s.setLastDragged (some d)) d hcard kk) := by
            intro kk
            have h3 := mergeInto_own (s.setLastDragged (some d)) d hcard kk ci hi
              (t.take n') (t.drop (n' + 1)) hobj hsplitSL hoi2 hfreshSL hliveSL
            refine ⟨?_, h3.2.1, h3.2.2⟩
            refine h3.1.trans ?_
            rw [ownedCards_setLastDragged]
          repeat' split
          · exact wf_close_setDragging_none s _ hA (hmrg .stack)
          · exact wf_close_setDragging_none s _ hA (hmrg .pile)
          · exact wf_close_setDragging_none s _ hA base
          · exact wf_close_setDragging_none s _ hA base
      | group gk gi =>
        obtain ⟨g, hg, hglen⟩ := hlive (Ref.group gk gi)
          (by rw [ht]; exact List.mem_cons_of_mem _ hrmem) gk gi rfl
        obtain ⟨t1, t2, ht12⟩ := List.append_of_mem hrmem
        have hmemne : g.members ≠ [] := by
          intro he
          rw [he] at hglen
          simp at hglen
        have hsplitAll : s.allObjects =
            (Ref.card ci :: t1) ++ Ref.group gk gi :: t2 := by
          rw [ht, ht12]
          rfl
        have hsplitAll2 : s.allObjects =
            Ref.card ci :: (t1 ++ Ref.group gk gi :: t2) := hsplitAll
        have hno := no_other_gid s gi g (Ref.card ci :: t1) t2 (Ref.group gk gi)
          hA hg hmemne hsplitAll (by simp [refGid])
        have hno1 : ∀ r' ∈ t1, refGid r' ≠ some gi :=
          fun r' hr' => hno.1 r' (List.mem_cons_of_mem _ hr')
        have hno2 := hno.2
        have hgSL : (s.setLastDragged (some d)).getGroup gi = some g := hg
        cases gk with
        | pile =>
          dsimp only
          rw [ho0]
          dsimp only
          refine wf_close_setDragging_none s _ hA ?_
          refine drop_head_own s _ ci gi .pile t1 t2 g
            { g with members := ci :: g.members } ?_ hsplitAll2 ?_ ?_ hg
            (List.Perm.refl _) hno1 hno2 ?_ ?_ hlive hglen
          · rw [updGroup_allObjects, setLastDragged_allObjects]
            exact hsplitAll2
          · intro r' hgid
            exact (consm_refCards_ne _ gi ci r' hgid).trans
              (refCards_setLastDragged s (some d) r')
          · exact consm_getGroup_self _ gi ci g hgSL
          · intro jj hjj
            exact (consm_getGroup_other _ gi ci jj hjj).trans
              (setLastDragged_getGroup s (some d) jj)
          · exact consm_fresh _ gi ci
              (freshIds_setLastDragged s (some d) hfresh)
        | stack =>
          dsimp only
          rw [setLastDragged_getGroup, hg, ho0]
          dsimp only
          generalize getSpecCardIndex g d.x d.y false = osci
          cases osci with
          | none =>
            dsimp only
            split
            · refine wf_close_setDragging_none s _ hA ?_
              exact stack_ins_own_A s (some d) ci gi 0 t1 t2 g hsplitAll2 hg
                hglen hno1 hno2 hfresh hlive
            · refine wf_close_setDragging_none s _ hA ?_
              exact stack_ins_own_B s (some d) ci gi 0 t1 t2 g hsplitAll2 hg
                hglen hno1 hno2 hfresh hlive
          | some i =>
            dsimp only
            by_cases hgt2 : i > (g.members.length : Int)
            · simp only [if_pos hgt2]
              split
              · refine wf_close_setDragging_none s _ hA ?_
                exact stack_ins_own_A s (some d) ci gi _ t1 t2 g hsplitAll2 hg
                  hglen hno1 hno2 hfresh hlive
              · refine wf_close_setDragging_none s _ hA ?_
                exact stack_ins_own_B s (some d) ci gi _ t1 t2 g hsplitAll2 hg
                  hglen hno1 hno2 hfresh hlive
            · simp only [if_neg hgt2]
              split
              · refine wf_close_setDragging_none s _ hA ?_
                exact stack_ins_own_A s (some d) ci gi i t1 t2 g hsplitAll2 hg
                  hglen hno1 hno2 hfresh hlive
              · refine wf_close_setDragging_none s _ hA ?_
                exact stack_ins_own_B s (some d) ci gi i t1 t2 g hsplitAll2 hg
                  hglen hno1 hno2 hfresh hlive

theorem wC6State_wf : WFOwn wC6State := by
  refine ⟨by decide, ?_, ?_, ?_⟩
  · intro j hj
    have h10 : wC6State.nextId = 10 := rfl
    rw [h10] at hj
    show List.find? _ _ = none
    have hgr : wC6State.groups = [wG3] := rfl
    rw [hgr, List.find?_cons_of_neg, List.find?_nil]
    simp only [decide_eq_true_eq]
    show ¬ ((0 : Nat) = j)
    omega
  · intro r hr k gi hre
    have hr2 : r = Ref.group GKind.stack 0 ∨ r = Ref.card 4 := by
      simpa [wC6State] using hr
    rcases hr2 with h1 | h1
    · rw [h1] at hre
      injection hre with hk hgi
      rw [← hgi]
      exact ⟨wG3, rfl, by decide⟩
    · rw [h1] at hre
      cases hre
  · intro d2 hd2
    cases hd2

/-- Claim C6: every operation of the drag controller — the pointer-down
raise, the first-pointer-move extraction and degeneration, and the
pointer-up merge/insert — preserves the invariant that every live entity
appears exactly once.  `WFOwn` is the well-formedness invariant whose
core is `Nodup (ownedCards s)`: the registry flattened through group
membership lists every live card exactly once (each card either a
standalone entry or a member of exactly one group entry that itself
appears exactly once).  Each handler returns a state that is again
well-formed, and its flattened ownership sequence is a permutation of
the previous one, so no card is duplicated or lost by any transition. -/
theorem c6_ownership_once (s : GameState) (px py cx cy mx my ts ts2 : ℚ)
    (b : Nat) (h : WFOwn s) :
    (WFOwn (mousedown s px py b ts) ∧
      (ownedCards (mousedown s px py b ts)).Perm (ownedCards s)) ∧
    (WFOwn (mousemove s cx cy mx my ts2) ∧
      (ownedCards (mousemove s cx cy mx my ts2)).Perm (ownedCards s)) ∧
    (WFOwn (mouseup s) ∧ (ownedCards (mouseup s)).Perm (ownedCards s)) :=
  ⟨mousedown_own s px py ts b h, mousemove_own s cx cy mx my ts2 h,
   mouseup_own s h⟩

/-- Witness for C6 at a concrete well-formed scene (a three-card stack
and a standalone card, idle session). -/
theorem c6_witness :
    (WFOwn (mousedown wC6State 130 150 0 1000) ∧
      (ownedCards (mousedown wC6State 130 150 0 1000)).Perm
        (ownedCards wC6State)) ∧
    (WFOwn (mousemove wC6State 132 151 2 1 1100) ∧
      (ownedCards (mousemove wC6State 132 151 2 1 1100)).Perm
        (ownedCards wC6State)) ∧
    (WFOwn (mouseup wC6State) ∧
      (ownedCards (mouseup wC6State)).Perm (ownedCards wC6State)) :=
  c6_ownership_once wC6State 130 150 132 151 2 1 1000 1100 0 wC6State_wf

end Cards
